import Mathlib

/-!
# PredictoR betting ledger (qubic-contracts/HM25.h)

A shallow embedding of the contract in `src/qubic-contracts/HM25.h` and
theorems about its operations.  The entry points of the collection-based
draft `src/qubic-contracts/PredictoR.h` are embedded in the namespace
`PredictoR`, near the end of the definitions.

Conventions of the embedding

* `uint32` and `uint8` values are natural numbers; every arithmetic step that
  can leave the 32-bit range is reduced `% 4294967296` as the C++ does.  A loop
  index `i` is only incremented under the loop guard `i < count`, so it cannot
  leave the range and is incremented without reduction.
* a `uint8` used as a condition is true when it is not `0`.
* the fixed-size arrays `users`, `events`, `bets` are total functions on slot
  numbers; the contract only reads and writes slots below the capacities.
* `invocator()` and `system.tick` are explicit arguments of every operation.
* `m256i` identities are natural numbers, compared with `=` (`isEqual`).
* the output buffer is the returned record (only the fields the code writes).
-/

set_option linter.unusedVariables false

namespace HM25

/-! ## Constants -/

def DEFAULT_BALANCE : Nat := 100
def BET_COST : Nat := 10
def WIN_REWARD : Nat := 20
def MAX_USERS : Nat := 10000
def MAX_EVENTS : Nat := 1000
def MAX_BETS : Nat := 100000

/-! ## Byte buffers -/

/-- A fixed-width `char` buffer, as the list of its bytes. -/
abbrev Text := List Nat

/-- The bytes of a C string literal, with its terminating NUL. -/
def cstr (s : String) : Text := s.toList.map Char.toNat ++ [0]

/-- The call `copyMem(dst, src, n)`: the first `n` bytes of `dst` are replaced
by those of `src`; `dst` keeps its width.  A byte read past the end of `src`
is read as `0`. -/
def copyMem (dst src : Text) (n : Nat) : Text :=
  (List.range dst.length).map (fun i => if i < n then src.getD i 0 else dst.getD i 0)

/-! ## Input and output records -/

structure RegisterUserInput where
  username : Text
  passwordHash : Text

structure RegisterUserOutput where
  userId : Nat
  balance : Nat
  success : Nat
deriving DecidableEq, Repr

structure CreateEventInput where
  title : Text
  description : Text
  category : Text
  endsAt : Nat

structure CreateEventOutput where
  eventId : Nat
  success : Nat
deriving DecidableEq, Repr

structure PlaceBetInput where
  userId : Nat
  eventId : Nat
  prediction : Nat
  amount : Nat

structure PlaceBetOutput where
  betId : Nat
  newBalance : Nat
  success : Nat
deriving DecidableEq, Repr

structure ResolveEventInput where
  eventId : Nat
  correctAnswer : Nat
  confidence : Nat

structure ResolveEventOutput where
  winnersCount : Nat
  totalPayout : Nat
  success : Nat
deriving DecidableEq, Repr

structure GetBalanceInput where
  userId : Nat

structure GetBalanceOutput where
  balance : Nat
  success : Nat
deriving DecidableEq, Repr

structure GetEventsInput where
  startIndex : Nat
  count : Nat

structure GetEventsOutput where
  eventCount : Nat
  success : Nat
deriving DecidableEq, Repr

/-! ## Stored entities -/

structure User where
  username : Text
  passwordHash : Text
  balance : Nat
  totalBets : Nat
  totalWins : Nat
  isActive : Nat
  id : Nat
deriving DecidableEq, Repr

structure Event where
  title : Text
  description : Text
  category : Text
  createdAt : Nat
  endsAt : Nat
  isActive : Nat
  isResolved : Nat
  correctAnswer : Nat
  totalBets : Nat
  yesBets : Nat
  noBets : Nat
  id : Nat
deriving DecidableEq, Repr

structure Bet where
  userId : Nat
  eventId : Nat
  prediction : Nat
  amount : Nat
  createdAt : Nat
  isWon : Nat
  isProcessed : Nat
  id : Nat
deriving DecidableEq, Repr

/-- The whole ledger, with the scratch fields the struct declares. -/
structure CONTRACT_STATE where
  users : Nat → User
  events : Nat → Event
  bets : Nat → Bet
  userCount : Nat
  eventCount : Nat
  betCount : Nat
  defaultBalance : Nat
  betCost : Nat
  winReward : Nat
  totalUsers : Nat
  totalEvents : Nat
  totalBets : Nat
  totalVolume : Nat
  adminId : Nat
  contractActive : Nat
  tempUserId : Nat
  tempEventId : Nat
  tempBetId : Nat
  tempBalance : Nat
  tempAmount : Nat
  tempResult : Nat
  tempCount : Nat
  tempIndex : Nat
  tempUser : User
  tempEvent : Event
  tempBet : Bet

/-- The array store `a[i] = v`. -/
def setAt {α : Type} (a : Nat → α) (i : Nat) (v : α) : Nat → α :=
  fun j => if j = i then v else a j

/-! ## Initialize -/

/-- One of the four sample events of `Initialize`: the fields of `tempEvent`
that the code assigns (the answer field keeps its old content), then the store
at slot `eventCount` and the increment of `eventCount`. -/
def seedEvent (tick id : Nat) (title : String) (tlen : Nat) (descr : String) (dlen : Nat)
    (cat : String) (clen : Nat) (span : Nat) (state : CONTRACT_STATE) : CONTRACT_STATE :=
  let e : Event :=
    { state.tempEvent with
      id := id
      title := copyMem state.tempEvent.title (cstr title) tlen
      description := copyMem state.tempEvent.description (cstr descr) dlen
      category := copyMem state.tempEvent.category (cstr cat) clen
      createdAt := tick
      endsAt := (tick + span) % 4294967296
      isActive := 1
      isResolved := 0
      totalBets := 0
      yesBets := 0
      noBets := 0 }
  { state with
    tempEvent := e
    events := setAt state.events state.eventCount e
    eventCount := (state.eventCount + 1) % 4294967296 }

/-- The procedure `Initialize`. -/
def Initialize (invocator tick : Nat) (state : CONTRACT_STATE) : CONTRACT_STATE :=
  let s0 : CONTRACT_STATE :=
    { state with
      defaultBalance := DEFAULT_BALANCE
      betCost := BET_COST
      winReward := WIN_REWARD
      contractActive := 1
      userCount := 0
      eventCount := 0
      betCount := 0
      totalUsers := 0
      totalEvents := 0
      totalBets := 0
      totalVolume := 0
      adminId := invocator }
  let s1 : CONTRACT_STATE :=
    if s0.eventCount = 0 then
      let a := seedEvent tick 1 "Will Tesla stock reach $300 by end of 2025?" 45
        "Predict whether Tesla's stock price will hit $300 per share by December 31, 2025." 84
        "Technology" 11 604800 s0
      let b := seedEvent tick 2 "Will Bitcoin reach $150,000 by end of 2025?" 44
        "Predict whether Bitcoin will hit the $150,000 milestone by December 2025." 74
        "Crypto" 7 1209600 a
      let c := seedEvent tick 3 "Will there be a new iPhone model released in 2025?" 51
        "Predict whether Apple will announce a new iPhone model during 2025." 68
        "Technology" 11 864000 b
      let d := seedEvent tick 4 "Will SpaceX successfully land humans on Mars in 2025?" 54
        "Predict whether SpaceX will achieve their goal of landing humans on Mars during 2025." 86
        "Space" 6 1814400 c
      { d with totalEvents := 4 }
    else s0
  if s1.userCount = 0 then
    let u : User :=
      { s1.tempUser with
        id := 1
        username := copyMem s1.tempUser.username (cstr "player1") 8
        passwordHash := copyMem s1.tempUser.passwordHash (cstr "password") 9
        balance := DEFAULT_BALANCE
        totalBets := 0
        totalWins := 0
        isActive := 1 }
    { s1 with
      tempUser := u
      users := setAt s1.users s1.userCount u
      userCount := (s1.userCount + 1) % 4294967296
      totalUsers := 1 }
  else s1

/-! ## RegisterUser -/

/-- The function `RegisterUser`. -/
def RegisterUser (invocator tick : Nat) (input : RegisterUserInput) (state : CONTRACT_STATE) :
    CONTRACT_STATE × RegisterUserOutput :=
  if state.contractActive = 0 then
    (state, { userId := 0, balance := 0, success := 0 })
  else if state.userCount ≥ MAX_USERS then
    (state, { userId := 0, balance := 0, success := 0 })
  else
    let u : User :=
      { state.tempUser with
        id := (state.userCount + 1) % 4294967296
        username := copyMem state.tempUser.username input.username 32
        passwordHash := copyMem state.tempUser.passwordHash input.passwordHash 32
        balance := state.defaultBalance
        totalBets := 0
        totalWins := 0
        isActive := 1 }
    ({ state with
        tempUser := u
        users := setAt state.users state.userCount u
        userCount := (state.userCount + 1) % 4294967296
        totalUsers := (state.totalUsers + 1) % 4294967296 },
      { userId := u.id, balance := state.defaultBalance, success := 1 })

/-! ## CreateEvent -/

/-- The function `CreateEvent`. -/
def CreateEvent (invocator tick : Nat) (input : CreateEventInput) (state : CONTRACT_STATE) :
    CONTRACT_STATE × CreateEventOutput :=
  if state.contractActive = 0 then
    (state, { eventId := 0, success := 0 })
  else if state.eventCount ≥ MAX_EVENTS then
    (state, { eventId := 0, success := 0 })
  else if ¬ (invocator = state.adminId) then
    (state, { eventId := 0, success := 0 })
  else
    let e : Event :=
      { state.tempEvent with
        id := (state.eventCount + 1) % 4294967296
        title := copyMem state.tempEvent.title input.title 128
        description := copyMem state.tempEvent.description input.description 256
        category := copyMem state.tempEvent.category input.category 32
        createdAt := tick
        endsAt := input.endsAt
        isActive := 1
        isResolved := 0
        correctAnswer := 0
        totalBets := 0
        yesBets := 0
        noBets := 0 }
    ({ state with
        tempEvent := e
        events := setAt state.events state.eventCount e
        eventCount := (state.eventCount + 1) % 4294967296
        totalEvents := (state.totalEvents + 1) % 4294967296 },
      { eventId := e.id, success := 1 })

/-! ## PlaceBet -/

/-- The user search of `PlaceBet`, from the current `tempIndex`: on the first
slot whose id is `userId` the slot and the user are recorded and the loop is
left.  `fuel` bounds the number of iterations; `userCount` is enough. -/
def findUserLoop (userId : Nat) : Nat → CONTRACT_STATE → CONTRACT_STATE
  | 0, state => state
  | fuel + 1, state =>
    if state.tempIndex < state.userCount then
      if (state.users state.tempIndex).id = userId then
        { state with
          tempUserId := state.tempIndex
          tempUser := state.users state.tempIndex }
      else
        findUserLoop userId fuel { state with tempIndex := state.tempIndex + 1 }
    else state

/-- The event search of `PlaceBet` and `ResolveEvent`, from the current
`tempIndex`. -/
def findEventLoop (eventId : Nat) : Nat → CONTRACT_STATE → CONTRACT_STATE
  | 0, state => state
  | fuel + 1, state =>
    if state.tempIndex < state.eventCount then
      if (state.events state.tempIndex).id = eventId then
        { state with
          tempEventId := state.tempIndex
          tempEvent := state.events state.tempIndex }
      else
        findEventLoop eventId fuel { state with tempIndex := state.tempIndex + 1 }
    else state

/-- The block "Find user" of `PlaceBet`: `tempUserId` is cleared and the store
is searched from slot `0`. -/
def findUser (userId : Nat) (state : CONTRACT_STATE) : CONTRACT_STATE :=
  findUserLoop userId state.userCount { state with tempUserId := 0, tempIndex := 0 }

/-- The block "Find event" of `PlaceBet` and `ResolveEvent`: `tempEventId` is
cleared and the store is searched from slot `0`. -/
def findEvent (eventId : Nat) (state : CONTRACT_STATE) : CONTRACT_STATE :=
  findEventLoop eventId state.eventCount { state with tempEventId := 0, tempIndex := 0 }

/-- The function `PlaceBet`. -/
def PlaceBet (invocator tick : Nat) (input : PlaceBetInput) (state : CONTRACT_STATE) :
    CONTRACT_STATE × PlaceBetOutput :=
  if state.contractActive = 0 then
    (state, { betId := 0, newBalance := 0, success := 0 })
  else if state.betCount ≥ MAX_BETS then
    (state, { betId := 0, newBalance := 0, success := 0 })
  else
    let s1 := findUser input.userId state
    if s1.tempUserId = 0 ∧ (s1.users 0).id ≠ input.userId then
      (s1, { betId := 0, newBalance := 0, success := 0 })
    else if s1.tempUser.balance < input.amount then
      (s1, { betId := 0, newBalance := 0, success := 0 })
    else
      let s2 := findEvent input.eventId s1
      if s2.tempEventId = 0 ∧ (s2.events 0).id ≠ input.eventId then
        (s2, { betId := 0, newBalance := 0, success := 0 })
      else if s2.tempEvent.isActive = 0 ∨ s2.tempEvent.isResolved ≠ 0 then
        (s2, { betId := 0, newBalance := 0, success := 0 })
      else
        let b : Bet :=
          { s2.tempBet with
            id := (s2.betCount + 1) % 4294967296
            userId := input.userId
            eventId := input.eventId
            prediction := input.prediction
            amount := input.amount
            createdAt := tick
            isWon := 0
            isProcessed := 0 }
        let u : User :=
          { s2.tempUser with
            balance := s2.tempUser.balance - input.amount
            totalBets := (s2.tempUser.totalBets + 1) % 4294967296 }
        let e0 : Event :=
          { s2.tempEvent with totalBets := (s2.tempEvent.totalBets + 1) % 4294967296 }
        let e : Event :=
          if input.prediction = 1 then { e0 with yesBets := (e0.yesBets + 1) % 4294967296 }
          else { e0 with noBets := (e0.noBets + 1) % 4294967296 }
        ({ s2 with
            tempBet := b
            bets := setAt s2.bets s2.betCount b
            tempUser := u
            users := setAt s2.users s2.tempUserId u
            tempEvent := e
            events := setAt s2.events s2.tempEventId e
            betCount := (s2.betCount + 1) % 4294967296
            totalBets := (s2.totalBets + 1) % 4294967296
            totalVolume := (s2.totalVolume + input.amount) % 4294967296 },
          { betId := b.id, newBalance := u.balance, success := 1 })

/-! ## ResolveEvent -/

/-- The user scan inside the settlement sweep, from the current `tempUserId`:
the first stored user whose id is `userId` is credited with `winReward` and
one win, and the scan is left. -/
def creditLoop (userId : Nat) : Nat → CONTRACT_STATE → CONTRACT_STATE
  | 0, state => state
  | fuel + 1, state =>
    if state.tempUserId < state.userCount then
      if (state.users state.tempUserId).id = userId then
        let u := state.users state.tempUserId
        { state with
          users := setAt state.users state.tempUserId
            { u with
              balance := (u.balance + state.winReward) % 4294967296
              totalWins := (u.totalWins + 1) % 4294967296 } }
      else
        creditLoop userId fuel { state with tempUserId := state.tempUserId + 1 }
    else state

/-- The body of the settlement sweep for the bet at slot `tempIndex`. -/
def sweepBody (input : ResolveEventInput) (state : CONTRACT_STATE) : CONTRACT_STATE :=
  let s1 : CONTRACT_STATE := { state with tempBet := state.bets state.tempIndex }
  if s1.tempBet.eventId = input.eventId ∧ s1.tempBet.isProcessed = 0 then
    let s2 : CONTRACT_STATE :=
      if s1.tempBet.prediction = input.correctAnswer then
        creditLoop s1.tempBet.userId s1.userCount
          { s1 with
            tempBet := { s1.tempBet with isWon := 1 }
            tempCount := (s1.tempCount + 1) % 4294967296
            tempAmount := (s1.tempAmount + s1.winReward) % 4294967296
            tempUserId := 0 }
      else
        { s1 with tempBet := { s1.tempBet with isWon := 0 } }
    let s3 : CONTRACT_STATE := { s2 with tempBet := { s2.tempBet with isProcessed := 1 } }
    { s3 with bets := setAt s3.bets s3.tempIndex s3.tempBet }
  else s1

/-- The settlement sweep over the bet store, from the current `tempIndex`.
`fuel` bounds the number of iterations; `betCount` is enough. -/
def sweepLoop (input : ResolveEventInput) : Nat → CONTRACT_STATE → CONTRACT_STATE
  | 0, state => state
  | fuel + 1, state =>
    if state.tempIndex < state.betCount then
      let s1 := sweepBody input state
      sweepLoop input fuel { s1 with tempIndex := s1.tempIndex + 1 }
    else state

/-- The function `ResolveEvent`. -/
def ResolveEvent (invocator tick : Nat) (input : ResolveEventInput) (state : CONTRACT_STATE) :
    CONTRACT_STATE × ResolveEventOutput :=
  if state.contractActive = 0 then
    (state, { winnersCount := 0, totalPayout := 0, success := 0 })
  else if ¬ (invocator = state.adminId) then
    (state, { winnersCount := 0, totalPayout := 0, success := 0 })
  else
    let s1 := findEvent input.eventId state
    if s1.tempEventId = 0 ∧ (s1.events 0).id ≠ input.eventId then
      (s1, { winnersCount := 0, totalPayout := 0, success := 0 })
    else if s1.tempEvent.isActive = 0 ∨ s1.tempEvent.isResolved ≠ 0 then
      (s1, { winnersCount := 0, totalPayout := 0, success := 0 })
    else
      let e : Event :=
        { s1.tempEvent with
          isResolved := 1
          isActive := 0
          correctAnswer := input.correctAnswer }
      let s2 : CONTRACT_STATE :=
        { s1 with
          tempEvent := e
          events := setAt s1.events s1.tempEventId e
          tempCount := 0
          tempAmount := 0
          tempIndex := 0 }
      let s3 := sweepLoop input s2.betCount s2
      (s3, { winnersCount := s3.tempCount, totalPayout := s3.tempAmount, success := 1 })

/-! ## Queries -/

/-- The user search of `GetBalance`, from the current `tempIndex`; the result
carries the output record, already `(0, 0)` when the loop starts. -/
def getBalanceLoop (userId : Nat) : Nat → CONTRACT_STATE → CONTRACT_STATE × GetBalanceOutput
  | 0, state => (state, { balance := 0, success := 0 })
  | fuel + 1, state =>
    if state.tempIndex < state.userCount then
      if (state.users state.tempIndex).id = userId then
        (state, { balance := (state.users state.tempIndex).balance, success := 1 })
      else
        getBalanceLoop userId fuel { state with tempIndex := state.tempIndex + 1 }
    else (state, { balance := 0, success := 0 })

/-- The function `GetBalance`. -/
def GetBalance (invocator tick : Nat) (input : GetBalanceInput) (state : CONTRACT_STATE) :
    CONTRACT_STATE × GetBalanceOutput :=
  getBalanceLoop input.userId state.userCount { state with tempIndex := 0 }

/-- The counting loop of `GetEvents`, from the current `tempIndex`. -/
def countActiveLoop : Nat → CONTRACT_STATE → CONTRACT_STATE
  | 0, state => state
  | fuel + 1, state =>
    if state.tempIndex < state.eventCount then
      let s1 : CONTRACT_STATE :=
        if (state.events state.tempIndex).isActive ≠ 0 then
          { state with tempCount := (state.tempCount + 1) % 4294967296 }
        else state
      countActiveLoop fuel { s1 with tempIndex := s1.tempIndex + 1 }
    else state

/-- The function `GetEvents`.  The `events` text of the output record is never
written by the code and is not part of the returned record. -/
def GetEvents (invocator tick : Nat) (input : GetEventsInput) (state : CONTRACT_STATE) :
    CONTRACT_STATE × GetEventsOutput :=
  let s1 := countActiveLoop state.eventCount { state with tempCount := 0, tempIndex := 0 }
  (s1, { eventCount := s1.tempCount, success := 1 })

/-- The counting loop of `GetUserBets`, from the current `tempIndex`. -/
def countUserBetsLoop (userId : Nat) : Nat → CONTRACT_STATE → CONTRACT_STATE
  | 0, state => state
  | fuel + 1, state =>
    if state.tempIndex < state.betCount then
      let s1 : CONTRACT_STATE :=
        if (state.bets state.tempIndex).userId = userId then
          { state with tempCount := (state.tempCount + 1) % 4294967296 }
        else state
      countUserBetsLoop userId fuel { s1 with tempIndex := s1.tempIndex + 1 }
    else state

/-- The function `GetUserBets`; it reuses the balance records, the count is
returned in `balance`. -/
def GetUserBets (invocator tick : Nat) (input : GetBalanceInput) (state : CONTRACT_STATE) :
    CONTRACT_STATE × GetBalanceOutput :=
  let s1 := countUserBetsLoop input.userId state.betCount
    { state with tempCount := 0, tempIndex := 0 }
  (s1, { balance := s1.tempCount, success := 1 })

/-! ## The zeroed ledger -/

/-- A user slot of zeroed memory. -/
def zeroUser : User :=
  { username := List.replicate 32 0, passwordHash := List.replicate 32 0,
    balance := 0, totalBets := 0, totalWins := 0, isActive := 0, id := 0 }

/-- An event slot of zeroed memory. -/
def zeroEvent : Event :=
  { title := List.replicate 128 0, description := List.replicate 256 0,
    category := List.replicate 32 0, createdAt := 0, endsAt := 0, isActive := 0,
    isResolved := 0, correctAnswer := 0, totalBets := 0, yesBets := 0, noBets := 0, id := 0 }

/-- A bet slot of zeroed memory. -/
def zeroBet : Bet :=
  { userId := 0, eventId := 0, prediction := 0, amount := 0, createdAt := 0,
    isWon := 0, isProcessed := 0, id := 0 }

/-- The ledger of zeroed memory, as the host hands it to a fresh contract. -/
def zeroState : CONTRACT_STATE :=
  { users := fun _ => zeroUser, events := fun _ => zeroEvent, bets := fun _ => zeroBet,
    userCount := 0, eventCount := 0, betCount := 0,
    defaultBalance := 0, betCost := 0, winReward := 0,
    totalUsers := 0, totalEvents := 0, totalBets := 0, totalVolume := 0,
    adminId := 0, contractActive := 0,
    tempUserId := 0, tempEventId := 0, tempBetId := 0, tempBalance := 0, tempAmount := 0,
    tempResult := 0, tempCount := 0, tempIndex := 0,
    tempUser := zeroUser, tempEvent := zeroEvent, tempBet := zeroBet }

/-! ## Searching a store for an id -/

/-- The first slot at or after `i`, among the next `fuel` slots, that
satisfies `p`; `i + fuel` when there is none. -/
def firstFrom (p : Nat → Bool) : Nat → Nat → Nat
  | 0, i => i
  | fuel + 1, i => if p i then i else firstFrom p fuel (i + 1)

/-! ## The settlement sweep, field by field -/

/-- One credit of `w`: the balance and the win counter of a user after the
two stores of the credit scan. -/
def credit (w : Nat) (u : User) : User :=
  { u with balance := (u.balance + w) % 4294967296, totalWins := (u.totalWins + 1) % 4294967296 }

/-- The user store after one credit scan for `userId` over the first `n`
slots. -/
def creditFirst (users : Nat → User) (n w userId : Nat) : Nat → User :=
  if firstFrom (fun j => decide ((users j).id = userId)) n 0 < n then
    setAt users (firstFrom (fun j => decide ((users j).id = userId)) n 0)
      (credit w (users (firstFrom (fun j => decide ((users j).id = userId)) n 0)))
  else users

/-- The bet `b` qualifies for the sweep of `input` (its event id is the
input's and it is unprocessed) and predicted the answer. -/
def wins (input : ResolveEventInput) (b : Bet) : Bool :=
  decide (b.eventId = input.eventId ∧ b.isProcessed = 0 ∧ b.prediction = input.correctAnswer)

/-- The bet `b` after the sweep of `input` has passed over it. -/
def settled (input : ResolveEventInput) (b : Bet) : Bet :=
  if b.eventId = input.eventId ∧ b.isProcessed = 0 then
    { b with isWon := if b.prediction = input.correctAnswer then 1 else 0, isProcessed := 1 }
  else b

/-- The fields that the settlement sweep never writes. -/
structure SweepFrame (s t : CONTRACT_STATE) : Prop where
  events : t.events = s.events
  userCount : t.userCount = s.userCount
  eventCount : t.eventCount = s.eventCount
  betCount : t.betCount = s.betCount
  defaultBalance : t.defaultBalance = s.defaultBalance
  betCost : t.betCost = s.betCost
  winReward : t.winReward = s.winReward
  totalUsers : t.totalUsers = s.totalUsers
  totalEvents : t.totalEvents = s.totalEvents
  totalBets : t.totalBets = s.totalBets
  totalVolume : t.totalVolume = s.totalVolume
  adminId : t.adminId = s.adminId
  contractActive : t.contractActive = s.contractActive
  tempEventId : t.tempEventId = s.tempEventId
  tempBetId : t.tempBetId = s.tempBetId
  tempBalance : t.tempBalance = s.tempBalance
  tempResult : t.tempResult = s.tempResult
  tempUser : t.tempUser = s.tempUser
  tempEvent : t.tempEvent = s.tempEvent

/-- The user store after the sweep of `input` has passed over the `fuel` bet
slots from `i` on, for a user store of `n` slots and a reward of `w`. -/
def creditAll (input : ResolveEventInput) (bets : Nat → Bet) (n w : Nat) :
    Nat → Nat → (Nat → User) → (Nat → User)
  | 0, _, users => users
  | fuel + 1, i, users =>
    creditAll input bets n w fuel (i + 1)
      (if wins input (bets i) = true then creditFirst users n w (bets i).userId else users)

/-- The number of winning bets of `input` among the `fuel` slots from `i` on. -/
def winCount (input : ResolveEventInput) (bets : Nat → Bet) (i fuel : Nat) : Nat :=
  (List.range' i fuel).countP (fun j => wins input (bets j))

/-- The ledger proper of `t` is that of `s`: every field except the scratch
fields (`temp...`) is the same. -/
structure LedgerEq (s t : CONTRACT_STATE) : Prop where
  users : t.users = s.users
  events : t.events = s.events
  bets : t.bets = s.bets
  userCount : t.userCount = s.userCount
  eventCount : t.eventCount = s.eventCount
  betCount : t.betCount = s.betCount
  defaultBalance : t.defaultBalance = s.defaultBalance
  betCost : t.betCost = s.betCost
  winReward : t.winReward = s.winReward
  totalUsers : t.totalUsers = s.totalUsers
  totalEvents : t.totalEvents = s.totalEvents
  totalBets : t.totalBets = s.totalBets
  totalVolume : t.totalVolume = s.totalVolume
  adminId : t.adminId = s.adminId
  contractActive : t.contractActive = s.contractActive

/-- The state on which the settlement sweep of `ResolveEvent` starts, when the
event search has left slot `k` in `tempEventId` and `e0` in `tempEvent`: the
event is marked resolved with the answer and stored at slot `k`, the counters
of the sweep are cleared. -/
def resolveStart (s : CONTRACT_STATE) (k : Nat) (e0 : Event) (answer : Nat) : CONTRACT_STATE :=
  { s with
    events := setAt s.events k { e0 with isResolved := 1, isActive := 0, correctAnswer := answer }
    tempEvent := { e0 with isResolved := 1, isActive := 0, correctAnswer := answer }
    tempEventId := k
    tempIndex := 0
    tempCount := 0
    tempAmount := 0 }

/-- The user `u` after `n` credits of `w`. -/
def creditN (w n : Nat) (u : User) : User :=
  if n = 0 then u
  else
    { u with
      balance := (u.balance + n * w) % 4294967296
      totalWins := (u.totalWins + n) % 4294967296 }

/-- The number of winning bets of `input` placed by the user id `userId`
among the `fuel` slots from `i` on. -/
def userWinCount (input : ResolveEventInput) (bets : Nat → Bet) (userId i fuel : Nat) : Nat :=
  (List.range' i fuel).countP
    (fun j => decide ((bets j).userId = userId ∧ (bets j).eventId = input.eventId ∧
      (bets j).isProcessed = 0 ∧ (bets j).prediction = input.correctAnswer))

/-- The stored users (slots below `n`) have pairwise distinct ids. -/
def DistinctUserIds (users : Nat → User) (n : Nat) : Prop :=
  ∀ a b, a < n → b < n → (users a).id = (users b).id → a = b

/-! ## Concrete ledgers -/

/-- The ledger after `Initialize` by the admin `7` on zeroed memory. -/
def freshState : CONTRACT_STATE := Initialize 7 0 zeroState

/-- The fresh ledger after user `1` has bet `10` on YES and then `10` on NO,
both on event `1`. -/
def twoBetState : CONTRACT_STATE :=
  (PlaceBet 3 5 { userId := 1, eventId := 1, prediction := 0, amount := 10 }
    (PlaceBet 3 5 { userId := 1, eventId := 1, prediction := 1, amount := 10 } freshState).1).1

/-! ## The state after an accepted bet -/

/-- The bet record that `PlaceBet` builds in `tempBet`. -/
def newBet (s : CONTRACT_STATE) (tick : Nat) (input : PlaceBetInput) : Bet :=
  { id := (s.betCount + 1) % 4294967296
    userId := input.userId
    eventId := input.eventId
    prediction := input.prediction
    amount := input.amount
    createdAt := tick
    isWon := 0
    isProcessed := 0 }

/-- The bettor `u0` after the debit of `PlaceBet`. -/
def debited (input : PlaceBetInput) (u0 : User) : User :=
  { u0 with
    balance := u0.balance - input.amount
    totalBets := (u0.totalBets + 1) % 4294967296 }

/-- The event `e0` after the counter updates of `PlaceBet`. -/
def counted (input : PlaceBetInput) (e0 : Event) : Event :=
  if input.prediction = 1 then
    { e0 with
      totalBets := (e0.totalBets + 1) % 4294967296
      yesBets := (e0.yesBets + 1) % 4294967296 }
  else
    { e0 with
      totalBets := (e0.totalBets + 1) % 4294967296
      noBets := (e0.noBets + 1) % 4294967296 }

/-- The state that an accepted `PlaceBet` returns, when the user search has
left slot `ku` and user `u0`, and the event search slot `ke`, event `e0` and
index `ti`. -/
def placeBetEnd (s : CONTRACT_STATE) (tick : Nat) (input : PlaceBetInput)
    (ku : Nat) (u0 : User) (ke : Nat) (e0 : Event) (ti : Nat) : CONTRACT_STATE :=
  { s with
    tempUserId := ku
    tempEventId := ke
    tempIndex := ti
    tempBet := newBet s tick input
    bets := setAt s.bets s.betCount (newBet s tick input)
    tempUser := debited input u0
    users := setAt s.users ku (debited input u0)
    tempEvent := counted input e0
    events := setAt s.events ke (counted input e0)
    betCount := (s.betCount + 1) % 4294967296
    totalBets := (s.totalBets + 1) % 4294967296
    totalVolume := (s.totalVolume + input.amount) % 4294967296 }

/-! ## Reachable ledgers -/

/-- One call of the contract: the entry point, the caller, the tick and the
input record. -/
inductive Op where
  | init (invocator tick : Nat)
  | register (invocator tick : Nat) (input : RegisterUserInput)
  | create (invocator tick : Nat) (input : CreateEventInput)
  | place (invocator tick : Nat) (input : PlaceBetInput)
  | resolve (invocator tick : Nat) (input : ResolveEventInput)
  | balance (invocator tick : Nat) (input : GetBalanceInput)
  | events (invocator tick : Nat) (input : GetEventsInput)
  | userBets (invocator tick : Nat) (input : GetBalanceInput)

/-- The state after one call. -/
def runOp : Op → CONTRACT_STATE → CONTRACT_STATE
  | Op.init c t, s => Initialize c t s
  | Op.register c t i, s => (RegisterUser c t i s).1
  | Op.create c t i, s => (CreateEvent c t i s).1
  | Op.place c t i, s => (PlaceBet c t i s).1
  | Op.resolve c t i, s => (ResolveEvent c t i s).1
  | Op.balance c t i, s => (GetBalance c t i s).1
  | Op.events c t i, s => (GetEvents c t i s).1
  | Op.userBets c t i, s => (GetUserBets c t i s).1

/-- The states reachable from `Initialize`: `Initialize` run by any caller on
any memory content, followed by any sequence of calls (of any entry point,
`Initialize` included, by any callers, with any inputs). -/
inductive Reachable : CONTRACT_STATE → Prop
  | init (s0 : CONTRACT_STATE) (invocator tick : Nat) : Reachable (Initialize invocator tick s0)
  | step (s : CONTRACT_STATE) (op : Op) : Reachable s → Reachable (runOp op s)

/-- The ledger invariant.  It speaks of the fields of the ledger proper only,
and of the stored slots (those below the counts) only. -/
structure Inv (s : CONTRACT_STATE) : Prop where
  active : s.contractActive = 1
  reward : s.winReward = WIN_REWARD
  startBalance : s.defaultBalance = DEFAULT_BALANCE
  userPos : 1 ≤ s.userCount
  userCap : s.userCount ≤ MAX_USERS
  eventPos : 1 ≤ s.eventCount
  eventCap : s.eventCount ≤ MAX_EVENTS
  betCap : s.betCount ≤ MAX_BETS
  userIds : ∀ i, i < s.userCount → (s.users i).id = i + 1
  eventIds : ∀ i, i < s.eventCount → (s.events i).id = i + 1
  betIds : ∀ i, i < s.betCount → (s.bets i).id = i + 1
  eventFlags : ∀ i, i < s.eventCount →
    ((s.events i).isActive = 1 ∧ (s.events i).isResolved = 0) ∨
      ((s.events i).isActive = 0 ∧ (s.events i).isResolved = 1)
  eventCounters : ∀ i, i < s.eventCount →
    (s.events i).yesBets + (s.events i).noBets = (s.events i).totalBets ∧
      (s.events i).totalBets ≤ s.betCount
  userBets : ∀ i, i < s.userCount → (s.users i).totalBets ≤ s.betCount
  betRefs : ∀ i, i < s.betCount →
    1 ≤ (s.bets i).userId ∧ (s.bets i).userId ≤ s.userCount ∧
      1 ≤ (s.bets i).eventId ∧ (s.bets i).eventId ≤ s.eventCount
  betFlags : ∀ i, i < s.betCount →
    ((s.bets i).isProcessed = 0 ∧ (s.events ((s.bets i).eventId - 1)).isResolved = 0) ∨
      ((s.bets i).isProcessed = 1 ∧ (s.events ((s.bets i).eventId - 1)).isResolved = 1)

/-- The fresh ledger with the user store filled to its capacity count. -/
def fullUsersState : CONTRACT_STATE :=
  { freshState with userCount := 10000 }

/-- The ledger with two bets after the admin has resolved event `1` with the
answer YES. -/
def resolvedState : CONTRACT_STATE :=
  runOp (Op.resolve 7 9 { eventId := 1, correctAnswer := 1, confidence := 0 }) twoBetState

/-! ## The two scenarios -/

/-- What a scenario leaves open: the memory on which `Initialize` runs, the
admin identity, the callers, ticks and registration inputs of the successive
calls (by call number), the event input and the confidence byte. -/
structure Setting where
  memory : CONTRACT_STATE
  admin : Nat
  callers : Nat → Nat
  ticks : Nat → Nat
  userInputs : Nat → RegisterUserInput
  eventInput : CreateEventInput
  confidence : Nat

/-- Single winner, call 0: `Initialize` by the admin. -/
def single0 (x : Setting) : CONTRACT_STATE :=
  Initialize x.admin (x.ticks 0) x.memory

/-- Single winner, call 1: `RegisterUser`, by any caller. -/
def single1 (x : Setting) : CONTRACT_STATE × RegisterUserOutput :=
  RegisterUser (x.callers 1) (x.ticks 1) (x.userInputs 1) (single0 x)

/-- Single winner, call 2: `CreateEvent` by the admin. -/
def single2 (x : Setting) : CONTRACT_STATE × CreateEventOutput :=
  CreateEvent x.admin (x.ticks 2) x.eventInput (single1 x).1

/-- Single winner, call 3: `PlaceBet` of `10` on YES by the registered user on
the created event. -/
def single3 (x : Setting) : CONTRACT_STATE × PlaceBetOutput :=
  PlaceBet (x.callers 3) (x.ticks 3)
    { userId := (single1 x).2.userId, eventId := (single2 x).2.eventId,
      prediction := 1, amount := 10 }
    (single2 x).1

/-- Single winner, call 4: `ResolveEvent` of the created event by the admin,
with the answer YES. -/
def single4 (x : Setting) : CONTRACT_STATE × ResolveEventOutput :=
  ResolveEvent x.admin (x.ticks 4)
    { eventId := (single2 x).2.eventId, correctAnswer := 1, confidence := x.confidence }
    (single3 x).1

/-- Opposing bets, calls 1 and 2: `RegisterUser` twice after `Initialize` by
the admin. -/
def duel1 (x : Setting) : CONTRACT_STATE × RegisterUserOutput :=
  RegisterUser (x.callers 1) (x.ticks 1) (x.userInputs 1) (single0 x)

/-- Opposing bets, the second registration. -/
def duel2 (x : Setting) : CONTRACT_STATE × RegisterUserOutput :=
  RegisterUser (x.callers 2) (x.ticks 2) (x.userInputs 2) (duel1 x).1

/-- Opposing bets, call 3: `CreateEvent` by the admin. -/
def duel3 (x : Setting) : CONTRACT_STATE × CreateEventOutput :=
  CreateEvent x.admin (x.ticks 3) x.eventInput (duel2 x).1

/-- Opposing bets, call 4: the first user bets `10` on YES. -/
def duel4 (x : Setting) : CONTRACT_STATE × PlaceBetOutput :=
  PlaceBet (x.callers 4) (x.ticks 4)
    { userId := (duel1 x).2.userId, eventId := (duel3 x).2.eventId,
      prediction := 1, amount := 10 }
    (duel3 x).1

/-- Opposing bets, call 5: the second user bets `10` on NO. -/
def duel5 (x : Setting) : CONTRACT_STATE × PlaceBetOutput :=
  PlaceBet (x.callers 5) (x.ticks 5)
    { userId := (duel2 x).2.userId, eventId := (duel3 x).2.eventId,
      prediction := 0, amount := 10 }
    (duel4 x).1

/-- Opposing bets, call 6: the admin resolves the event with the answer NO. -/
def duel6 (x : Setting) : CONTRACT_STATE × ResolveEventOutput :=
  ResolveEvent x.admin (x.ticks 6)
    { eventId := (duel3 x).2.eventId, correctAnswer := 0, confidence := x.confidence }
    (duel5 x).1

/-! ## Counting stored bets -/

/-- The number of slots below `n` of the bet array whose bet satisfies `p`. -/
def countBets (bets : Nat → Bet) (n : Nat) (p : Bet → Bool) : Nat :=
  (List.range n).countP (fun j => p (bets j))

/-- The derived counters agree with the stored bets, and a stored bet that is
not yet processed has `isWon = 0`. -/
structure Counted (s : CONTRACT_STATE) : Prop where
  eventTotal : ∀ i, i < s.eventCount →
    (s.events i).totalBets =
      countBets s.bets s.betCount (fun b => decide (b.eventId = (s.events i).id))
  eventYes : ∀ i, i < s.eventCount →
    (s.events i).yesBets =
      countBets s.bets s.betCount
        (fun b => decide (b.eventId = (s.events i).id ∧ b.prediction = 1))
  userTotal : ∀ i, i < s.userCount →
    (s.users i).totalBets =
      countBets s.bets s.betCount (fun b => decide (b.userId = (s.users i).id))
  userWins : ∀ i, i < s.userCount →
    (s.users i).totalWins =
      countBets s.bets s.betCount
        (fun b => decide (b.userId = (s.users i).id ∧ b.isWon = 1))
  unprocessedLost : ∀ j, j < s.betCount → (s.bets j).isProcessed = 0 → (s.bets j).isWon = 0

/-- Every stored user's balance is covered by the starting balance and the
rewards of the user's wins. -/
def Solvent (s : CONTRACT_STATE) : Prop :=
  ∀ i, i < s.userCount →
    (s.users i).balance ≤ DEFAULT_BALANCE + WIN_REWARD * (s.users i).totalWins

/-- The fresh ledger after user `1` has bet `10` on event `1` with the
prediction byte `2`. -/
def oddBetState : CONTRACT_STATE :=
  runOp (Op.place 3 5 { userId := 1, eventId := 1, prediction := 2, amount := 10 }) freshState

/-! ## The collection-based draft (qubic-contracts/PredictoR.h)

The draft keeps users, events and bets in `collection<T, L>` containers of
`qpi.h` and has no `id` field in its records.  Its set-up procedure and the
functions `registerUser`, `createEvent`, `placeBet` and `resolveEvent` are
embedded. -/

namespace PredictoR

/-- The `NULL_INDEX` of `qpi.h`, the `sint64` value `-1`. -/
def NULL_INDEX : Int := -1

/-- Modelled from the spec: the `collection<T, L>` container of `qpi.h`, which
is not part of the sources.  A collection holds its elements by element index,
filled in order from index `0`; each element is added for a point of view (an
identity) with a priority, and for every point of view the collection knows the
head of its queue, the element of highest priority, `NULL_INDEX` when that
queue is empty.  The draft uses `reset`, `add`, `headIndex`, `element` and
`replace`. -/
structure Collection (α : Type) where
  elements : Int → α
  priorities : Int → Int
  heads : Nat → Int
  population : Nat

/-- Writes `collection::reset()`: the memory of the collection is zeroed, no
queue has a head.  `z` is the zeroed element. -/
def Collection.reset {α : Type} (c : Collection α) (z : α) : Collection α :=
  { elements := fun _ => z, priorities := fun _ => 0, heads := fun _ => NULL_INDEX,
    population := 0 }

/-- Writes `collection::add(pov, element, priority)` for a collection of the
given capacity: a full collection is left as it is and `NULL_INDEX` is
returned; otherwise the element takes the next free index, which is returned,
and becomes the head of the queue of `pov` when that queue was empty or its
head has a lower priority. -/
def Collection.add {α : Type} (c : Collection α) (capacity pov : Nat) (e : α)
    (priority : Int) : Collection α × Int :=
  if c.population ≥ capacity then (c, NULL_INDEX)
  else
    ({ elements := fun j => if j = (c.population : Int) then e else c.elements j
       priorities := fun j => if j = (c.population : Int) then priority else c.priorities j
       heads := fun q =>
         if q = pov ∧ (c.heads pov = NULL_INDEX ∨ c.priorities (c.heads pov) < priority) then
           (c.population : Int)
         else c.heads q
       population := c.population + 1 },
      (c.population : Int))

/-- Reads `collection::headIndex(pov)`. -/
def Collection.headIndex {α : Type} (c : Collection α) (pov : Nat) : Int :=
  c.heads pov

/-- Reads `collection::element(elementIndex)`. -/
def Collection.element {α : Type} (c : Collection α) (elementIndex : Int) : α :=
  c.elements elementIndex

/-- Writes `collection::replace(elementIndex, element)`: the element at the
index is overwritten, queues and priorities stay. -/
def Collection.replace {α : Type} (c : Collection α) (elementIndex : Int) (e : α) :
    Collection α :=
  { c with elements := fun j => if j = elementIndex then e else c.elements j }

structure RegisterUserInput where
  username : Text
  password : Text

structure RegisterUserOutput where
  userId : Nat
  balance : Nat
  success : Nat
deriving DecidableEq, Repr

structure PlaceBetInput where
  userId : Nat
  eventId : Nat
  prediction : Nat
  amount : Nat

structure PlaceBetOutput where
  betId : Nat
  newBalance : Nat
  success : Nat
deriving DecidableEq, Repr

structure CreateEventInput where
  title : Text
  description : Text
  category : Text
  endsAt : Nat

structure CreateEventOutput where
  eventId : Nat
  success : Nat
deriving DecidableEq, Repr

structure ResolveEventInput where
  eventId : Nat
  correctAnswer : Nat
  confidence : Nat

structure ResolveEventOutput where
  winnersCount : Nat
  totalPayout : Nat
  success : Nat
deriving DecidableEq, Repr

structure User where
  username : Text
  passwordHash : Text
  balance : Nat
  totalBets : Nat
  totalWins : Nat
  isActive : Nat
deriving DecidableEq, Repr

structure Event where
  title : Text
  description : Text
  category : Text
  createdAt : Nat
  endsAt : Nat
  isActive : Nat
  isResolved : Nat
  correctAnswer : Nat
  totalBets : Nat
  yesBets : Nat
  noBets : Nat
deriving DecidableEq, Repr

structure Bet where
  userId : Nat
  eventId : Nat
  prediction : Nat
  amount : Nat
  createdAt : Nat
  isWon : Nat
  isProcessed : Nat
deriving DecidableEq, Repr

/-- The `locals` member of the contract state. -/
structure Locals where
  tempUserId : Nat
  tempEventId : Nat
  tempBetId : Nat
  tempBalance : Nat
  tempAmount : Nat
  tempResult : Nat
  tempCount : Nat
  tempIndex : Nat
  tempElementIndex : Int
  tempUser : User
  tempEvent : Event
  tempBet : Bet

/-- The contract state; the capacities of the three collections are `10000`,
`1000` and `100000`. -/
structure CONTRACT_STATE where
  users : Collection User
  events : Collection Event
  bets : Collection Bet
  nextUserId : Nat
  nextEventId : Nat
  nextBetId : Nat
  defaultBalance : Nat
  betCost : Nat
  winReward : Nat
  totalUsers : Nat
  totalEvents : Nat
  totalBets : Nat
  totalVolume : Nat
  adminId : Nat
  contractActive : Nat
  locals : Locals

def zeroUser : User :=
  { username := List.replicate 32 0, passwordHash := List.replicate 32 0, balance := 0,
    totalBets := 0, totalWins := 0, isActive := 0 }

def zeroEvent : Event :=
  { title := List.replicate 128 0, description := List.replicate 256 0,
    category := List.replicate 32 0, createdAt := 0, endsAt := 0,
    isActive := 0, isResolved := 0, correctAnswer := 0, totalBets := 0, yesBets := 0,
    noBets := 0 }

def zeroBet : Bet :=
  { userId := 0, eventId := 0, prediction := 0, amount := 0, createdAt := 0, isWon := 0,
    isProcessed := 0 }

/-- The set-up procedure of the draft (in the source its name is the lower-case
word, which Lean reserves). -/
def Initialize (invocator tick : Nat) (state : CONTRACT_STATE) : CONTRACT_STATE :=
  { state with
    -- Set default values
    defaultBalance := 100
    betCost := 10
    winReward := 20
    contractActive := 1
    -- Initialize counters
    nextUserId := 1
    nextEventId := 1
    nextBetId := 1
    -- Reset collections
    users := state.users.reset zeroUser
    events := state.events.reset zeroEvent
    bets := state.bets.reset zeroBet
    -- Set admin
    adminId := invocator }

/-- The function `registerUser` of `PredictoR.h`. -/
def registerUser (invocator tick : Nat) (input : RegisterUserInput)
    (state : CONTRACT_STATE) : CONTRACT_STATE × RegisterUserOutput :=
  -- Initialize output
  let output : RegisterUserOutput := { userId := 0, balance := 0, success := 0 }
  -- Check if contract is active
  if state.contractActive = 0 then (state, output)
  else
    -- Create new user, copy username and password
    let state := { state with
      locals := { state.locals with
        tempUser := { state.locals.tempUser with
          balance := state.defaultBalance
          totalBets := 0
          totalWins := 0
          isActive := 1
          username := copyMem state.locals.tempUser.username input.username 32
          passwordHash := copyMem state.locals.tempUser.passwordHash input.password 32 }
        tempIndex := 32 } }
    -- Add user to collection
    let r := state.users.add 10000 invocator state.locals.tempUser state.nextUserId
    let state := { state with
      users := r.1
      locals := { state.locals with tempElementIndex := r.2 } }
    if state.locals.tempElementIndex ≠ NULL_INDEX then
      ({ state with
          nextUserId := (state.nextUserId + 1) % 4294967296
          totalUsers := (state.totalUsers + 1) % 4294967296 },
        { userId := state.nextUserId, balance := state.defaultBalance, success := 1 })
    else (state, output)

/-- The function `placeBet` of `PredictoR.h`.  The user and the event are the
heads of the caller's queues; the debited user is written at the element index
of the new bet; the updated event counters stay in `locals`. -/
def placeBet (invocator tick : Nat) (input : PlaceBetInput)
    (state : CONTRACT_STATE) : CONTRACT_STATE × PlaceBetOutput :=
  -- Initialize output
  let output : PlaceBetOutput := { betId := 0, newBalance := 0, success := 0 }
  -- Check if contract is active
  if state.contractActive = 0 then (state, output)
  else
    -- Find user
    let state := { state with
      locals := { state.locals with tempElementIndex := state.users.headIndex invocator } }
    if state.locals.tempElementIndex = NULL_INDEX then (state, output)
    else
      let state := { state with
        locals := { state.locals with
          tempUser := state.users.element state.locals.tempElementIndex } }
      -- Check user balance
      if state.locals.tempUser.balance < input.amount then (state, output)
      else
        -- Find event
        let state := { state with
          locals := { state.locals with
            tempElementIndex := state.events.headIndex invocator } }
        if state.locals.tempElementIndex = NULL_INDEX then (state, output)
        else
          let state := { state with
            locals := { state.locals with
              tempEvent := state.events.element state.locals.tempElementIndex } }
          -- Check if event is active
          if state.locals.tempEvent.isActive = 0 ∨ state.locals.tempEvent.isResolved ≠ 0 then
            (state, output)
          else
            -- Create bet
            let state := { state with
              locals := { state.locals with
                tempBet := { state.locals.tempBet with
                  userId := input.userId
                  eventId := input.eventId
                  prediction := input.prediction
                  amount := input.amount
                  createdAt := tick
                  isWon := 0
                  isProcessed := 0 } } }
            -- Add bet to collection
            let r := state.bets.add 100000 invocator state.locals.tempBet state.nextBetId
            let state := { state with
              bets := r.1
              locals := { state.locals with tempElementIndex := r.2 } }
            if state.locals.tempElementIndex ≠ NULL_INDEX then
              -- Update user balance
              let state := { state with
                locals := { state.locals with
                  tempUser := { state.locals.tempUser with
                    balance := state.locals.tempUser.balance - input.amount
                    totalBets := (state.locals.tempUser.totalBets + 1) % 4294967296 } } }
              let state := { state with
                users := state.users.replace state.locals.tempElementIndex
                  state.locals.tempUser }
              -- Update event stats
              let state := { state with
                locals := { state.locals with
                  tempEvent := { state.locals.tempEvent with
                    totalBets := (state.locals.tempEvent.totalBets + 1) % 4294967296 } } }
              let state := { state with
                locals := { state.locals with
                  tempEvent :=
                    if input.prediction = 1 then
                      { state.locals.tempEvent with
                        yesBets := (state.locals.tempEvent.yesBets + 1) % 4294967296 }
                    else
                      { state.locals.tempEvent with
                        noBets := (state.locals.tempEvent.noBets + 1) % 4294967296 } } }
              -- Set output, update counters
              ({ state with
                  nextBetId := (state.nextBetId + 1) % 4294967296
                  totalBets := (state.totalBets + 1) % 4294967296
                  totalVolume := (state.totalVolume + input.amount) % 4294967296 },
                { betId := state.nextBetId
                  newBalance := state.locals.tempUser.balance
                  success := 1 })
            else (state, output)

/-- The function `createEvent` of `PredictoR.h`. -/
def createEvent (invocator tick : Nat) (input : CreateEventInput)
    (state : CONTRACT_STATE) : CONTRACT_STATE × CreateEventOutput :=
  -- Initialize output
  let output : CreateEventOutput := { eventId := 0, success := 0 }
  -- Check if contract is active
  if state.contractActive = 0 then (state, output)
  -- Only admin can create events for now
  else if invocator ≠ state.adminId then (state, output)
  else
    -- Create new event, copy title, description and category
    let state := { state with
      locals := { state.locals with
        tempEvent := { state.locals.tempEvent with
          createdAt := tick
          endsAt := input.endsAt
          isActive := 1
          isResolved := 0
          correctAnswer := 0
          totalBets := 0
          yesBets := 0
          noBets := 0
          title := copyMem state.locals.tempEvent.title input.title 128
          description := copyMem state.locals.tempEvent.description input.description 256
          category := copyMem state.locals.tempEvent.category input.category 32 }
        tempIndex := 32 } }
    -- Add event to collection
    let r := state.events.add 1000 invocator state.locals.tempEvent state.nextEventId
    let state := { state with
      events := r.1
      locals := { state.locals with tempElementIndex := r.2 } }
    if state.locals.tempElementIndex ≠ NULL_INDEX then
      ({ state with
          nextEventId := (state.nextEventId + 1) % 4294967296
          totalEvents := (state.totalEvents + 1) % 4294967296 },
        { eventId := state.nextEventId, success := 1 })
    else (state, output)

/-- The function `resolveEvent` of `PredictoR.h` ("Resolve event and process
bets"). -/
def resolveEvent (invocator tick : Nat) (input : ResolveEventInput)
    (state : CONTRACT_STATE) : CONTRACT_STATE × ResolveEventOutput :=
  -- Initialize output
  let output : ResolveEventOutput := { winnersCount := 0, totalPayout := 0, success := 0 }
  -- Check if contract is active
  if state.contractActive = 0 then (state, output)
  -- Only admin can resolve events
  else if invocator ≠ state.adminId then (state, output)
  else
    -- Find and resolve event
    let state := { state with
      locals := { state.locals with tempElementIndex := state.events.headIndex invocator } }
    if state.locals.tempElementIndex = NULL_INDEX then (state, output)
    else
      let state := { state with
        locals := { state.locals with
          tempEvent := state.events.element state.locals.tempElementIndex } }
      -- Check if event can be resolved
      if state.locals.tempEvent.isActive = 0 ∨ state.locals.tempEvent.isResolved ≠ 0 then
        (state, output)
      else
        -- Mark event as resolved
        let state := { state with
          locals := { state.locals with
            tempEvent := { state.locals.tempEvent with
              isResolved := 1
              isActive := 0
              correctAnswer := input.correctAnswer } } }
        let state := { state with
          events := state.events.replace state.locals.tempElementIndex state.locals.tempEvent }
        -- Process all bets for this event
        -- Note: This is a simplified version - in production, you'd need to iterate
        -- through all bets
        (state, { output with success := 1 })

/-- Zeroed memory of the draft. -/
def zeroState : CONTRACT_STATE :=
  { users := { elements := fun _ => zeroUser, priorities := fun _ => 0, heads := fun _ => NULL_INDEX,
               population := 0 }
    events := { elements := fun _ => zeroEvent, priorities := fun _ => 0, heads := fun _ => NULL_INDEX,
                population := 0 }
    bets := { elements := fun _ => zeroBet, priorities := fun _ => 0, heads := fun _ => NULL_INDEX,
              population := 0 }
    nextUserId := 0
    nextEventId := 0
    nextBetId := 0
    defaultBalance := 0
    betCost := 0
    winReward := 0
    totalUsers := 0
    totalEvents := 0
    totalBets := 0
    totalVolume := 0
    adminId := 0
    contractActive := 0
    locals :=
      { tempUserId := 0, tempEventId := 0, tempBetId := 0, tempBalance := 0, tempAmount := 0,
        tempResult := 0, tempCount := 0, tempIndex := 0, tempElementIndex := 0,
        tempUser := zeroUser, tempEvent := zeroEvent, tempBet := zeroBet } }

/-- The draft after caller `7` has run the set-up procedure on zeroed memory. -/
def draftStart : CONTRACT_STATE := Initialize 7 1 zeroState

/-- The draft after caller `7`, the admin, has then registered. -/
def draftUser : CONTRACT_STATE :=
  (registerUser 7 2 { username := cstr "admin", password := cstr "secret" } draftStart).1

/-- The draft after the admin has then created an event. -/
def draftEvent : CONTRACT_STATE :=
  (createEvent 7 3
    { title := cstr "Rain tomorrow?", description := cstr "Will it rain tomorrow?",
      category := cstr "Weather", endsAt := 1000 } draftUser).1

/-- The draft after the admin has then placed a YES bet of `10` on the
event. -/
def draftState : CONTRACT_STATE :=
  (placeBet 7 4 { userId := 1, eventId := 1, prediction := 1, amount := 10 } draftEvent).1

end PredictoR

/-! ## Runs of calls and what a run can observe -/

/-- The state `s` with other contents in the three stores. -/
def withStores (s : CONTRACT_STATE) (u : Nat → User) (e : Nat → Event) (b : Nat → Bet) :
    CONTRACT_STATE :=
  { s with users := u, events := e, bets := b }

/-- Two states that differ at most in the slots at and above the counts of the
three stores: every other field (scratch fields included) is the same and the
stored slots hold the same records. -/
def SameLedger (s t : CONTRACT_STATE) : Prop :=
  ∃ u e b, t = withStores s u e b ∧
    (∀ i, i < s.userCount → u i = s.users i) ∧
    (∀ i, i < s.eventCount → e i = s.events i) ∧
    (∀ i, i < s.betCount → b i = s.bets i)

/-- The output record of one call; `Initialize` has none. -/
inductive Reply where
  | done
  | register (o : RegisterUserOutput)
  | create (o : CreateEventOutput)
  | place (o : PlaceBetOutput)
  | resolve (o : ResolveEventOutput)
  | balance (o : GetBalanceOutput)
  | events (o : GetEventsOutput)

/-- The output of one call. -/
def reply : Op → CONTRACT_STATE → Reply
  | Op.init c t, s => Reply.done
  | Op.register c t i, s => Reply.register (RegisterUser c t i s).2
  | Op.create c t i, s => Reply.create (CreateEvent c t i s).2
  | Op.place c t i, s => Reply.place (PlaceBet c t i s).2
  | Op.resolve c t i, s => Reply.resolve (ResolveEvent c t i s).2
  | Op.balance c t i, s => Reply.balance (GetBalance c t i s).2
  | Op.events c t i, s => Reply.events (GetEvents c t i s).2
  | Op.userBets c t i, s => Reply.balance (GetUserBets c t i s).2

/-- The state after a sequence of calls. -/
def runOps : List Op → CONTRACT_STATE → CONTRACT_STATE
  | [], s => s
  | op :: ops, s => runOps ops (runOp op s)

/-- The outputs of a sequence of calls, in order. -/
def replies : List Op → CONTRACT_STATE → List Reply
  | [], _ => []
  | op :: ops, s => reply op s :: replies ops (runOp op s)

/-- The event `e` is open, has the id `id` and no bets counted. -/
def OpenEmpty (e : Event) (id : Nat) : Prop :=
  e.id = id ∧ e.isActive = 1 ∧ e.isResolved = 0 ∧
    e.totalBets = 0 ∧ e.yesBets = 0 ∧ e.noBets = 0

/-! ## Facts about the searches and the sweep -/

theorem firstFrom_ge (p : Nat → Bool) (fuel i : Nat) : i ≤ firstFrom p fuel i := by
  induction fuel generalizing i with
  | zero => simp [firstFrom]
  | succ n ih =>
    unfold firstFrom
    split
    · exact Nat.le_refl i
    · exact Nat.le_trans (Nat.le_succ i) (ih (i + 1))

theorem firstFrom_le (p : Nat → Bool) (fuel i : Nat) : firstFrom p fuel i ≤ i + fuel := by
  induction fuel generalizing i with
  | zero => simp [firstFrom]
  | succ n ih =>
    unfold firstFrom
    split
    · omega
    · have := ih (i + 1); omega

theorem firstFrom_hit (p : Nat → Bool) (fuel i : Nat) (h : firstFrom p fuel i < i + fuel) :
    p (firstFrom p fuel i) = true := by
  induction fuel generalizing i with
  | zero => simp [firstFrom] at h
  | succ n ih =>
    unfold firstFrom at h ⊢
    split
    · assumption
    · rename_i hp
      rw [if_neg hp] at h
      exact ih (i + 1) (by omega)

theorem firstFrom_before (p : Nat → Bool) (fuel i j : Nat) (hij : i ≤ j)
    (hj : j < firstFrom p fuel i) : p j = false := by
  induction fuel generalizing i with
  | zero => simp [firstFrom] at hj; omega
  | succ n ih =>
    unfold firstFrom at hj
    by_cases hp : p i = true
    · rw [if_pos hp] at hj; omega
    · rw [if_neg hp] at hj
      by_cases hji : j = i
      · subst hji; simpa using hp
      · exact ih (i + 1) (by omega) hj

theorem firstFrom_eq (p : Nat → Bool) (fuel i k : Nat) (hik : i ≤ k) (hk : k < i + fuel)
    (hp : p k = true) (hmin : ∀ j, i ≤ j → j < k → p j = false) : firstFrom p fuel i = k := by
  have h1 : firstFrom p fuel i ≤ k := by
    by_contra hlt
    have := firstFrom_before p fuel i k hik (by omega)
    rw [hp] at this
    exact Bool.noConfusion this
  have h2 : k ≤ firstFrom p fuel i := by
    by_contra hlt
    have hx := firstFrom_hit p fuel i (by omega)
    have hy := hmin _ (firstFrom_ge p fuel i) (by omega)
    rw [hx] at hy
    exact Bool.noConfusion hy
  omega

theorem firstFrom_none (p : Nat → Bool) (fuel i : Nat)
    (hnone : ∀ j, i ≤ j → j < i + fuel → p j = false) : firstFrom p fuel i = i + fuel := by
  have h1 := firstFrom_le p fuel i
  by_contra hne
  have hx := firstFrom_hit p fuel i (by omega)
  have hy := hnone _ (firstFrom_ge p fuel i) (by omega)
  rw [hx] at hy
  exact Bool.noConfusion hy

theorem firstFrom_congr (p q : Nat → Bool) (fuel i : Nat)
    (h : ∀ j, i ≤ j → j < i + fuel → p j = q j) : firstFrom p fuel i = firstFrom q fuel i := by
  induction fuel generalizing i with
  | zero => rfl
  | succ n ih =>
    unfold firstFrom
    rw [h i (Nat.le_refl i) (by omega), ih (i + 1) (fun j h1 h2 => h j (by omega) (by omega))]

/-- The user search, as a function of the store: the loop stops at the first
stored slot with the id, or at `userCount`. -/
theorem findUserLoop_eq (userId fuel : Nat) (s : CONTRACT_STATE)
    (hfuel : s.tempIndex + fuel = s.userCount) :
    findUserLoop userId fuel s =
      if firstFrom (fun j => decide ((s.users j).id = userId)) fuel s.tempIndex < s.userCount then
        { s with
          tempIndex := firstFrom (fun j => decide ((s.users j).id = userId)) fuel s.tempIndex
          tempUserId := firstFrom (fun j => decide ((s.users j).id = userId)) fuel s.tempIndex
          tempUser :=
            s.users (firstFrom (fun j => decide ((s.users j).id = userId)) fuel s.tempIndex) }
      else { s with tempIndex := s.userCount } := by
  induction fuel generalizing s with
  | zero =>
    cases s
    simp_all [findUserLoop, firstFrom]
  | succ n ih =>
    have hlt : s.tempIndex < s.userCount := by omega
    unfold findUserLoop
    rw [if_pos hlt]
    by_cases hid : (s.users s.tempIndex).id = userId
    · simp [firstFrom, hid, hlt]
    · rw [if_neg hid, ih _ (by simp; omega)]
      simp [firstFrom, hid]

/-- The event search, as a function of the store. -/
theorem findEventLoop_eq (eventId fuel : Nat) (s : CONTRACT_STATE)
    (hfuel : s.tempIndex + fuel = s.eventCount) :
    findEventLoop eventId fuel s =
      if firstFrom (fun j => decide ((s.events j).id = eventId)) fuel s.tempIndex
          < s.eventCount then
        { s with
          tempIndex := firstFrom (fun j => decide ((s.events j).id = eventId)) fuel s.tempIndex
          tempEventId := firstFrom (fun j => decide ((s.events j).id = eventId)) fuel s.tempIndex
          tempEvent :=
            s.events (firstFrom (fun j => decide ((s.events j).id = eventId)) fuel s.tempIndex) }
      else { s with tempIndex := s.eventCount } := by
  induction fuel generalizing s with
  | zero =>
    cases s
    simp_all [findEventLoop, firstFrom]
  | succ n ih =>
    have hlt : s.tempIndex < s.eventCount := by omega
    unfold findEventLoop
    rw [if_pos hlt]
    by_cases hid : (s.events s.tempIndex).id = eventId
    · simp [firstFrom, hid, hlt]
    · rw [if_neg hid, ih _ (by simp; omega)]
      simp [firstFrom, hid]

theorem sweepFrame_refl (s : CONTRACT_STATE) : SweepFrame s s := by
  constructor <;> rfl

theorem sweepFrame_trans {s t r : CONTRACT_STATE} (h1 : SweepFrame s t) (h2 : SweepFrame t r) :
    SweepFrame s r := by
  constructor
  · rw [h2.events, h1.events]
  · rw [h2.userCount, h1.userCount]
  · rw [h2.eventCount, h1.eventCount]
  · rw [h2.betCount, h1.betCount]
  · rw [h2.defaultBalance, h1.defaultBalance]
  · rw [h2.betCost, h1.betCost]
  · rw [h2.winReward, h1.winReward]
  · rw [h2.totalUsers, h1.totalUsers]
  · rw [h2.totalEvents, h1.totalEvents]
  · rw [h2.totalBets, h1.totalBets]
  · rw [h2.totalVolume, h1.totalVolume]
  · rw [h2.adminId, h1.adminId]
  · rw [h2.contractActive, h1.contractActive]
  · rw [h2.tempEventId, h1.tempEventId]
  · rw [h2.tempBetId, h1.tempBetId]
  · rw [h2.tempBalance, h1.tempBalance]
  · rw [h2.tempResult, h1.tempResult]
  · rw [h2.tempUser, h1.tempUser]
  · rw [h2.tempEvent, h1.tempEvent]

/-- The credit scan, as a function of the store. -/
theorem creditLoop_eq (userId fuel : Nat) (s : CONTRACT_STATE)
    (hfuel : s.tempUserId + fuel = s.userCount) :
    creditLoop userId fuel s =
      if firstFrom (fun j => decide ((s.users j).id = userId)) fuel s.tempUserId
          < s.userCount then
        { s with
          tempUserId := firstFrom (fun j => decide ((s.users j).id = userId)) fuel s.tempUserId
          users := setAt s.users
            (firstFrom (fun j => decide ((s.users j).id = userId)) fuel s.tempUserId)
            (credit s.winReward
              (s.users (firstFrom (fun j => decide ((s.users j).id = userId)) fuel s.tempUserId))) }
      else { s with tempUserId := s.userCount } := by
  induction fuel generalizing s with
  | zero =>
    cases s
    simp_all [creditLoop, firstFrom]
  | succ n ih =>
    have hlt : s.tempUserId < s.userCount := by omega
    unfold creditLoop
    rw [if_pos hlt]
    by_cases hid : (s.users s.tempUserId).id = userId
    · simp [firstFrom, hid, hlt, credit]
    · rw [if_neg hid, ih _ (by simp; omega)]
      simp [firstFrom, hid]

/-- The credit scan started at slot `0` writes `users` and `tempUserId`. -/
theorem creditLoop_users (userId : Nat) (s : CONTRACT_STATE) (h0 : s.tempUserId = 0) :
    (creditLoop userId s.userCount s).users =
      creditFirst s.users s.userCount s.winReward userId := by
  rw [creditLoop_eq userId s.userCount s (by omega), h0]
  unfold creditFirst
  split <;> rfl

theorem creditLoop_frame (userId : Nat) (s : CONTRACT_STATE) (h0 : s.tempUserId = 0) :
    SweepFrame s (creditLoop userId s.userCount s) ∧
      (creditLoop userId s.userCount s).bets = s.bets ∧
      (creditLoop userId s.userCount s).tempBet = s.tempBet ∧
      (creditLoop userId s.userCount s).tempIndex = s.tempIndex ∧
      (creditLoop userId s.userCount s).tempCount = s.tempCount ∧
      (creditLoop userId s.userCount s).tempAmount = s.tempAmount := by
  rw [creditLoop_eq userId s.userCount s (by omega)]
  split
  · exact ⟨by constructor <;> rfl, rfl, rfl, rfl, rfl, rfl⟩
  · exact ⟨by constructor <;> rfl, rfl, rfl, rfl, rfl, rfl⟩

/-- The sweep body, field by field: it settles the bet at slot `tempIndex`,
credits the first stored user with the winner's id, and counts the win. -/
theorem sweepBody_spec (input : ResolveEventInput) (s : CONTRACT_STATE) :
    SweepFrame s (sweepBody input s) ∧
      (sweepBody input s).tempIndex = s.tempIndex ∧
      (sweepBody input s).bets = setAt s.bets s.tempIndex (settled input (s.bets s.tempIndex)) ∧
      (sweepBody input s).users =
        (if wins input (s.bets s.tempIndex) = true then
          creditFirst s.users s.userCount s.winReward (s.bets s.tempIndex).userId
        else s.users) ∧
      (sweepBody input s).tempCount =
        (if wins input (s.bets s.tempIndex) = true then (s.tempCount + 1) % 4294967296
        else s.tempCount) ∧
      (sweepBody input s).tempAmount =
        (if wins input (s.bets s.tempIndex) = true then (s.tempAmount + s.winReward) % 4294967296
        else s.tempAmount) := by
  by_cases hq : (s.bets s.tempIndex).eventId = input.eventId ∧ (s.bets s.tempIndex).isProcessed = 0
  · by_cases hw : (s.bets s.tempIndex).prediction = input.correctAnswer
    · have hwin : wins input (s.bets s.tempIndex) = true := by
        simp [wins, hq.1, hq.2, hw]
      simp only [sweepBody, hq, hw, and_self, if_true, hwin, settled]
      rw [creditLoop_eq _ _ _ (by simp)]
      unfold creditFirst
      split <;>
        ((repeat' apply And.intro) <;> first | rfl | trivial | (constructor <;> rfl))
    · have hwin : ¬ wins input (s.bets s.tempIndex) = true := by
        simp [wins, hw]
      simp only [sweepBody, hq, hw, and_self, if_true, if_false, hwin, settled]
      (repeat' apply And.intro) <;> first | rfl | trivial | (constructor <;> rfl)
  · have hwin : ¬ wins input (s.bets s.tempIndex) = true := by
      simp only [wins, decide_eq_true_eq]
      intro h
      exact hq ⟨h.1, h.2.1⟩
    have hset : setAt s.bets s.tempIndex (s.bets s.tempIndex) = s.bets := by
      funext j
      simp only [setAt]
      split
      · rename_i h; rw [h]
      · rfl
    simp only [sweepBody, hq, if_false, hwin, settled, hset]
    (repeat' apply And.intro) <;> first | rfl | trivial | (constructor <;> rfl)

theorem creditAll_congr (input : ResolveEventInput) (b1 b2 : Nat → Bet) (n w fuel i : Nat)
    (users : Nat → User) (h : ∀ j, i ≤ j → j < i + fuel → b1 j = b2 j) :
    creditAll input b1 n w fuel i users = creditAll input b2 n w fuel i users := by
  induction fuel generalizing i users with
  | zero => rfl
  | succ m ih =>
    unfold creditAll
    rw [h i (Nat.le_refl i) (by omega)]
    exact ih (i + 1) _ (fun j h1 h2 => h j (by omega) (by omega))

theorem winCount_congr (input : ResolveEventInput) (b1 b2 : Nat → Bet) (i fuel : Nat)
    (h : ∀ j, i ≤ j → j < i + fuel → b1 j = b2 j) :
    winCount input b1 i fuel = winCount input b2 i fuel := by
  unfold winCount
  apply List.countP_congr
  intro j hj
  rw [List.mem_range'_1] at hj
  rw [h j hj.1 hj.2]

theorem winCount_succ (input : ResolveEventInput) (bets : Nat → Bet) (i fuel : Nat) :
    winCount input bets i (fuel + 1) =
      (if wins input (bets i) = true then 1 else 0) + winCount input bets (i + 1) fuel := by
  unfold winCount
  rw [List.range'_succ, List.countP_cons]
  omega

/-- The settlement sweep, field by field. -/
theorem sweepLoop_spec (input : ResolveEventInput) (fuel : Nat) (s : CONTRACT_STATE)
    (hfuel : s.tempIndex + fuel = s.betCount) :
    SweepFrame s (sweepLoop input fuel s) ∧
      (∀ j, (sweepLoop input fuel s).bets j =
        if s.tempIndex ≤ j ∧ j < s.betCount then settled input (s.bets j) else s.bets j) ∧
      (sweepLoop input fuel s).users =
        creditAll input s.bets s.userCount s.winReward fuel s.tempIndex s.users ∧
      (s.tempCount < 4294967296 → (sweepLoop input fuel s).tempCount =
        (s.tempCount + winCount input s.bets s.tempIndex fuel) % 4294967296) ∧
      (s.tempAmount < 4294967296 → (sweepLoop input fuel s).tempAmount =
        (s.tempAmount + winCount input s.bets s.tempIndex fuel * s.winReward) % 4294967296) := by
  induction fuel generalizing s with
  | zero =>
    refine ⟨sweepFrame_refl s, ?_, rfl, ?_, ?_⟩
    · intro j
      have : ¬ (s.tempIndex ≤ j ∧ j < s.betCount) := by omega
      simp only [sweepLoop, this, if_false]
    · intro h
      simp only [sweepLoop, winCount, List.range'_zero, List.countP_nil, Nat.add_zero]
      exact (Nat.mod_eq_of_lt h).symm
    · intro h
      simp only [sweepLoop, winCount, List.range'_zero, List.countP_nil, Nat.add_zero, Nat.zero_mul]
      exact (Nat.mod_eq_of_lt h).symm
  | succ n ih =>
    have hlt : s.tempIndex < s.betCount := by omega
    have key : ∃ s1, sweepLoop input (n + 1) s = sweepLoop input n s1 ∧ SweepFrame s s1 ∧
        s1.tempIndex = s.tempIndex + 1 ∧
        s1.bets = setAt s.bets s.tempIndex (settled input (s.bets s.tempIndex)) ∧
        s1.users = (if wins input (s.bets s.tempIndex) = true then
          creditFirst s.users s.userCount s.winReward (s.bets s.tempIndex).userId
          else s.users) ∧
        s1.tempCount = (if wins input (s.bets s.tempIndex) = true then
          (s.tempCount + 1) % 4294967296 else s.tempCount) ∧
        s1.tempAmount = (if wins input (s.bets s.tempIndex) = true then
          (s.tempAmount + s.winReward) % 4294967296 else s.tempAmount) := by
      obtain ⟨hfr, hti, hbets, husers, hcnt, hamt⟩ := sweepBody_spec input s
      refine ⟨{ sweepBody input s with tempIndex := (sweepBody input s).tempIndex + 1 },
        ?_, ?_, ?_, hbets, husers, hcnt, hamt⟩
      · simp only [sweepLoop, hlt, if_true]
      · exact sweepFrame_trans hfr (by constructor <;> rfl)
      · show (sweepBody input s).tempIndex + 1 = s.tempIndex + 1
        rw [hti]
    obtain ⟨s1, hstep, hfr, hti, hbets, husers, hcnt, hamt⟩ := key
    rw [hstep]
    obtain ⟨ifr, ibets, iusers, icnt, iamt⟩ := ih s1 (by rw [hti, hfr.betCount]; omega)
    rw [hti, hfr.betCount, hbets] at ibets
    rw [hti, hfr.userCount, hfr.winReward, hbets, husers] at iusers
    rw [hti, hbets, hcnt] at icnt
    rw [hti, hbets, hamt, hfr.winReward] at iamt
    have hagree : ∀ j, s.tempIndex + 1 ≤ j → j < s.tempIndex + 1 + n →
        setAt s.bets s.tempIndex (settled input (s.bets s.tempIndex)) j = s.bets j := by
      intro j h1 _
      have : ¬ j = s.tempIndex := by omega
      simp only [setAt, this, if_false]
    refine ⟨?_, ?_, ?_, ?_, ?_⟩
    · exact sweepFrame_trans hfr ifr
    · intro j
      rw [ibets j]
      by_cases hj : j = s.tempIndex
      · subst hj
        have h1 : ¬ (s.tempIndex + 1 ≤ s.tempIndex ∧ s.tempIndex < s.betCount) := by omega
        have h2 : s.tempIndex ≤ s.tempIndex ∧ s.tempIndex < s.betCount := by omega
        rw [if_neg h1, if_pos h2]
        simp only [setAt, if_true]
      · by_cases hr : s.tempIndex + 1 ≤ j ∧ j < s.betCount
        · have h2 : s.tempIndex ≤ j ∧ j < s.betCount := by omega
          rw [if_pos hr, if_pos h2]
          simp only [setAt, hj, if_false]
        · have h2 : ¬ (s.tempIndex ≤ j ∧ j < s.betCount) := by omega
          rw [if_neg hr, if_neg h2]
          simp only [setAt, hj, if_false]
    · rw [iusers, creditAll_congr input _ s.bets _ _ n (s.tempIndex + 1) _ hagree]
      rfl
    · intro h
      rw [icnt (by split <;> omega), winCount_congr input _ s.bets _ n hagree, winCount_succ]
      split <;> omega
    · intro h
      rw [iamt (by split <;> omega), winCount_congr input _ s.bets _ n hagree, winCount_succ]
      split
      · rw [Nat.add_mul, Nat.one_mul]; omega
      · rw [Nat.zero_add]

theorem ledgerEq_refl (s : CONTRACT_STATE) : LedgerEq s s := by
  constructor <;> rfl

/-- The block "Find event": it writes three scratch fields, and either stops
at the first stored slot with the id, or runs to `eventCount` and leaves
`tempEventId = 0` and `tempEvent` as it was. -/
theorem findEvent_spec (eventId : Nat) (s : CONTRACT_STATE) :
    ∃ k e0 ti, findEvent eventId s = { s with tempEventId := k, tempEvent := e0, tempIndex := ti } ∧
      ((k < s.eventCount ∧ (s.events k).id = eventId ∧
          (∀ j, j < k → (s.events j).id ≠ eventId) ∧ e0 = s.events k) ∨
        ((∀ j, j < s.eventCount → (s.events j).id ≠ eventId) ∧ k = 0 ∧ e0 = s.tempEvent)) := by
  unfold findEvent
  rw [findEventLoop_eq eventId s.eventCount _ (by simp)]
  have hge := firstFrom_ge (fun j => decide ((s.events j).id = eventId)) s.eventCount 0
  split
  · rename_i hlt
    refine ⟨_, _, _, rfl, Or.inl ⟨hlt, ?_, ?_, rfl⟩⟩
    · have := firstFrom_hit (fun j => decide ((s.events j).id = eventId)) s.eventCount 0
        (by simpa using hlt)
      simpa using this
    · intro j hj
      have := firstFrom_before (fun j => decide ((s.events j).id = eventId)) s.eventCount 0 j
        (Nat.zero_le j) hj
      simpa using this
  · rename_i hnlt
    refine ⟨0, s.tempEvent, s.eventCount, rfl, Or.inr ⟨?_, rfl, rfl⟩⟩
    intro j hj
    have := firstFrom_before (fun j => decide ((s.events j).id = eventId)) s.eventCount 0 j
      (Nat.zero_le j) (by simp only [] at hnlt; omega)
    simpa using this

/-- The block "Find user" of `PlaceBet`. -/
theorem findUser_spec (userId : Nat) (s : CONTRACT_STATE) :
    ∃ k u0 ti, findUser userId s = { s with tempUserId := k, tempUser := u0, tempIndex := ti } ∧
      ((k < s.userCount ∧ (s.users k).id = userId ∧
          (∀ j, j < k → (s.users j).id ≠ userId) ∧ u0 = s.users k) ∨
        ((∀ j, j < s.userCount → (s.users j).id ≠ userId) ∧ k = 0 ∧ u0 = s.tempUser)) := by
  unfold findUser
  rw [findUserLoop_eq userId s.userCount _ (by simp)]
  have hge := firstFrom_ge (fun j => decide ((s.users j).id = userId)) s.userCount 0
  split
  · rename_i hlt
    refine ⟨_, _, _, rfl, Or.inl ⟨hlt, ?_, ?_, rfl⟩⟩
    · have := firstFrom_hit (fun j => decide ((s.users j).id = userId)) s.userCount 0
        (by simpa using hlt)
      simpa using this
    · intro j hj
      have := firstFrom_before (fun j => decide ((s.users j).id = userId)) s.userCount 0 j
        (Nat.zero_le j) hj
      simpa using this
  · rename_i hnlt
    refine ⟨0, s.tempUser, s.userCount, rfl, Or.inr ⟨?_, rfl, rfl⟩⟩
    intro j hj
    have := firstFrom_before (fun j => decide ((s.users j).id = userId)) s.userCount 0 j
      (Nat.zero_le j) (by simp only [] at hnlt; omega)
    simpa using this

/-- The two ways out of `ResolveEvent`: a refusal, which returns zeros and
writes scratch fields only, or the sweep from `resolveStart`. -/
theorem ResolveEvent_cases (c t : Nat) (input : ResolveEventInput) (s : CONTRACT_STATE) :
    ((ResolveEvent c t input s).2 = { winnersCount := 0, totalPayout := 0, success := 0 } ∧
        LedgerEq s (ResolveEvent c t input s).1) ∨
      (∃ k e0,
        ((k < s.eventCount ∧ (s.events k).id = input.eventId ∧
            (∀ j, j < k → (s.events j).id ≠ input.eventId) ∧ e0 = s.events k) ∨
          (s.eventCount = 0 ∧ k = 0 ∧ (s.events 0).id = input.eventId ∧ e0 = s.tempEvent)) ∧
        s.contractActive ≠ 0 ∧ c = s.adminId ∧ e0.isActive ≠ 0 ∧ e0.isResolved = 0 ∧
        ResolveEvent c t input s =
          (sweepLoop input s.betCount (resolveStart s k e0 input.correctAnswer),
            { winnersCount :=
                (sweepLoop input s.betCount (resolveStart s k e0 input.correctAnswer)).tempCount
              totalPayout :=
                (sweepLoop input s.betCount (resolveStart s k e0 input.correctAnswer)).tempAmount
              success := 1 })) := by
  unfold ResolveEvent
  by_cases hact : s.contractActive = 0
  · rw [if_pos hact]; exact Or.inl ⟨rfl, ledgerEq_refl s⟩
  rw [if_neg hact]
  by_cases hadm : c = s.adminId
  swap
  · rw [if_pos hadm]; exact Or.inl ⟨rfl, ledgerEq_refl s⟩
  rw [if_neg (not_not.mpr hadm)]
  obtain ⟨k, e0, ti, hs1, hfind⟩ := findEvent_spec input.eventId s
  simp only [hs1]
  by_cases hnf : k = 0 ∧ (s.events 0).id ≠ input.eventId
  · rw [if_pos hnf]; exact Or.inl ⟨rfl, by constructor <;> rfl⟩
  rw [if_neg hnf]
  by_cases hclosed : e0.isActive = 0 ∨ e0.isResolved ≠ 0
  · rw [if_pos hclosed]; exact Or.inl ⟨rfl, by constructor <;> rfl⟩
  rw [if_neg hclosed]
  have hopen : e0.isActive ≠ 0 ∧ e0.isResolved = 0 := by
    constructor
    · intro h; exact hclosed (Or.inl h)
    · by_contra h; exact hclosed (Or.inr h)
  right
  refine ⟨k, e0, ?_, hact, hadm, hopen.1, hopen.2, rfl⟩
  rcases hfind with ⟨hk, hid, hmin, he⟩ | ⟨hnone, hk0, he⟩
  · exact Or.inl ⟨hk, hid, hmin, he⟩
  · have h0 : (s.events 0).id = input.eventId := by
      by_contra h
      exact hnf ⟨hk0, h⟩
    have hc0 : s.eventCount = 0 := by
      by_contra h
      exact hnone 0 (Nat.pos_of_ne_zero h) h0
    exact Or.inr ⟨hc0, hk0, h0, he⟩

theorem creditN_credit (w n : Nat) (u : User) : creditN w n (credit w u) = creditN w (n + 1) u := by
  unfold creditN credit
  by_cases hn : n = 0
  · subst hn
    simp
  · rw [if_neg hn, if_neg (Nat.succ_ne_zero n)]
    have h1 : ((u.balance + w) % 4294967296 + n * w) % 4294967296 =
        (u.balance + (n + 1) * w) % 4294967296 := by
      rw [Nat.succ_mul]; omega
    have h2 : ((u.totalWins + 1) % 4294967296 + n) % 4294967296 =
        (u.totalWins + (n + 1)) % 4294967296 := by omega
    simp only [h1, h2]

theorem userWinCount_succ (input : ResolveEventInput) (bets : Nat → Bet) (userId i fuel : Nat) :
    userWinCount input bets userId i (fuel + 1) =
      (if wins input (bets i) = true ∧ (bets i).userId = userId then 1 else 0) +
        userWinCount input bets userId (i + 1) fuel := by
  unfold userWinCount
  rw [List.range'_succ, List.countP_cons]
  have : (decide ((bets i).userId = userId ∧ (bets i).eventId = input.eventId ∧
      (bets i).isProcessed = 0 ∧ (bets i).prediction = input.correctAnswer) = true) ↔
      (wins input (bets i) = true ∧ (bets i).userId = userId) := by
    simp only [wins, decide_eq_true_eq]
    tauto
  by_cases h : wins input (bets i) = true ∧ (bets i).userId = userId
  · rw [if_pos h, if_pos (this.mpr h)]; omega
  · rw [if_neg h, if_neg (fun hh => h (this.mp hh))]; omega

/-- One credit scan over a store with distinct ids credits exactly the stored
user with the id, and nobody when no stored user has it. -/
theorem creditFirst_distinct (users : Nat → User) (n w userId : Nat)
    (hd : DistinctUserIds users n) (k : Nat) :
    creditFirst users n w userId k =
      if k < n ∧ (users k).id = userId then credit w (users k) else users k := by
  unfold creditFirst
  have hge := firstFrom_ge (fun j => decide ((users j).id = userId)) n 0
  by_cases hlt : firstFrom (fun j => decide ((users j).id = userId)) n 0 < n
  · rw [if_pos hlt]
    have hhit := firstFrom_hit (fun j => decide ((users j).id = userId)) n 0 (by omega)
    simp only [decide_eq_true_eq] at hhit
    by_cases hk : k < n ∧ (users k).id = userId
    · have : k = firstFrom (fun j => decide ((users j).id = userId)) n 0 :=
        hd _ _ hk.1 hlt (by rw [hk.2, hhit])
      rw [if_pos hk]
      simp only [setAt, ← this, if_true]
    · rw [if_neg hk]
      have : ¬ k = firstFrom (fun j => decide ((users j).id = userId)) n 0 := by
        intro h
        apply hk
        rw [h]
        exact ⟨hlt, hhit⟩
      simp only [setAt, this, if_false]
  · rw [if_neg hlt]
    have hk : ¬ (k < n ∧ (users k).id = userId) := by
      intro h
      have := firstFrom_before (fun j => decide ((users j).id = userId)) n 0 k
        (Nat.zero_le k) (by omega)
      simp only [decide_eq_false_iff_not] at this
      exact this h.2
    rw [if_neg hk]

theorem creditFirst_id (users : Nat → User) (n w userId k : Nat) :
    (creditFirst users n w userId k).id = (users k).id := by
  unfold creditFirst
  split
  · simp only [setAt]
    split
    · rename_i h; rw [h]; rfl
    · rfl
  · rfl

/-- The user store after the sweep over a store with distinct ids: every
stored user has received one credit per winning bet carrying the user's id. -/
theorem creditAll_distinct (input : ResolveEventInput) (bets : Nat → Bet) (n w fuel i : Nat)
    (users : Nat → User) (hd : DistinctUserIds users n) (k : Nat) :
    creditAll input bets n w fuel i users k =
      if k < n then creditN w (userWinCount input bets (users k).id i fuel) (users k)
      else users k := by
  induction fuel generalizing i users with
  | zero =>
    simp [creditAll, userWinCount, creditN]
  | succ m ih =>
    unfold creditAll
    by_cases hw : wins input (bets i) = true
    · rw [if_pos hw]
      have hd2 : DistinctUserIds (creditFirst users n w (bets i).userId) n := by
        intro a b ha hb hab
        rw [creditFirst_id, creditFirst_id] at hab
        exact hd a b ha hb hab
      rw [ih (i + 1) _ hd2, creditFirst_id, userWinCount_succ, creditFirst_distinct users n w _ hd]
      by_cases hk : k < n
      · rw [if_pos hk, if_pos hk]
        by_cases hid : (users k).id = (bets i).userId
        · rw [if_pos ⟨hk, hid⟩, if_pos ⟨hw, hid.symm⟩, creditN_credit, Nat.add_comm]
        · rw [if_neg (fun h => hid h.2), if_neg (fun h => hid h.2.symm), Nat.zero_add]
      · rw [if_neg hk, if_neg hk, if_neg (fun h => hk h.1)]
    · rw [if_neg hw, ih (i + 1) _ hd, userWinCount_succ]
      have hno : ¬ (wins input (bets i) = true ∧ (bets i).userId = (users k).id) :=
        fun h => hw h.1
      rw [if_neg hno, Nat.zero_add]

/-- A successful `ResolveEvent`, field by field. -/
theorem ResolveEvent_success_spec (c t : Nat) (input : ResolveEventInput) (s : CONTRACT_STATE)
    (h : (ResolveEvent c t input s).2.success = 1) :
    ∃ k e0,
      ((k < s.eventCount ∧ (s.events k).id = input.eventId ∧
          (∀ j, j < k → (s.events j).id ≠ input.eventId) ∧ e0 = s.events k) ∨
        (s.eventCount = 0 ∧ k = 0 ∧ (s.events 0).id = input.eventId ∧ e0 = s.tempEvent)) ∧
      s.contractActive ≠ 0 ∧ c = s.adminId ∧ e0.isActive ≠ 0 ∧ e0.isResolved = 0 ∧
      SweepFrame (resolveStart s k e0 input.correctAnswer) (ResolveEvent c t input s).1 ∧
      (∀ j, (ResolveEvent c t input s).1.bets j =
        if j < s.betCount then settled input (s.bets j) else s.bets j) ∧
      (ResolveEvent c t input s).1.users =
        creditAll input s.bets s.userCount s.winReward s.betCount 0 s.users ∧
      (ResolveEvent c t input s).2.winnersCount =
        winCount input s.bets 0 s.betCount % 4294967296 ∧
      (ResolveEvent c t input s).2.totalPayout =
        (winCount input s.bets 0 s.betCount * s.winReward) % 4294967296 := by
  rcases ResolveEvent_cases c t input s with ⟨hout, -⟩ | ⟨k, e0, hlook, hact, hadm, ha, hr, heq⟩
  · rw [hout] at h
    exact absurd h (by decide)
  · refine ⟨k, e0, hlook, hact, hadm, ha, hr, ?_⟩
    obtain ⟨hfr, hbets, husers, hcnt, hamt⟩ :=
      sweepLoop_spec input s.betCount (resolveStart s k e0 input.correctAnswer)
        (by simp [resolveStart])
    rw [heq]
    refine ⟨hfr, ?_, ?_, ?_, ?_⟩
    · intro j
      have := hbets j
      simpa [resolveStart] using this
    · simpa [resolveStart] using husers
    · have := hcnt (by simp [resolveStart])
      simpa [resolveStart] using this
    · have := hamt (by simp [resolveStart])
      simpa [resolveStart] using this

/-! ## Settlement (`ResolveEvent`) -/

/-- The marks of a settlement on any state: after a successful `ResolveEvent`,
every stored bet of the resolved event id has a nonzero `isProcessed`; it is
`1` when it was `0` or `1` before, and a bet whose `isProcessed` was nonzero
before is left as it was.  A bet of that event id with `isProcessed = 0` before
has `isWon = 1` exactly when its prediction is the answer, and `isWon = 0`
otherwise. -/
theorem ResolveEvent_marks_any (c t : Nat) (input : ResolveEventInput) (s : CONTRACT_STATE)
    (h : (ResolveEvent c t input s).2.success = 1) (i : Nat) (hi : i < s.betCount)
    (he : (s.bets i).eventId = input.eventId) :
    ((ResolveEvent c t input s).1.bets i).isProcessed ≠ 0 ∧
      ((s.bets i).isProcessed ≤ 1 → ((ResolveEvent c t input s).1.bets i).isProcessed = 1) ∧
      ((s.bets i).isProcessed ≠ 0 → (ResolveEvent c t input s).1.bets i = s.bets i) ∧
      ((s.bets i).isProcessed = 0 →
        (((ResolveEvent c t input s).1.bets i).isWon = 1 ↔
          (s.bets i).prediction = input.correctAnswer) ∧
        ((s.bets i).prediction ≠ input.correctAnswer →
          ((ResolveEvent c t input s).1.bets i).isWon = 0)) := by
  obtain ⟨k, e0, -, -, -, -, -, -, hbets, -⟩ := ResolveEvent_success_spec c t input s h
  rw [hbets i, if_pos hi]
  unfold settled
  by_cases hp : (s.bets i).isProcessed = 0
  · rw [if_pos ⟨he, hp⟩]
    refine ⟨by simp, fun _ => rfl, fun hne => absurd hp hne, fun _ => ?_⟩
    by_cases hw : (s.bets i).prediction = input.correctAnswer
    · simp [hw]
    · simp [hw]
  · rw [if_neg (fun hh => hp hh.2)]
    refine ⟨hp, fun hle => by omega, fun _ => rfl, fun h0 => absurd h0 hp⟩

theorem winCount_le (input : ResolveEventInput) (bets : Nat → Bet) (i fuel : Nat) :
    winCount input bets i fuel ≤ fuel := by
  unfold winCount
  have := List.countP_le_length (fun j => wins input (bets j)) (l := List.range' i fuel)
  rw [List.length_range'] at this
  exact this

theorem winCount_range (input : ResolveEventInput) (bets : Nat → Bet) (n : Nat) :
    winCount input bets 0 n =
      (List.range n).countP (fun i => decide ((bets i).eventId = input.eventId ∧
        (bets i).isProcessed = 0 ∧ (bets i).prediction = input.correctAnswer)) := by
  unfold winCount
  rw [List.range_eq_range']
  rfl

theorem userWinCount_range (input : ResolveEventInput) (bets : Nat → Bet) (userId n : Nat) :
    userWinCount input bets userId 0 n =
      (List.range n).countP (fun j => decide ((bets j).userId = userId ∧
        (bets j).eventId = input.eventId ∧ (bets j).isProcessed = 0 ∧
        (bets j).prediction = input.correctAnswer)) := by
  unfold userWinCount
  rw [List.range_eq_range']

/-- C2: on success, `winnersCount` is the number of stored bets of the event id
that were unprocessed and predicted the answer, and `totalPayout` is
`winnersCount * winReward` modulo `2^32`.  `betCount` is a `uint32`. -/
theorem ResolveEvent_totals (c t : Nat) (input : ResolveEventInput) (s : CONTRACT_STATE)
    (hty : s.betCount < 4294967296) (h : (ResolveEvent c t input s).2.success = 1) :
    (ResolveEvent c t input s).2.winnersCount =
        (List.range s.betCount).countP (fun i => decide ((s.bets i).eventId = input.eventId ∧
          (s.bets i).isProcessed = 0 ∧ (s.bets i).prediction = input.correctAnswer)) ∧
      (ResolveEvent c t input s).2.totalPayout =
        ((ResolveEvent c t input s).2.winnersCount * s.winReward) % 4294967296 := by
  obtain ⟨k, e0, -, -, -, -, -, -, -, -, hcnt, hamt⟩ := ResolveEvent_success_spec c t input s h
  have hle := winCount_le input s.bets 0 s.betCount
  have hmod : winCount input s.bets 0 s.betCount % 4294967296 = winCount input s.bets 0 s.betCount :=
    Nat.mod_eq_of_lt (by omega)
  rw [hmod] at hcnt
  rw [hamt, hcnt, winCount_range]
  exact ⟨rfl, rfl⟩

/-- C2 at work: resolving event `1` with answer YES on the ledger with one YES
and one NO bet. -/
theorem ResolveEvent_totals_witness :
    (ResolveEvent 7 9 { eventId := 1, correctAnswer := 1, confidence := 0 }
        twoBetState).2.winnersCount =
        (List.range twoBetState.betCount).countP (fun i =>
          decide ((twoBetState.bets i).eventId = 1 ∧
            (twoBetState.bets i).isProcessed = 0 ∧ (twoBetState.bets i).prediction = 1)) ∧
      (ResolveEvent 7 9 { eventId := 1, correctAnswer := 1, confidence := 0 }
        twoBetState).2.totalPayout =
        ((ResolveEvent 7 9 { eventId := 1, correctAnswer := 1, confidence := 0 }
          twoBetState).2.winnersCount * twoBetState.winReward) % 4294967296 :=
  ResolveEvent_totals 7 9 { eventId := 1, correctAnswer := 1, confidence := 0 } twoBetState
    (by decide) (by decide)

/-- C3: on a ledger whose stored users have pairwise distinct ids, a successful
`ResolveEvent` leaves each stored user with `k` credits, `k` being the number
of stored bets carrying the user's id and the event id that were unprocessed
and predicted the answer: the balance is `old + k * winReward` and `totalWins`
is `old + k`, both modulo `2^32`, no other field of the user changes, and a
user with `k = 0` is unchanged.  The amounts of the bets play no part. -/
theorem ResolveEvent_credits (c t : Nat) (input : ResolveEventInput) (s : CONTRACT_STATE)
    (hd : DistinctUserIds s.users s.userCount)
    (h : (ResolveEvent c t input s).2.success = 1) (i : Nat) (hi : i < s.userCount) (k : Nat)
    (hk : k = (List.range s.betCount).countP (fun j =>
      decide ((s.bets j).userId = (s.users i).id ∧ (s.bets j).eventId = input.eventId ∧
        (s.bets j).isProcessed = 0 ∧ (s.bets j).prediction = input.correctAnswer))) :
    (ResolveEvent c t input s).1.users i =
      if k = 0 then s.users i
      else
        { s.users i with
          balance := ((s.users i).balance + k * s.winReward) % 4294967296
          totalWins := ((s.users i).totalWins + k) % 4294967296 } := by
  obtain ⟨_, _, -, -, -, -, -, -, -, husers, -⟩ := ResolveEvent_success_spec c t input s h
  rw [husers, creditAll_distinct input s.bets s.userCount s.winReward s.betCount 0 s.users hd i,
    if_pos hi, userWinCount_range, ← hk]
  rfl

/-- C3 at work: user `1` of the ledger with one YES and one NO bet. -/
theorem ResolveEvent_credits_witness :
    (ResolveEvent 7 9 { eventId := 1, correctAnswer := 1, confidence := 0 }
        twoBetState).1.users 0 =
      if 1 = 0 then twoBetState.users 0
      else
        { twoBetState.users 0 with
          balance := ((twoBetState.users 0).balance + 1 * twoBetState.winReward) % 4294967296
          totalWins := ((twoBetState.users 0).totalWins + 1) % 4294967296 } :=
  ResolveEvent_credits 7 9 { eventId := 1, correctAnswer := 1, confidence := 0 } twoBetState
    (by intro a b ha hb _
        have ha1 : a < 1 := ha
        have hb1 : b < 1 := hb
        omega)
    (by decide) 0 (by decide) 1 (by decide)

/-- C4: after a successful `ResolveEvent` on an event id, a further
`ResolveEvent` on the same id, with any answer and by any caller, returns
`success = 0`, `winnersCount = 0`, `totalPayout = 0` and leaves the stored
bets, users and events (and every other field of the ledger proper) as the
first resolution left them. -/
theorem ResolveEvent_idempotent (c1 t1 : Nat) (input1 : ResolveEventInput) (s : CONTRACT_STATE)
    (h : (ResolveEvent c1 t1 input1 s).2.success = 1)
    (c2 t2 : Nat) (input2 : ResolveEventInput) (hid : input2.eventId = input1.eventId) :
    (ResolveEvent c2 t2 input2 (ResolveEvent c1 t1 input1 s).1).2 =
        { winnersCount := 0, totalPayout := 0, success := 0 } ∧
      (ResolveEvent c2 t2 input2 (ResolveEvent c1 t1 input1 s).1).1.bets =
        (ResolveEvent c1 t1 input1 s).1.bets ∧
      (ResolveEvent c2 t2 input2 (ResolveEvent c1 t1 input1 s).1).1.users =
        (ResolveEvent c1 t1 input1 s).1.users ∧
      (ResolveEvent c2 t2 input2 (ResolveEvent c1 t1 input1 s).1).1.events =
        (ResolveEvent c1 t1 input1 s).1.events ∧
      LedgerEq (ResolveEvent c1 t1 input1 s).1
        (ResolveEvent c2 t2 input2 (ResolveEvent c1 t1 input1 s).1).1 := by
  obtain ⟨k, e0, hlook, -, -, -, -, hfr, -, -, -, -⟩ := ResolveEvent_success_spec c1 t1 input1 s h
  generalize (ResolveEvent c1 t1 input1 s).1 = r at hfr ⊢
  have hev : r.events = setAt s.events k
      { e0 with isResolved := 1, isActive := 0, correctAnswer := input1.correctAnswer } :=
    hfr.events
  have hec : r.eventCount = s.eventCount := hfr.eventCount
  have hte : r.tempEvent =
      { e0 with isResolved := 1, isActive := 0, correctAnswer := input1.correctAnswer } :=
    hfr.tempEvent
  rcases ResolveEvent_cases c2 t2 input2 r with ⟨hout, hle⟩ | ⟨k2, e2, hlook2, -, -, -, hr2, -⟩
  · exact ⟨hout, hle.bets, hle.users, hle.events, hle⟩
  · exfalso
    have hres : e2.isResolved = 1 := by
      rcases hlook2 with ⟨hk2, hid2, hmin2, he2⟩ | ⟨-, -, -, he2⟩
      · rw [he2, hev]
        by_cases hkk : k2 = k
        · simp only [setAt, hkk, if_true]
        · exfalso
          rw [hev] at hid2
          simp only [setAt, hkk, if_false] at hid2
          rcases hlook with ⟨hk, hidk, hmin, he0⟩ | ⟨hc0, -, -, -⟩
          · have hlt : k < k2 := by
              by_contra hnot
              exact hmin k2 (by omega) (by rw [hid2, hid])
            have := hmin2 k hlt
            rw [hev] at this
            simp only [setAt, if_true] at this
            apply this
            rw [he0, hidk, hid]
          · omega
      · rw [he2, hte]
    omega

/-- C4 at work: resolving event `1` of the ledger with two bets twice, the
second time by another caller and with the other answer. -/
theorem ResolveEvent_idempotent_witness :
    (ResolveEvent 8 10 { eventId := 1, correctAnswer := 0, confidence := 0 }
        (ResolveEvent 7 9 { eventId := 1, correctAnswer := 1, confidence := 0 }
          twoBetState).1).2 =
        { winnersCount := 0, totalPayout := 0, success := 0 } ∧
      (ResolveEvent 8 10 { eventId := 1, correctAnswer := 0, confidence := 0 }
        (ResolveEvent 7 9 { eventId := 1, correctAnswer := 1, confidence := 0 }
          twoBetState).1).1.bets =
        (ResolveEvent 7 9 { eventId := 1, correctAnswer := 1, confidence := 0 }
          twoBetState).1.bets ∧
      (ResolveEvent 8 10 { eventId := 1, correctAnswer := 0, confidence := 0 }
        (ResolveEvent 7 9 { eventId := 1, correctAnswer := 1, confidence := 0 }
          twoBetState).1).1.users =
        (ResolveEvent 7 9 { eventId := 1, correctAnswer := 1, confidence := 0 }
          twoBetState).1.users ∧
      (ResolveEvent 8 10 { eventId := 1, correctAnswer := 0, confidence := 0 }
        (ResolveEvent 7 9 { eventId := 1, correctAnswer := 1, confidence := 0 }
          twoBetState).1).1.events =
        (ResolveEvent 7 9 { eventId := 1, correctAnswer := 1, confidence := 0 }
          twoBetState).1.events ∧
      LedgerEq
        (ResolveEvent 7 9 { eventId := 1, correctAnswer := 1, confidence := 0 } twoBetState).1
        (ResolveEvent 8 10 { eventId := 1, correctAnswer := 0, confidence := 0 }
          (ResolveEvent 7 9 { eventId := 1, correctAnswer := 1, confidence := 0 }
            twoBetState).1).1 :=
  ResolveEvent_idempotent 7 9 { eventId := 1, correctAnswer := 1, confidence := 0 } twoBetState
    (by decide) 8 10 { eventId := 1, correctAnswer := 0, confidence := 0 } rfl

/-! ## Admin-only operations -/

/-- C9: for a caller other than `adminId`, `CreateEvent` and `ResolveEvent`
return `success = 0` with every other output field `0` and hand back the state
they were given, untouched. -/
theorem admin_only (c t : Nat) (s : CONTRACT_STATE) (hc : c ≠ s.adminId)
    (ce : CreateEventInput) (re : ResolveEventInput) :
    CreateEvent c t ce s = (s, { eventId := 0, success := 0 }) ∧
      ResolveEvent c t re s = (s, { winnersCount := 0, totalPayout := 0, success := 0 }) := by
  constructor
  · unfold CreateEvent
    by_cases h1 : s.contractActive = 0
    · rw [if_pos h1]
    · by_cases h2 : s.eventCount ≥ MAX_EVENTS
      · rw [if_neg h1, if_pos h2]
      · rw [if_neg h1, if_neg h2, if_pos hc]
  · unfold ResolveEvent
    by_cases h1 : s.contractActive = 0
    · rw [if_pos h1]
    · rw [if_neg h1, if_pos hc]

/-- C9 at work: caller `8` on the ledger whose admin is `7`. -/
theorem admin_only_witness :
    CreateEvent 8 3 { title := [], description := [], category := [], endsAt := 99 } twoBetState =
        (twoBetState, { eventId := 0, success := 0 }) ∧
      ResolveEvent 8 3 { eventId := 1, correctAnswer := 1, confidence := 0 } twoBetState =
        (twoBetState, { winnersCount := 0, totalPayout := 0, success := 0 }) :=
  admin_only 8 3 twoBetState (by decide)
    { title := [], description := [], category := [], endsAt := 99 }
    { eventId := 1, correctAnswer := 1, confidence := 0 }

/-! ## Bet placement (`PlaceBet`) -/

/-- The two ways out of `PlaceBet`: a refusal, which returns zeros and writes
scratch fields only, or the accepted bet. -/
theorem PlaceBet_cases (c t : Nat) (input : PlaceBetInput) (s : CONTRACT_STATE) :
    ((PlaceBet c t input s).2 = { betId := 0, newBalance := 0, success := 0 } ∧
        LedgerEq s (PlaceBet c t input s).1) ∨
      (∃ ku u0 ke e0 ti,
        ((ku < s.userCount ∧ (s.users ku).id = input.userId ∧
            (∀ j, j < ku → (s.users j).id ≠ input.userId) ∧ u0 = s.users ku) ∨
          (s.userCount = 0 ∧ ku = 0 ∧ (s.users 0).id = input.userId ∧ u0 = s.tempUser)) ∧
        ((ke < s.eventCount ∧ (s.events ke).id = input.eventId ∧
            (∀ j, j < ke → (s.events j).id ≠ input.eventId) ∧ e0 = s.events ke) ∨
          (s.eventCount = 0 ∧ ke = 0 ∧ (s.events 0).id = input.eventId ∧ e0 = s.tempEvent)) ∧
        s.contractActive ≠ 0 ∧ s.betCount < MAX_BETS ∧ input.amount ≤ u0.balance ∧
        e0.isActive ≠ 0 ∧ e0.isResolved = 0 ∧
        PlaceBet c t input s =
          (placeBetEnd s t input ku u0 ke e0 ti,
            { betId := (s.betCount + 1) % 4294967296
              newBalance := u0.balance - input.amount
              success := 1 })) := by
  unfold PlaceBet
  by_cases hact : s.contractActive = 0
  · rw [if_pos hact]; exact Or.inl ⟨rfl, ledgerEq_refl s⟩
  rw [if_neg hact]
  by_cases hfull : s.betCount ≥ MAX_BETS
  · rw [if_pos hfull]; exact Or.inl ⟨rfl, ledgerEq_refl s⟩
  rw [if_neg hfull]
  obtain ⟨ku, u0, ti1, hs1, hfu⟩ := findUser_spec input.userId s
  simp only [hs1]
  by_cases hnu : ku = 0 ∧ (s.users 0).id ≠ input.userId
  · rw [if_pos hnu]; exact Or.inl ⟨rfl, by constructor <;> rfl⟩
  rw [if_neg hnu]
  by_cases hbal : u0.balance < input.amount
  · rw [if_pos hbal]; exact Or.inl ⟨rfl, by constructor <;> rfl⟩
  rw [if_neg hbal]
  obtain ⟨ke, e0, ti, hs2, hfe⟩ := findEvent_spec input.eventId
    { s with tempUserId := ku, tempUser := u0, tempIndex := ti1 }
  simp only [hs2]
  by_cases hne : ke = 0 ∧ (s.events 0).id ≠ input.eventId
  · rw [if_pos hne]; exact Or.inl ⟨rfl, by constructor <;> rfl⟩
  rw [if_neg hne]
  by_cases hclosed : e0.isActive = 0 ∨ e0.isResolved ≠ 0
  · rw [if_pos hclosed]; exact Or.inl ⟨rfl, by constructor <;> rfl⟩
  rw [if_neg hclosed]
  have hopen : e0.isActive ≠ 0 ∧ e0.isResolved = 0 := by
    constructor
    · intro h; exact hclosed (Or.inl h)
    · by_contra h; exact hclosed (Or.inr h)
  right
  refine ⟨ku, u0, ke, e0, ti, ?_, ?_, hact, by omega, by omega, hopen.1, hopen.2, ?_⟩
  · rcases hfu with ⟨hk, hid, hmin, he⟩ | ⟨hnone, hk0, he⟩
    · exact Or.inl ⟨hk, hid, hmin, he⟩
    · have h0 : (s.users 0).id = input.userId := by
        by_contra h
        exact hnu ⟨hk0, h⟩
      have hc0 : s.userCount = 0 := by
        by_contra h
        exact hnone 0 (Nat.pos_of_ne_zero h) h0
      exact Or.inr ⟨hc0, hk0, h0, he⟩
  · rcases hfe with ⟨hk, hid, hmin, he⟩ | ⟨hnone, hk0, he⟩
    · exact Or.inl ⟨hk, hid, hmin, he⟩
    · have h0 : (s.events 0).id = input.eventId := by
        by_contra h
        exact hne ⟨hk0, h⟩
      have hc0 : s.eventCount = 0 := by
        by_contra h
        exact hnone 0 (Nat.pos_of_ne_zero h) h0
      exact Or.inr ⟨hc0, hk0, h0, he⟩
  · unfold placeBetEnd newBet debited counted
    split <;> rfl

/-! ## The ledger invariant -/

theorem ledgerEq_trans {s t r : CONTRACT_STATE} (h1 : LedgerEq s t) (h2 : LedgerEq t r) :
    LedgerEq s r := by
  constructor
  · rw [h2.users, h1.users]
  · rw [h2.events, h1.events]
  · rw [h2.bets, h1.bets]
  · rw [h2.userCount, h1.userCount]
  · rw [h2.eventCount, h1.eventCount]
  · rw [h2.betCount, h1.betCount]
  · rw [h2.defaultBalance, h1.defaultBalance]
  · rw [h2.betCost, h1.betCost]
  · rw [h2.winReward, h1.winReward]
  · rw [h2.totalUsers, h1.totalUsers]
  · rw [h2.totalEvents, h1.totalEvents]
  · rw [h2.totalBets, h1.totalBets]
  · rw [h2.totalVolume, h1.totalVolume]
  · rw [h2.adminId, h1.adminId]
  · rw [h2.contractActive, h1.contractActive]

theorem getBalanceLoop_frame (userId fuel : Nat) (s : CONTRACT_STATE) :
    LedgerEq s (getBalanceLoop userId fuel s).1 := by
  induction fuel generalizing s with
  | zero => exact ledgerEq_refl s
  | succ n ih =>
    unfold getBalanceLoop
    split
    · split
      · exact ledgerEq_refl s
      · exact ledgerEq_trans (by constructor <;> rfl) (ih _)
    · exact ledgerEq_refl s

theorem GetBalance_frame (c t : Nat) (input : GetBalanceInput) (s : CONTRACT_STATE) :
    LedgerEq s (GetBalance c t input s).1 :=
  ledgerEq_trans (by constructor <;> rfl) (getBalanceLoop_frame input.userId s.userCount _)

theorem countActiveLoop_frame (fuel : Nat) (s : CONTRACT_STATE) :
    LedgerEq s (countActiveLoop fuel s) := by
  induction fuel generalizing s with
  | zero => exact ledgerEq_refl s
  | succ n ih =>
    unfold countActiveLoop
    split
    · split
      · exact ledgerEq_trans (by constructor <;> rfl) (ih _)
      · exact ledgerEq_trans (by constructor <;> rfl) (ih _)
    · exact ledgerEq_refl s

theorem GetEvents_frame (c t : Nat) (input : GetEventsInput) (s : CONTRACT_STATE) :
    LedgerEq s (GetEvents c t input s).1 :=
  ledgerEq_trans (by constructor <;> rfl) (countActiveLoop_frame s.eventCount _)

theorem countUserBetsLoop_frame (userId fuel : Nat) (s : CONTRACT_STATE) :
    LedgerEq s (countUserBetsLoop userId fuel s) := by
  induction fuel generalizing s with
  | zero => exact ledgerEq_refl s
  | succ n ih =>
    unfold countUserBetsLoop
    split
    · split
      · exact ledgerEq_trans (by constructor <;> rfl) (ih _)
      · exact ledgerEq_trans (by constructor <;> rfl) (ih _)
    · exact ledgerEq_refl s

theorem GetUserBets_frame (c t : Nat) (input : GetBalanceInput) (s : CONTRACT_STATE) :
    LedgerEq s (GetUserBets c t input s).1 :=
  ledgerEq_trans (by constructor <;> rfl) (countUserBetsLoop_frame input.userId s.betCount _)

/-- The invariant only reads the ledger proper. -/
theorem Inv_of_ledgerEq {s t : CONTRACT_STATE} (h : LedgerEq s t) (hi : Inv s) : Inv t := by
  obtain ⟨h1, h2, h3, h4, h5, h6, h7, h8, h9, h10, h11, h12, h13, h14, h15, h16⟩ := hi
  constructor
  · rw [h.contractActive]; exact h1
  · rw [h.winReward]; exact h2
  · rw [h.defaultBalance]; exact h3
  · rw [h.userCount]; exact h4
  · rw [h.userCount]; exact h5
  · rw [h.eventCount]; exact h6
  · rw [h.eventCount]; exact h7
  · rw [h.betCount]; exact h8
  · rw [h.userCount, h.users]; exact h9
  · rw [h.eventCount, h.events]; exact h10
  · rw [h.betCount, h.bets]; exact h11
  · rw [h.eventCount, h.events]; exact h12
  · rw [h.eventCount, h.events, h.betCount]; exact h13
  · rw [h.userCount, h.users, h.betCount]; exact h14
  · rw [h.betCount, h.bets, h.userCount, h.eventCount]; exact h15
  · rw [h.betCount, h.bets, h.events]; exact h16

/-- The stored slots and the settings after `Initialize`. -/
theorem Initialize_fields (c t : Nat) (s : CONTRACT_STATE) :
    (Initialize c t s).contractActive = 1 ∧ (Initialize c t s).winReward = 20 ∧
      (Initialize c t s).defaultBalance = 100 ∧ (Initialize c t s).betCost = 10 ∧
      (Initialize c t s).adminId = c ∧
      (Initialize c t s).userCount = 1 ∧ (Initialize c t s).eventCount = 4 ∧
      (Initialize c t s).betCount = 0 ∧
      ((Initialize c t s).users 0).id = 1 ∧ ((Initialize c t s).users 0).balance = 100 ∧
      ((Initialize c t s).users 0).totalBets = 0 ∧ ((Initialize c t s).users 0).totalWins = 0 ∧
      (∀ i, i < 4 → ((Initialize c t s).events i).id = i + 1 ∧
        ((Initialize c t s).events i).isActive = 1 ∧
        ((Initialize c t s).events i).isResolved = 0 ∧
        ((Initialize c t s).events i).totalBets = 0 ∧
        ((Initialize c t s).events i).yesBets = 0 ∧
        ((Initialize c t s).events i).noBets = 0) := by
  refine ⟨rfl, rfl, rfl, rfl, rfl, rfl, rfl, rfl, rfl, rfl, rfl, rfl, ?_⟩
  intro i hi
  have : i = 0 ∨ i = 1 ∨ i = 2 ∨ i = 3 := by omega
  rcases this with h | h | h | h <;> subst h <;> exact ⟨rfl, rfl, rfl, rfl, rfl, rfl⟩

theorem Inv_Initialize (c t : Nat) (s : CONTRACT_STATE) : Inv (Initialize c t s) := by
  obtain ⟨h1, h2, h3, -, -, h6, h7, h8, h9, -, h11, -, hev⟩ := Initialize_fields c t s
  constructor
  · exact h1
  · exact h2
  · exact h3
  · omega
  · rw [h6]; decide
  · omega
  · rw [h7]; decide
  · rw [h8]; decide
  · intro i hi
    have : i = 0 := by omega
    subst this
    exact h9
  · intro i hi
    exact (hev i (by omega)).1
  · intro i hi
    omega
  · intro i hi
    obtain ⟨-, ha, hr, -⟩ := hev i (by omega)
    exact Or.inl ⟨ha, hr⟩
  · intro i hi
    obtain ⟨-, -, -, ht, hy, hn⟩ := hev i (by omega)
    rw [ht, hy, hn]
    exact ⟨rfl, Nat.zero_le _⟩
  · intro i hi
    have : i = 0 := by omega
    subst this
    rw [h11]
    exact Nat.zero_le _
  · intro i hi
    omega
  · intro i hi
    omega

theorem Inv_RegisterUser (c t : Nat) (input : RegisterUserInput) (s : CONTRACT_STATE)
    (hi : Inv s) : Inv (RegisterUser c t input s).1 := by
  unfold RegisterUser
  by_cases h1 : s.contractActive = 0
  · rw [if_pos h1]; exact hi
  rw [if_neg h1]
  by_cases h2 : s.userCount ≥ MAX_USERS
  · rw [if_pos h2]; exact hi
  rw [if_neg h2]
  have hlt : s.userCount < 10000 := by
    have : ¬ s.userCount ≥ 10000 := h2
    omega
  have hmod : (s.userCount + 1) % 4294967296 = s.userCount + 1 := Nat.mod_eq_of_lt (by omega)
  obtain ⟨i1, i2, i3, i4, i5, i6, i7, i8, i9, i10, i11, i12, i13, i14, i15, i16⟩ := hi
  constructor
  · exact i1
  · exact i2
  · exact i3
  · show 1 ≤ (s.userCount + 1) % 4294967296
    omega
  · show (s.userCount + 1) % 4294967296 ≤ 10000
    omega
  · exact i6
  · exact i7
  · exact i8
  · intro i hlti
    have hlti2 : i < s.userCount + 1 := by
      have : i < (s.userCount + 1) % 4294967296 := hlti
      omega
    simp only [setAt]
    by_cases hi0 : i = s.userCount
    · rw [if_pos hi0, hi0]
      exact hmod
    · rw [if_neg hi0]
      exact i9 i (by omega)
  · exact i10
  · exact i11
  · exact i12
  · exact i13
  · intro i hlti
    have hlti2 : i < s.userCount + 1 := by
      have : i < (s.userCount + 1) % 4294967296 := hlti
      omega
    simp only [setAt]
    by_cases hi0 : i = s.userCount
    · rw [if_pos hi0]
      exact Nat.zero_le _
    · rw [if_neg hi0]
      exact i14 i (by omega)
  · intro i hlti
    obtain ⟨a, b, c1, d⟩ := i15 i hlti
    refine ⟨a, ?_, c1, d⟩
    show (s.bets i).userId ≤ (s.userCount + 1) % 4294967296
    omega
  · exact i16

theorem Inv_CreateEvent (c t : Nat) (input : CreateEventInput) (s : CONTRACT_STATE)
    (hi : Inv s) : Inv (CreateEvent c t input s).1 := by
  unfold CreateEvent
  by_cases h1 : s.contractActive = 0
  · rw [if_pos h1]; exact hi
  rw [if_neg h1]
  by_cases h2 : s.eventCount ≥ MAX_EVENTS
  · rw [if_pos h2]; exact hi
  rw [if_neg h2]
  by_cases h3 : ¬ c = s.adminId
  · rw [if_pos h3]; exact hi
  rw [if_neg h3]
  have hlt : s.eventCount < 1000 := by
    have : ¬ s.eventCount ≥ 1000 := h2
    omega
  have hmod : (s.eventCount + 1) % 4294967296 = s.eventCount + 1 := Nat.mod_eq_of_lt (by omega)
  obtain ⟨i1, i2, i3, i4, i5, i6, i7, i8, i9, i10, i11, i12, i13, i14, i15, i16⟩ := hi
  have hcount : ∀ i, i < (s.eventCount + 1) % 4294967296 → i < s.eventCount + 1 := by
    intro i h; omega
  constructor
  · exact i1
  · exact i2
  · exact i3
  · exact i4
  · exact i5
  · show 1 ≤ (s.eventCount + 1) % 4294967296
    omega
  · show (s.eventCount + 1) % 4294967296 ≤ 1000
    omega
  · exact i8
  · exact i9
  · intro i hlti
    have := hcount i hlti
    simp only [setAt]
    by_cases hi0 : i = s.eventCount
    · rw [if_pos hi0, hi0]
      exact hmod
    · rw [if_neg hi0]
      exact i10 i (by omega)
  · exact i11
  · intro i hlti
    have := hcount i hlti
    simp only [setAt]
    by_cases hi0 : i = s.eventCount
    · rw [if_pos hi0]
      exact Or.inl ⟨rfl, rfl⟩
    · rw [if_neg hi0]
      exact i12 i (by omega)
  · intro i hlti
    have := hcount i hlti
    simp only [setAt]
    by_cases hi0 : i = s.eventCount
    · rw [if_pos hi0]
      exact ⟨rfl, Nat.zero_le _⟩
    · rw [if_neg hi0]
      exact i13 i (by omega)
  · exact i14
  · intro i hlti
    obtain ⟨a, b, c1, d⟩ := i15 i hlti
    refine ⟨a, b, c1, ?_⟩
    show (s.bets i).eventId ≤ (s.eventCount + 1) % 4294967296
    omega
  · intro i hlti
    obtain ⟨a, b, c1, d⟩ := i15 i hlti
    have hne : ¬ (s.bets i).eventId - 1 = s.eventCount := by omega
    simp only [setAt, hne, if_false]
    exact i16 i hlti

/-- The two ways out of `PlaceBet` on a ledger that satisfies the invariant:
ids are slot numbers plus one, so the searches find slot `userId - 1` and slot
`eventId - 1` or nothing. -/
theorem PlaceBet_cases_inv (c t : Nat) (input : PlaceBetInput) (s : CONTRACT_STATE)
    (hi : Inv s) :
    ((PlaceBet c t input s).2 = { betId := 0, newBalance := 0, success := 0 } ∧
        LedgerEq s (PlaceBet c t input s).1) ∨
      (∃ ku ke ti,
        ku < s.userCount ∧ input.userId = ku + 1 ∧ ke < s.eventCount ∧ input.eventId = ke + 1 ∧
        s.betCount < MAX_BETS ∧ input.amount ≤ (s.users ku).balance ∧
        (s.events ke).isActive = 1 ∧ (s.events ke).isResolved = 0 ∧
        PlaceBet c t input s =
          (placeBetEnd s t input ku (s.users ku) ke (s.events ke) ti,
            { betId := s.betCount + 1
              newBalance := (s.users ku).balance - input.amount
              success := 1 })) := by
  rcases PlaceBet_cases c t input s with hfail | ⟨ku, u0, ke, e0, ti, hu, he, -, hcap, hbal, ha, hr, heq⟩
  · exact Or.inl hfail
  · right
    have hup := hi.userPos
    have hep := hi.eventPos
    rcases hu with ⟨hku, hidu, -, hu0⟩ | ⟨hc0, -, -, -⟩
    swap
    · omega
    rcases he with ⟨hke, hide, -, he0⟩ | ⟨hc0, -, -, -⟩
    swap
    · omega
    subst hu0
    subst he0
    have hcap2 : s.betCount < 100000 := hcap
    have hmod : (s.betCount + 1) % 4294967296 = s.betCount + 1 := Nat.mod_eq_of_lt (by omega)
    refine ⟨ku, ke, ti, hku, ?_, hke, ?_, hcap, hbal, ?_, hr, ?_⟩
    · rw [← hidu, hi.userIds ku hku]
    · rw [← hide, hi.eventIds ke hke]
    · rcases hi.eventFlags ke hke with ⟨h1, -⟩ | ⟨h1, -⟩
      · exact h1
      · exact absurd h1 ha
    · rw [heq, hmod]

/-- An accepted bet keeps the invariant. -/
theorem Inv_placeBetEnd (t : Nat) (input : PlaceBetInput) (s : CONTRACT_STATE) (hi : Inv s)
    (ku ke ti : Nat) (hku : ku < s.userCount) (hidu : input.userId = ku + 1)
    (hke : ke < s.eventCount) (hide : input.eventId = ke + 1) (hcap : s.betCount < MAX_BETS)
    (hr : (s.events ke).isResolved = 0) :
    Inv (placeBetEnd s t input ku (s.users ku) ke (s.events ke) ti) := by
  have hcap2 : s.betCount < 100000 := hcap
  have hmod : (s.betCount + 1) % 4294967296 = s.betCount + 1 := Nat.mod_eq_of_lt (by omega)
  obtain ⟨i1, i2, i3, i4, i5, i6, i7, i8, i9, i10, i11, i12, i13, i14, i15, i16⟩ := hi
  have hcY := i13 ke hke
  have hcU := i14 ku hku
  have hcount : (placeBetEnd s t input ku (s.users ku) ke (s.events ke) ti).betCount =
      s.betCount + 1 := hmod
  have hcountedFlags : (counted input (s.events ke)).isActive = (s.events ke).isActive ∧
      (counted input (s.events ke)).isResolved = (s.events ke).isResolved ∧
      (counted input (s.events ke)).id = (s.events ke).id := by
    unfold counted
    split <;> exact ⟨rfl, rfl, rfl⟩
  have hcountedCnt : (counted input (s.events ke)).yesBets + (counted input (s.events ke)).noBets =
      (counted input (s.events ke)).totalBets ∧
      (counted input (s.events ke)).totalBets ≤ s.betCount + 1 := by
    unfold counted
    split
    · show ((s.events ke).yesBets + 1) % 4294967296 + (s.events ke).noBets =
        ((s.events ke).totalBets + 1) % 4294967296 ∧
        ((s.events ke).totalBets + 1) % 4294967296 ≤ s.betCount + 1
      omega
    · show (s.events ke).yesBets + ((s.events ke).noBets + 1) % 4294967296 =
        ((s.events ke).totalBets + 1) % 4294967296 ∧
        ((s.events ke).totalBets + 1) % 4294967296 ≤ s.betCount + 1
      omega
  constructor
  · exact i1
  · exact i2
  · exact i3
  · exact i4
  · exact i5
  · exact i6
  · exact i7
  · rw [hcount]
    show s.betCount + 1 ≤ 100000
    omega
  · intro i hlt
    show (setAt s.users ku (debited input (s.users ku)) i).id = i + 1
    simp only [setAt]
    by_cases h : i = ku
    · rw [if_pos h, h]
      exact i9 ku hku
    · rw [if_neg h]
      exact i9 i hlt
  · intro i hlt
    show (setAt s.events ke (counted input (s.events ke)) i).id = i + 1
    simp only [setAt]
    by_cases h : i = ke
    · rw [if_pos h, h, hcountedFlags.2.2]
      exact i10 ke hke
    · rw [if_neg h]
      exact i10 i hlt
  · intro i hlt
    rw [hcount] at hlt
    show (setAt s.bets s.betCount (newBet s t input) i).id = i + 1
    simp only [setAt]
    by_cases h : i = s.betCount
    · rw [if_pos h, h]
      exact hmod
    · rw [if_neg h]
      exact i11 i (by omega)
  · intro i hlt
    show ((setAt s.events ke (counted input (s.events ke)) i).isActive = 1 ∧
      (setAt s.events ke (counted input (s.events ke)) i).isResolved = 0) ∨
      ((setAt s.events ke (counted input (s.events ke)) i).isActive = 0 ∧
      (setAt s.events ke (counted input (s.events ke)) i).isResolved = 1)
    simp only [setAt]
    by_cases h : i = ke
    · rw [if_pos h, hcountedFlags.1, hcountedFlags.2.1]
      exact i12 ke hke
    · rw [if_neg h]
      exact i12 i hlt
  · intro i hlt
    rw [hcount]
    show (setAt s.events ke (counted input (s.events ke)) i).yesBets +
      (setAt s.events ke (counted input (s.events ke)) i).noBets =
      (setAt s.events ke (counted input (s.events ke)) i).totalBets ∧
      (setAt s.events ke (counted input (s.events ke)) i).totalBets ≤ s.betCount + 1
    simp only [setAt]
    by_cases h : i = ke
    · rw [if_pos h]
      exact hcountedCnt
    · rw [if_neg h]
      have := i13 i hlt
      omega
  · intro i hlt
    rw [hcount]
    show (setAt s.users ku (debited input (s.users ku)) i).totalBets ≤ s.betCount + 1
    simp only [setAt]
    by_cases h : i = ku
    · rw [if_pos h]
      show ((s.users ku).totalBets + 1) % 4294967296 ≤ s.betCount + 1
      omega
    · rw [if_neg h]
      have := i14 i hlt
      omega
  · intro i hlt
    rw [hcount] at hlt
    show 1 ≤ (setAt s.bets s.betCount (newBet s t input) i).userId ∧
      (setAt s.bets s.betCount (newBet s t input) i).userId ≤ s.userCount ∧
      1 ≤ (setAt s.bets s.betCount (newBet s t input) i).eventId ∧
      (setAt s.bets s.betCount (newBet s t input) i).eventId ≤ s.eventCount
    simp only [setAt]
    by_cases h : i = s.betCount
    · rw [if_pos h]
      show 1 ≤ input.userId ∧ input.userId ≤ s.userCount ∧
        1 ≤ input.eventId ∧ input.eventId ≤ s.eventCount
      omega
    · rw [if_neg h]
      exact i15 i (by omega)
  · intro i hlt
    rw [hcount] at hlt
    show ((setAt s.bets s.betCount (newBet s t input) i).isProcessed = 0 ∧
        (setAt s.events ke (counted input (s.events ke))
          ((setAt s.bets s.betCount (newBet s t input) i).eventId - 1)).isResolved = 0) ∨
      ((setAt s.bets s.betCount (newBet s t input) i).isProcessed = 1 ∧
        (setAt s.events ke (counted input (s.events ke))
          ((setAt s.bets s.betCount (newBet s t input) i).eventId - 1)).isResolved = 1)
    have hres : ∀ j, (setAt s.events ke (counted input (s.events ke)) j).isResolved =
        (s.events j).isResolved := by
      intro j
      simp only [setAt]
      by_cases h : j = ke
      · rw [if_pos h, hcountedFlags.2.1, h]
      · rw [if_neg h]
    rw [hres]
    simp only [setAt]
    by_cases h : i = s.betCount
    · rw [if_pos h]
      left
      refine ⟨rfl, ?_⟩
      show (s.events (input.eventId - 1)).isResolved = 0
      rw [hide]
      exact hr
    · rw [if_neg h]
      exact i16 i (by omega)

theorem Inv_PlaceBet (c t : Nat) (input : PlaceBetInput) (s : CONTRACT_STATE) (hi : Inv s) :
    Inv (PlaceBet c t input s).1 := by
  rcases PlaceBet_cases_inv c t input s hi with ⟨-, hle⟩ | ⟨ku, ke, ti, h1, h2, h3, h4, h5, -, -, h8, heq⟩
  · exact Inv_of_ledgerEq hle hi
  · rw [heq]
    exact Inv_placeBetEnd t input s hi ku ke ti h1 h2 h3 h4 h5 h8

theorem creditFirst_totalBets (users : Nat → User) (n w userId k : Nat) :
    (creditFirst users n w userId k).totalBets = (users k).totalBets := by
  unfold creditFirst
  split
  · simp only [setAt]
    split
    · rename_i h; rw [h]; rfl
    · rfl
  · rfl

/-- The sweep changes no user's id and no user's `totalBets`. -/
theorem creditAll_keeps (input : ResolveEventInput) (bets : Nat → Bet) (n w fuel i : Nat)
    (users : Nat → User) (k : Nat) :
    (creditAll input bets n w fuel i users k).id = (users k).id ∧
      (creditAll input bets n w fuel i users k).totalBets = (users k).totalBets := by
  induction fuel generalizing i users with
  | zero => exact ⟨rfl, rfl⟩
  | succ m ih =>
    unfold creditAll
    split
    · obtain ⟨h1, h2⟩ := ih (i + 1) (creditFirst users n w (bets i).userId)
      rw [h1, h2, creditFirst_id, creditFirst_totalBets]
      exact ⟨rfl, rfl⟩
    · exact ih (i + 1) users

theorem settled_keeps (input : ResolveEventInput) (b : Bet) :
    (settled input b).id = b.id ∧ (settled input b).userId = b.userId ∧
      (settled input b).eventId = b.eventId ∧ (settled input b).prediction = b.prediction ∧
      (settled input b).amount = b.amount ∧ (settled input b).createdAt = b.createdAt := by
  unfold settled
  split <;> exact ⟨rfl, rfl, rfl, rfl, rfl, rfl⟩

/-- The two ways out of `ResolveEvent` on a ledger that satisfies the invariant. -/
theorem ResolveEvent_cases_inv (c t : Nat) (input : ResolveEventInput) (s : CONTRACT_STATE)
    (hi : Inv s) :
    ((ResolveEvent c t input s).2 = { winnersCount := 0, totalPayout := 0, success := 0 } ∧
        LedgerEq s (ResolveEvent c t input s).1) ∨
      (∃ k, k < s.eventCount ∧ input.eventId = k + 1 ∧ c = s.adminId ∧
        (s.events k).isActive = 1 ∧ (s.events k).isResolved = 0 ∧
        (ResolveEvent c t input s).2.success = 1 ∧
        SweepFrame (resolveStart s k (s.events k) input.correctAnswer)
          (ResolveEvent c t input s).1 ∧
        (∀ j, (ResolveEvent c t input s).1.bets j =
          if j < s.betCount then settled input (s.bets j) else s.bets j) ∧
        (ResolveEvent c t input s).1.users =
          creditAll input s.bets s.userCount s.winReward s.betCount 0 s.users) := by
  by_cases hs : (ResolveEvent c t input s).2.success = 1
  · right
    obtain ⟨k, e0, hlook, -, hadm, ha, hr, hfr, hbets, husers, -, -⟩ :=
      ResolveEvent_success_spec c t input s hs
    have hep := hi.eventPos
    rcases hlook with ⟨hk, hid, -, he0⟩ | ⟨hc0, -, -, -⟩
    swap
    · omega
    subst he0
    refine ⟨k, hk, ?_, hadm, ?_, hr, hs, hfr, hbets, husers⟩
    · rw [← hid, hi.eventIds k hk]
    · rcases hi.eventFlags k hk with ⟨h1, -⟩ | ⟨h1, -⟩
      · exact h1
      · exact absurd h1 ha
  · left
    rcases ResolveEvent_cases c t input s with hfail | ⟨k, e0, -, -, -, -, -, heq⟩
    · exact hfail
    · exfalso
      apply hs
      rw [heq]

theorem Inv_ResolveEvent (c t : Nat) (input : ResolveEventInput) (s : CONTRACT_STATE)
    (hi : Inv s) : Inv (ResolveEvent c t input s).1 := by
  rcases ResolveEvent_cases_inv c t input s hi with
    ⟨-, hle⟩ | ⟨k, hk, hid, -, -, hr, -, hfr, hbets, husers⟩
  · exact Inv_of_ledgerEq hle hi
  generalize (ResolveEvent c t input s).1 = r at hfr hbets husers
  have hev : r.events = setAt s.events k
      { s.events k with isResolved := 1, isActive := 0, correctAnswer := input.correctAnswer } :=
    hfr.events
  have huc : r.userCount = s.userCount := hfr.userCount
  have hec : r.eventCount = s.eventCount := hfr.eventCount
  have hbc : r.betCount = s.betCount := hfr.betCount
  have hca : r.contractActive = s.contractActive := hfr.contractActive
  have hwr : r.winReward = s.winReward := hfr.winReward
  have hdb : r.defaultBalance = s.defaultBalance := hfr.defaultBalance
  obtain ⟨i1, i2, i3, i4, i5, i6, i7, i8, i9, i10, i11, i12, i13, i14, i15, i16⟩ := hi
  constructor
  · rw [hca]; exact i1
  · rw [hwr]; exact i2
  · rw [hdb]; exact i3
  · rw [huc]; exact i4
  · rw [huc]; exact i5
  · rw [hec]; exact i6
  · rw [hec]; exact i7
  · rw [hbc]; exact i8
  · intro i hlt
    rw [huc] at hlt
    rw [husers, (creditAll_keeps input s.bets s.userCount s.winReward s.betCount 0 s.users i).1]
    exact i9 i hlt
  · intro i hlt
    rw [hec] at hlt
    rw [hev]
    simp only [setAt]
    by_cases h : i = k
    · rw [if_pos h, h]
      exact i10 k hk
    · rw [if_neg h]
      exact i10 i hlt
  · intro i hlt
    rw [hbc] at hlt
    rw [hbets i, if_pos hlt, (settled_keeps input (s.bets i)).1]
    exact i11 i hlt
  · intro i hlt
    rw [hec] at hlt
    rw [hev]
    simp only [setAt]
    by_cases h : i = k
    · rw [if_pos h]
      exact Or.inr ⟨rfl, rfl⟩
    · rw [if_neg h]
      exact i12 i hlt
  · intro i hlt
    rw [hec] at hlt
    rw [hev, hbc]
    simp only [setAt]
    by_cases h : i = k
    · rw [if_pos h]
      exact i13 k hk
    · rw [if_neg h]
      exact i13 i hlt
  · intro i hlt
    rw [huc] at hlt
    rw [husers, hbc,
      (creditAll_keeps input s.bets s.userCount s.winReward s.betCount 0 s.users i).2]
    exact i14 i hlt
  · intro i hlt
    rw [hbc] at hlt
    obtain ⟨-, h2, h3, -⟩ := settled_keeps input (s.bets i)
    rw [hbets i, if_pos hlt, h2, h3, huc, hec]
    exact i15 i hlt
  · intro i hlt
    rw [hbc] at hlt
    obtain ⟨-, -, h3, -⟩ := settled_keeps input (s.bets i)
    obtain ⟨-, -, hge, hle⟩ := i15 i hlt
    rw [hbets i, if_pos hlt, h3, hev]
    by_cases hmatch : (s.bets i).eventId = input.eventId
    · have hidx : (s.bets i).eventId - 1 = k := by omega
      have hp0 : (s.bets i).isProcessed = 0 := by
        rcases i16 i hlt with ⟨h0, -⟩ | ⟨-, h1⟩
        · exact h0
        · rw [hidx, hr] at h1
          exact absurd h1 (by decide)
      right
      constructor
      · unfold settled
        rw [if_pos ⟨hmatch, hp0⟩]
      · simp only [setAt, hidx, if_true]
    · have hidx : ¬ (s.bets i).eventId - 1 = k := by omega
      have hsame : settled input (s.bets i) = s.bets i := by
        unfold settled
        rw [if_neg (fun h => hmatch h.1)]
      rw [hsame]
      simp only [setAt, hidx, if_false]
      exact i16 i hlt

/-- Every reachable ledger satisfies the invariant. -/
theorem Inv_of_reachable (s : CONTRACT_STATE) (h : Reachable s) : Inv s := by
  induction h with
  | init s0 c t => exact Inv_Initialize c t s0
  | step s op _ ih =>
    cases op with
    | init c t => exact Inv_Initialize c t s
    | register c t i => exact Inv_RegisterUser c t i s ih
    | create c t i => exact Inv_CreateEvent c t i s ih
    | place c t i => exact Inv_PlaceBet c t i s ih
    | resolve c t i => exact Inv_ResolveEvent c t i s ih
    | balance c t i => exact Inv_of_ledgerEq (GetBalance_frame c t i s) ih
    | events c t i => exact Inv_of_ledgerEq (GetEvents_frame c t i s) ih
    | userBets c t i => exact Inv_of_ledgerEq (GetUserBets_frame c t i s) ih

theorem freshState_reachable : Reachable freshState :=
  Reachable.init zeroState 7 0

theorem twoBetState_reachable : Reachable twoBetState :=
  Reachable.step _ (Op.place 3 5 { userId := 1, eventId := 1, prediction := 0, amount := 10 })
    (Reachable.step _ (Op.place 3 5 { userId := 1, eventId := 1, prediction := 1, amount := 10 })
      freshState_reachable)

/-! ## Settlement marks on reachable ledgers -/

/-- C1: on every state reachable from `Initialize` and every input on which
`ResolveEvent` returns `success = 1`, every stored bet (index below
`betCount`) whose `eventId` equals `input.eventId` has `isProcessed = 1`
afterwards, and each such bet that had `isProcessed = 0` before has
`isWon = 1` exactly when its prediction equals `input.correctAnswer`, and
`isWon = 0` otherwise. -/
theorem ResolveEvent_marks_bets (s : CONTRACT_STATE) (hr : Reachable s) (c t : Nat)
    (input : ResolveEventInput) (h : (ResolveEvent c t input s).2.success = 1)
    (i : Nat) (hi : i < s.betCount) (he : (s.bets i).eventId = input.eventId) :
    ((ResolveEvent c t input s).1.bets i).isProcessed = 1 ∧
      ((s.bets i).isProcessed = 0 →
        (((ResolveEvent c t input s).1.bets i).isWon = 1 ↔
          (s.bets i).prediction = input.correctAnswer) ∧
        ((s.bets i).prediction ≠ input.correctAnswer →
          ((ResolveEvent c t input s).1.bets i).isWon = 0)) := by
  have hinv := Inv_of_reachable s hr
  obtain ⟨-, h1, -, h3⟩ := ResolveEvent_marks_any c t input s h i hi he
  refine ⟨h1 ?_, h3⟩
  rcases hinv.betFlags i hi with ⟨h0, -⟩ | ⟨hp, -⟩
  · omega
  · omega

/-- C1 at work on the ledger with two open bets on event `1`, which the admin
resolves with YES: the YES bet at slot `0` is processed and won, the NO bet at
slot `1` is processed and lost. -/
theorem ResolveEvent_marks_bets_witness :
    (((ResolveEvent 7 9 { eventId := 1, correctAnswer := 1, confidence := 0 }
        twoBetState).1.bets 0).isProcessed = 1 ∧
      ((twoBetState.bets 0).isProcessed = 0 →
        (((ResolveEvent 7 9 { eventId := 1, correctAnswer := 1, confidence := 0 }
          twoBetState).1.bets 0).isWon = 1 ↔ (twoBetState.bets 0).prediction = 1) ∧
        ((twoBetState.bets 0).prediction ≠ 1 →
          ((ResolveEvent 7 9 { eventId := 1, correctAnswer := 1, confidence := 0 }
            twoBetState).1.bets 0).isWon = 0))) ∧
    (twoBetState.bets 0).isProcessed = 0 ∧ (twoBetState.bets 0).prediction = 1 ∧
    (twoBetState.bets 1).isProcessed = 0 ∧ (twoBetState.bets 1).prediction = 0 ∧
    ((ResolveEvent 7 9 { eventId := 1, correctAnswer := 1, confidence := 0 }
      twoBetState).1.bets 0).isWon = 1 ∧
    ((ResolveEvent 7 9 { eventId := 1, correctAnswer := 1, confidence := 0 }
      twoBetState).1.bets 1).isProcessed = 1 ∧
    ((ResolveEvent 7 9 { eventId := 1, correctAnswer := 1, confidence := 0 }
      twoBetState).1.bets 1).isWon = 0 :=
  ⟨ResolveEvent_marks_bets twoBetState twoBetState_reachable 7 9
      { eventId := 1, correctAnswer := 1, confidence := 0 } (by decide) 0 (by decide)
      (by decide),
    by decide, by decide, by decide, by decide, by decide, by decide, by decide⟩

/-! ## Claims about `PlaceBet` on reachable ledgers -/

/-- C5: on a reachable ledger, when `input.userId` is the id of a stored user
whose balance is below `input.amount`, `PlaceBet` returns `success = 0` (and
zeros) and leaves the users, the events, the bet store, `betCount`,
`totalBets` and `totalVolume` unchanged. -/
theorem PlaceBet_insufficient_balance (s : CONTRACT_STATE) (hr : Reachable s) (c t : Nat)
    (input : PlaceBetInput) (i : Nat) (hi : i < s.userCount)
    (hid : (s.users i).id = input.userId) (hbal : (s.users i).balance < input.amount) :
    (PlaceBet c t input s).2 = { betId := 0, newBalance := 0, success := 0 } ∧
      (PlaceBet c t input s).1.users = s.users ∧
      (PlaceBet c t input s).1.events = s.events ∧
      (PlaceBet c t input s).1.bets = s.bets ∧
      (PlaceBet c t input s).1.betCount = s.betCount ∧
      (PlaceBet c t input s).1.totalBets = s.totalBets ∧
      (PlaceBet c t input s).1.totalVolume = s.totalVolume := by
  have hinv := Inv_of_reachable s hr
  rcases PlaceBet_cases_inv c t input s hinv with
    ⟨hout, hle⟩ | ⟨ku, ke, ti, hku, hidu, -, -, -, hamt, -, -, -⟩
  · exact ⟨hout, hle.users, hle.events, hle.bets, hle.betCount, hle.totalBets, hle.totalVolume⟩
  · exfalso
    have h1 := hinv.userIds i hi
    have hik : i = ku := by omega
    subst hik
    omega

/-- C5 at work: user `1` of the fresh ledger holds `100` and stakes `500`. -/
theorem PlaceBet_insufficient_balance_witness :
    (PlaceBet 3 5 { userId := 1, eventId := 1, prediction := 1, amount := 500 } freshState).2 =
        { betId := 0, newBalance := 0, success := 0 } ∧
      (PlaceBet 3 5 { userId := 1, eventId := 1, prediction := 1, amount := 500 }
        freshState).1.users = freshState.users ∧
      (PlaceBet 3 5 { userId := 1, eventId := 1, prediction := 1, amount := 500 }
        freshState).1.events = freshState.events ∧
      (PlaceBet 3 5 { userId := 1, eventId := 1, prediction := 1, amount := 500 }
        freshState).1.bets = freshState.bets ∧
      (PlaceBet 3 5 { userId := 1, eventId := 1, prediction := 1, amount := 500 }
        freshState).1.betCount = freshState.betCount ∧
      (PlaceBet 3 5 { userId := 1, eventId := 1, prediction := 1, amount := 500 }
        freshState).1.totalBets = freshState.totalBets ∧
      (PlaceBet 3 5 { userId := 1, eventId := 1, prediction := 1, amount := 500 }
        freshState).1.totalVolume = freshState.totalVolume :=
  PlaceBet_insufficient_balance freshState freshState_reachable 3 5
    { userId := 1, eventId := 1, prediction := 1, amount := 500 } 0 (by decide) (by decide)
    (by decide)

/-- C6: on a reachable ledger, a `PlaceBet` that returns `success = 1` found the
bettor at a stored slot `k`; the amount is at most the old balance, the new
balance plus the amount is the old balance, `totalBets` of the bettor grew by
one and no other field of the bettor changed; `newBalance` is the stored
balance; `betCount` grew by one; the bet stored at the old `betCount` slot has
id `old betCount + 1`, which is `betId`, the input's `userId`, `eventId`,
`prediction` and `amount`, and `isWon = isProcessed = 0`; every other user
slot is unchanged. -/
theorem PlaceBet_success (s : CONTRACT_STATE) (hr : Reachable s) (c t : Nat)
    (input : PlaceBetInput) (h : (PlaceBet c t input s).2.success = 1) :
    ∃ k, k < s.userCount ∧ (s.users k).id = input.userId ∧
      (∀ j, j < s.userCount → (s.users j).id = input.userId → j = k) ∧
      input.amount ≤ (s.users k).balance ∧
      ((PlaceBet c t input s).1.users k).balance + input.amount = (s.users k).balance ∧
      ((PlaceBet c t input s).1.users k).totalBets = (s.users k).totalBets + 1 ∧
      (PlaceBet c t input s).1.users k =
        { s.users k with
          balance := (s.users k).balance - input.amount
          totalBets := (s.users k).totalBets + 1 } ∧
      (PlaceBet c t input s).2.newBalance = ((PlaceBet c t input s).1.users k).balance ∧
      (PlaceBet c t input s).1.betCount = s.betCount + 1 ∧
      (PlaceBet c t input s).2.betId = s.betCount + 1 ∧
      (PlaceBet c t input s).1.bets s.betCount =
        { id := s.betCount + 1, userId := input.userId, eventId := input.eventId,
          prediction := input.prediction, amount := input.amount, createdAt := t,
          isWon := 0, isProcessed := 0 } ∧
      (∀ j, j ≠ k → (PlaceBet c t input s).1.users j = s.users j) := by
  have hinv := Inv_of_reachable s hr
  rcases PlaceBet_cases_inv c t input s hinv with
    ⟨hout, -⟩ | ⟨ku, ke, ti, hku, hidu, hke, hide, hcap, hamt, -, -, heq⟩
  · rw [hout] at h
    exact absurd h (by decide)
  · have hcap2 : s.betCount < 100000 := hcap
    have hmod : (s.betCount + 1) % 4294967296 = s.betCount + 1 := Nat.mod_eq_of_lt (by omega)
    have htb := hinv.userBets ku hku
    have hbc := hinv.betCap
    have hmodu : ((s.users ku).totalBets + 1) % 4294967296 = (s.users ku).totalBets + 1 :=
      Nat.mod_eq_of_lt (by omega)
    have husr : (placeBetEnd s t input ku (s.users ku) ke (s.events ke) ti).users ku =
        { s.users ku with
          balance := (s.users ku).balance - input.amount
          totalBets := (s.users ku).totalBets + 1 } := by
      simp only [placeBetEnd, setAt, if_true, debited, hmodu]
    rw [heq]
    refine ⟨ku, hku, ?_, ?_, hamt, ?_, ?_, husr, ?_, hmod, rfl, ?_, ?_⟩
    · rw [hinv.userIds ku hku, hidu]
    · intro j hj hjid
      rw [hinv.userIds j hj] at hjid
      omega
    · rw [husr]
      exact Nat.sub_add_cancel hamt
    · rw [husr]
    · rw [husr]
    · simp only [placeBetEnd, setAt, if_true, newBet, hmod]
    · intro j hj
      simp only [placeBetEnd, setAt, hj, if_false]

/-- C6 at work: user `1` of the fresh ledger stakes `10` on event `1`. -/
theorem PlaceBet_success_witness :
    ∃ k, k < freshState.userCount ∧ (freshState.users k).id = 1 ∧
      (∀ j, j < freshState.userCount → (freshState.users j).id = 1 → j = k) ∧
      10 ≤ (freshState.users k).balance ∧
      ((PlaceBet 3 5 { userId := 1, eventId := 1, prediction := 1, amount := 10 }
        freshState).1.users k).balance + 10 = (freshState.users k).balance ∧
      ((PlaceBet 3 5 { userId := 1, eventId := 1, prediction := 1, amount := 10 }
        freshState).1.users k).totalBets = (freshState.users k).totalBets + 1 ∧
      (PlaceBet 3 5 { userId := 1, eventId := 1, prediction := 1, amount := 10 }
        freshState).1.users k =
        { freshState.users k with
          balance := (freshState.users k).balance - 10
          totalBets := (freshState.users k).totalBets + 1 } ∧
      (PlaceBet 3 5 { userId := 1, eventId := 1, prediction := 1, amount := 10 }
        freshState).2.newBalance =
        ((PlaceBet 3 5 { userId := 1, eventId := 1, prediction := 1, amount := 10 }
          freshState).1.users k).balance ∧
      (PlaceBet 3 5 { userId := 1, eventId := 1, prediction := 1, amount := 10 }
        freshState).1.betCount = freshState.betCount + 1 ∧
      (PlaceBet 3 5 { userId := 1, eventId := 1, prediction := 1, amount := 10 }
        freshState).2.betId = freshState.betCount + 1 ∧
      (PlaceBet 3 5 { userId := 1, eventId := 1, prediction := 1, amount := 10 }
        freshState).1.bets freshState.betCount =
        { id := freshState.betCount + 1, userId := 1, eventId := 1,
          prediction := 1, amount := 10, createdAt := 5,
          isWon := 0, isProcessed := 0 } ∧
      (∀ j, j ≠ k → (PlaceBet 3 5 { userId := 1, eventId := 1, prediction := 1, amount := 10 }
        freshState).1.users j = freshState.users j) :=
  PlaceBet_success freshState freshState_reachable 3 5
    { userId := 1, eventId := 1, prediction := 1, amount := 10 } (by decide)

/-- C7: on a reachable ledger every stored event has
`yesBets + noBets = totalBets`; and a `PlaceBet` that returns `success = 1`
targets the stored event slot `k` with the input's event id, raises its
`totalBets` by one, raises `yesBets` by one when `prediction = 1` and `noBets`
by one otherwise (the other of the two is unchanged), and leaves every other
event slot unchanged. -/
theorem event_counters (s : CONTRACT_STATE) (hr : Reachable s) :
    (∀ i, i < s.eventCount →
      (s.events i).yesBets + (s.events i).noBets = (s.events i).totalBets) ∧
    (∀ (c t : Nat) (input : PlaceBetInput), (PlaceBet c t input s).2.success = 1 →
      ∃ k, k < s.eventCount ∧ (s.events k).id = input.eventId ∧
        (∀ j, j < s.eventCount → (s.events j).id = input.eventId → j = k) ∧
        (PlaceBet c t input s).1.eventCount = s.eventCount ∧
        ((PlaceBet c t input s).1.events k).totalBets = (s.events k).totalBets + 1 ∧
        (input.prediction = 1 →
          ((PlaceBet c t input s).1.events k).yesBets = (s.events k).yesBets + 1 ∧
          ((PlaceBet c t input s).1.events k).noBets = (s.events k).noBets) ∧
        (input.prediction ≠ 1 →
          ((PlaceBet c t input s).1.events k).noBets = (s.events k).noBets + 1 ∧
          ((PlaceBet c t input s).1.events k).yesBets = (s.events k).yesBets) ∧
        (∀ j, j ≠ k → (PlaceBet c t input s).1.events j = s.events j)) := by
  have hinv := Inv_of_reachable s hr
  refine ⟨fun i hi => (hinv.eventCounters i hi).1, ?_⟩
  intro c t input h
  rcases PlaceBet_cases_inv c t input s hinv with
    ⟨hout, -⟩ | ⟨ku, ke, ti, -, -, hke, hide, hcap, -, -, -, heq⟩
  · rw [hout] at h
    exact absurd h (by decide)
  · have hcap2 : s.betCount < 100000 := hcap
    obtain ⟨hsum, htot⟩ := hinv.eventCounters ke hke
    have hev : (placeBetEnd s t input ku (s.users ku) ke (s.events ke) ti).events ke =
        counted input (s.events ke) := by
      simp only [placeBetEnd, setAt, if_true]
    rw [heq]
    refine ⟨ke, hke, ?_, ?_, rfl, ?_, ?_, ?_, ?_⟩
    · rw [hinv.eventIds ke hke, hide]
    · intro j hj hjid
      rw [hinv.eventIds j hj] at hjid
      omega
    · rw [hev]
      unfold counted
      split
      · show ((s.events ke).totalBets + 1) % 4294967296 = (s.events ke).totalBets + 1
        omega
      · show ((s.events ke).totalBets + 1) % 4294967296 = (s.events ke).totalBets + 1
        omega
    · intro hp
      rw [hev]
      unfold counted
      rw [if_pos hp]
      constructor
      · show ((s.events ke).yesBets + 1) % 4294967296 = (s.events ke).yesBets + 1
        omega
      · rfl
    · intro hp
      rw [hev]
      unfold counted
      rw [if_neg hp]
      constructor
      · show ((s.events ke).noBets + 1) % 4294967296 = (s.events ke).noBets + 1
        omega
      · rfl
    · intro j hj
      simp only [placeBetEnd, setAt, hj, if_false]

/-- C7 at work on the ledger that already holds two bets on event `1`: the
counters of event `1` add up, and a third bet (on NO) moves the counters of
event `1` only. -/
theorem event_counters_witness :
    ((twoBetState.events 0).yesBets + (twoBetState.events 0).noBets =
        (twoBetState.events 0).totalBets) ∧
    (∃ k, k < twoBetState.eventCount ∧ (twoBetState.events k).id = 1 ∧
      (∀ j, j < twoBetState.eventCount → (twoBetState.events j).id = 1 → j = k) ∧
      (PlaceBet 3 6 { userId := 1, eventId := 1, prediction := 0, amount := 10 }
        twoBetState).1.eventCount = twoBetState.eventCount ∧
      ((PlaceBet 3 6 { userId := 1, eventId := 1, prediction := 0, amount := 10 }
        twoBetState).1.events k).totalBets = (twoBetState.events k).totalBets + 1 ∧
      ((0 : Nat) = 1 →
        ((PlaceBet 3 6 { userId := 1, eventId := 1, prediction := 0, amount := 10 }
          twoBetState).1.events k).yesBets = (twoBetState.events k).yesBets + 1 ∧
        ((PlaceBet 3 6 { userId := 1, eventId := 1, prediction := 0, amount := 10 }
          twoBetState).1.events k).noBets = (twoBetState.events k).noBets) ∧
      ((0 : Nat) ≠ 1 →
        ((PlaceBet 3 6 { userId := 1, eventId := 1, prediction := 0, amount := 10 }
          twoBetState).1.events k).noBets = (twoBetState.events k).noBets + 1 ∧
        ((PlaceBet 3 6 { userId := 1, eventId := 1, prediction := 0, amount := 10 }
          twoBetState).1.events k).yesBets = (twoBetState.events k).yesBets) ∧
      (∀ j, j ≠ k →
        (PlaceBet 3 6 { userId := 1, eventId := 1, prediction := 0, amount := 10 }
          twoBetState).1.events j = twoBetState.events j)) :=
  ⟨(event_counters twoBetState twoBetState_reachable).1 0 (by decide),
    (event_counters twoBetState twoBetState_reachable).2 3 6
      { userId := 1, eventId := 1, prediction := 0, amount := 10 } (by decide)⟩

/-- C8: on a reachable ledger, `PlaceBet` returns `success = 1` only if
`input.userId` is the id of a stored user and `input.eventId` is the id of a
stored event with `isActive = 1` and `isResolved = 0`; and when no stored user
has the user id, or no stored event has the event id, or a stored event with
the event id is resolved, `PlaceBet` returns `success = 0` (and zeros) and
leaves the users, events, bets and the three counts unchanged. -/
theorem PlaceBet_gating (s : CONTRACT_STATE) (hr : Reachable s) (c t : Nat)
    (input : PlaceBetInput) :
    ((PlaceBet c t input s).2.success = 1 →
      (∃ k, k < s.userCount ∧ (s.users k).id = input.userId) ∧
      (∃ k, k < s.eventCount ∧ (s.events k).id = input.eventId ∧
        (s.events k).isActive = 1 ∧ (s.events k).isResolved = 0)) ∧
    (((∀ k, k < s.userCount → (s.users k).id ≠ input.userId) ∨
        (∀ k, k < s.eventCount → (s.events k).id ≠ input.eventId) ∨
        (∃ k, k < s.eventCount ∧ (s.events k).id = input.eventId ∧
          (s.events k).isActive = 0 ∧ (s.events k).isResolved = 1)) →
      (PlaceBet c t input s).2 = { betId := 0, newBalance := 0, success := 0 } ∧
      (PlaceBet c t input s).1.users = s.users ∧
      (PlaceBet c t input s).1.events = s.events ∧
      (PlaceBet c t input s).1.bets = s.bets ∧
      (PlaceBet c t input s).1.userCount = s.userCount ∧
      (PlaceBet c t input s).1.eventCount = s.eventCount ∧
      (PlaceBet c t input s).1.betCount = s.betCount) := by
  have hinv := Inv_of_reachable s hr
  rcases PlaceBet_cases_inv c t input s hinv with
    ⟨hout, hle⟩ | ⟨ku, ke, ti, hku, hidu, hke, hide, -, -, ha, hres, -⟩
  · constructor
    · intro h
      rw [hout] at h
      exact absurd h (by decide)
    · intro _
      exact ⟨hout, hle.users, hle.events, hle.bets, hle.userCount, hle.eventCount, hle.betCount⟩
  · have hu : (s.users ku).id = input.userId := by rw [hinv.userIds ku hku, hidu]
    have he : (s.events ke).id = input.eventId := by rw [hinv.eventIds ke hke, hide]
    constructor
    · intro _
      exact ⟨⟨ku, hku, hu⟩, ⟨ke, hke, he, ha, hres⟩⟩
    · intro hbad
      exfalso
      rcases hbad with h1 | h2 | ⟨k, hk, hkid, -, hkr⟩
      · exact h1 ku hku hu
      · exact h2 ke hke he
      · rw [hinv.eventIds k hk] at hkid
        have : k = ke := by omega
        subst this
        omega

/-- C8 at work: on the ledger reached by resolving event `1`, a bet on event
`1` is refused. -/
theorem PlaceBet_gating_witness :
    ((PlaceBet 3 5 { userId := 1, eventId := 1, prediction := 1, amount := 10 }
        (runOp (Op.resolve 7 9 { eventId := 1, correctAnswer := 1, confidence := 0 })
          twoBetState)).2.success = 1 →
      (∃ k, k < (runOp (Op.resolve 7 9 { eventId := 1, correctAnswer := 1, confidence := 0 })
          twoBetState).userCount ∧
        ((runOp (Op.resolve 7 9 { eventId := 1, correctAnswer := 1, confidence := 0 })
          twoBetState).users k).id = 1) ∧
      (∃ k, k < (runOp (Op.resolve 7 9 { eventId := 1, correctAnswer := 1, confidence := 0 })
          twoBetState).eventCount ∧
        ((runOp (Op.resolve 7 9 { eventId := 1, correctAnswer := 1, confidence := 0 })
          twoBetState).events k).id = 1 ∧
        ((runOp (Op.resolve 7 9 { eventId := 1, correctAnswer := 1, confidence := 0 })
          twoBetState).events k).isActive = 1 ∧
        ((runOp (Op.resolve 7 9 { eventId := 1, correctAnswer := 1, confidence := 0 })
          twoBetState).events k).isResolved = 0)) ∧
    (PlaceBet 3 5 { userId := 1, eventId := 1, prediction := 1, amount := 10 }
        (runOp (Op.resolve 7 9 { eventId := 1, correctAnswer := 1, confidence := 0 })
          twoBetState)).2 = { betId := 0, newBalance := 0, success := 0 } :=
  ⟨(PlaceBet_gating _
      (Reachable.step _ (Op.resolve 7 9 { eventId := 1, correctAnswer := 1, confidence := 0 })
        twoBetState_reachable) 3 5
      { userId := 1, eventId := 1, prediction := 1, amount := 10 }).1,
    ((PlaceBet_gating _
      (Reachable.step _ (Op.resolve 7 9 { eventId := 1, correctAnswer := 1, confidence := 0 })
        twoBetState_reachable) 3 5
      { userId := 1, eventId := 1, prediction := 1, amount := 10 }).2
      (Or.inr (Or.inr ⟨0, by decide, by decide, by decide, by decide⟩))).1⟩

/-! ## Processed bets and resolved events -/

/-- C10: on a reachable ledger, every stored bet refers to exactly one stored
event (the one whose id is the bet's `eventId`), and the bet has
`isProcessed = 1` if and only if that event has `isResolved = 1`. -/
theorem processed_iff_resolved (s : CONTRACT_STATE) (hr : Reachable s) (i : Nat)
    (hi : i < s.betCount) :
    ∃ j, j < s.eventCount ∧ (s.events j).id = (s.bets i).eventId ∧
      (∀ j2, j2 < s.eventCount → (s.events j2).id = (s.bets i).eventId → j2 = j) ∧
      ((s.bets i).isProcessed = 1 ↔ (s.events j).isResolved = 1) := by
  have hinv := Inv_of_reachable s hr
  obtain ⟨-, -, hge, hle⟩ := hinv.betRefs i hi
  refine ⟨(s.bets i).eventId - 1, by omega, ?_, ?_, ?_⟩
  · rw [hinv.eventIds _ (by omega)]
    omega
  · intro j2 hj2 hid
    rw [hinv.eventIds j2 hj2] at hid
    omega
  · rcases hinv.betFlags i hi with ⟨h0, hr0⟩ | ⟨h1, hr1⟩
    · rw [h0, hr0]
    · rw [h1, hr1]

/-- C10 at work: the first bet of the ledger reached by resolving event `1`
after two bets on it. -/
theorem processed_iff_resolved_witness :
    ∃ j, j < (runOp (Op.resolve 7 9 { eventId := 1, correctAnswer := 1, confidence := 0 })
        twoBetState).eventCount ∧
      ((runOp (Op.resolve 7 9 { eventId := 1, correctAnswer := 1, confidence := 0 })
        twoBetState).events j).id =
        ((runOp (Op.resolve 7 9 { eventId := 1, correctAnswer := 1, confidence := 0 })
          twoBetState).bets 0).eventId ∧
      (∀ j2, j2 < (runOp (Op.resolve 7 9 { eventId := 1, correctAnswer := 1, confidence := 0 })
          twoBetState).eventCount →
        ((runOp (Op.resolve 7 9 { eventId := 1, correctAnswer := 1, confidence := 0 })
          twoBetState).events j2).id =
          ((runOp (Op.resolve 7 9 { eventId := 1, correctAnswer := 1, confidence := 0 })
            twoBetState).bets 0).eventId → j2 = j) ∧
      (((runOp (Op.resolve 7 9 { eventId := 1, correctAnswer := 1, confidence := 0 })
        twoBetState).bets 0).isProcessed = 1 ↔
        ((runOp (Op.resolve 7 9 { eventId := 1, correctAnswer := 1, confidence := 0 })
          twoBetState).events j).isResolved = 1) :=
  processed_iff_resolved _
    (Reachable.step _ (Op.resolve 7 9 { eventId := 1, correctAnswer := 1, confidence := 0 })
      twoBetState_reachable) 0 (by decide)

/-! ## Identifiers and capacities -/

/-- C13: on a reachable ledger the user, event and bet at slot `i` have id
`i + 1` for every stored slot; hence the stored ids of each kind are pairwise
distinct, are at least `1`, and `0` is never a stored id. -/
theorem dense_ids (s : CONTRACT_STATE) (hr : Reachable s) :
    (∀ i, i < s.userCount → (s.users i).id = i + 1) ∧
    (∀ i, i < s.eventCount → (s.events i).id = i + 1) ∧
    (∀ i, i < s.betCount → (s.bets i).id = i + 1) ∧
    (∀ i j, i < s.userCount → j < s.userCount → (s.users i).id = (s.users j).id → i = j) ∧
    (∀ i j, i < s.eventCount → j < s.eventCount → (s.events i).id = (s.events j).id → i = j) ∧
    (∀ i j, i < s.betCount → j < s.betCount → (s.bets i).id = (s.bets j).id → i = j) ∧
    (∀ i, i < s.userCount → 1 ≤ (s.users i).id ∧ (s.users i).id ≠ 0) ∧
    (∀ i, i < s.eventCount → 1 ≤ (s.events i).id ∧ (s.events i).id ≠ 0) ∧
    (∀ i, i < s.betCount → 1 ≤ (s.bets i).id ∧ (s.bets i).id ≠ 0) ∧
    (0 < s.userCount → (s.users 0).id = 1) ∧ (0 < s.eventCount → (s.events 0).id = 1) ∧
    (0 < s.betCount → (s.bets 0).id = 1) := by
  have hinv := Inv_of_reachable s hr
  refine ⟨hinv.userIds, hinv.eventIds, hinv.betIds, ?_, ?_, ?_, ?_, ?_, ?_, ?_, ?_, ?_⟩
  · intro i j hi hj h
    rw [hinv.userIds i hi, hinv.userIds j hj] at h
    omega
  · intro i j hi hj h
    rw [hinv.eventIds i hi, hinv.eventIds j hj] at h
    omega
  · intro i j hi hj h
    rw [hinv.betIds i hi, hinv.betIds j hj] at h
    omega
  · intro i hi
    rw [hinv.userIds i hi]
    omega
  · intro i hi
    rw [hinv.eventIds i hi]
    omega
  · intro i hi
    rw [hinv.betIds i hi]
    omega
  · intro h
    exact hinv.userIds 0 h
  · intro h
    exact hinv.eventIds 0 h
  · intro h
    exact hinv.betIds 0 h

/-- C13 at work on the ledger with two bets: the ids at three stored slots. -/
theorem dense_ids_witness :
    (twoBetState.users 0).id = 1 ∧ (twoBetState.events 3).id = 4 ∧ (twoBetState.bets 1).id = 2 :=
  ⟨(dense_ids twoBetState twoBetState_reachable).1 0 (by decide),
    (dense_ids twoBetState twoBetState_reachable).2.1 3 (by decide),
    (dense_ids twoBetState twoBetState_reachable).2.2.1 1 (by decide)⟩

/-- C15: on a reachable ledger the three counts are within the capacities, and
the array stores of `RegisterUser`, `CreateEvent` and `PlaceBet` are in bounds:
no slot at or beyond the capacity of its array is written by them. -/
theorem capacity_invariant (s : CONTRACT_STATE) (hr : Reachable s) :
    s.userCount ≤ MAX_USERS ∧ s.eventCount ≤ MAX_EVENTS ∧ s.betCount ≤ MAX_BETS ∧
    (∀ (c t : Nat) (input : RegisterUserInput) (j : Nat), MAX_USERS ≤ j →
      (RegisterUser c t input s).1.users j = s.users j) ∧
    (∀ (c t : Nat) (input : CreateEventInput) (j : Nat), MAX_EVENTS ≤ j →
      (CreateEvent c t input s).1.events j = s.events j) ∧
    (∀ (c t : Nat) (input : PlaceBetInput),
      (∀ j, MAX_BETS ≤ j → (PlaceBet c t input s).1.bets j = s.bets j) ∧
      (∀ j, MAX_USERS ≤ j → (PlaceBet c t input s).1.users j = s.users j) ∧
      (∀ j, MAX_EVENTS ≤ j → (PlaceBet c t input s).1.events j = s.events j)) := by
  have hinv := Inv_of_reachable s hr
  refine ⟨hinv.userCap, hinv.eventCap, hinv.betCap, ?_, ?_, ?_⟩
  · intro c t input j hj
    unfold RegisterUser
    by_cases h1 : s.contractActive = 0
    · rw [if_pos h1]
    rw [if_neg h1]
    by_cases h2 : s.userCount ≥ MAX_USERS
    · rw [if_pos h2]
    rw [if_neg h2]
    have hne : ¬ j = s.userCount := by omega
    simp only [setAt, hne, if_false]
  · intro c t input j hj
    unfold CreateEvent
    by_cases h1 : s.contractActive = 0
    · rw [if_pos h1]
    rw [if_neg h1]
    by_cases h2 : s.eventCount ≥ MAX_EVENTS
    · rw [if_pos h2]
    rw [if_neg h2]
    by_cases h3 : ¬ c = s.adminId
    · rw [if_pos h3]
    rw [if_neg h3]
    have hne : ¬ j = s.eventCount := by omega
    simp only [setAt, hne, if_false]
  · intro c t input
    rcases PlaceBet_cases_inv c t input s hinv with
      ⟨-, hle⟩ | ⟨ku, ke, ti, hku, -, hke, -, hcap, -, -, -, heq⟩
    · rw [hle.bets, hle.users, hle.events]
      exact ⟨fun _ _ => rfl, fun _ _ => rfl, fun _ _ => rfl⟩
    · rw [heq]
      have huc := hinv.userCap
      have hec := hinv.eventCap
      refine ⟨?_, ?_, ?_⟩
      · intro j hj
        have hne : ¬ j = s.betCount := by omega
        simp only [placeBetEnd, setAt, hne, if_false]
      · intro j hj
        have hne : ¬ j = ku := by omega
        simp only [placeBetEnd, setAt, hne, if_false]
      · intro j hj
        have hne : ¬ j = ke := by omega
        simp only [placeBetEnd, setAt, hne, if_false]

/-- C15 at work on the ledger with two bets: the counts, and slot `100000` of
the bet array across a further bet. -/
theorem capacity_invariant_witness :
    twoBetState.userCount ≤ MAX_USERS ∧ twoBetState.eventCount ≤ MAX_EVENTS ∧
      twoBetState.betCount ≤ MAX_BETS ∧
      (PlaceBet 3 6 { userId := 1, eventId := 2, prediction := 1, amount := 10 }
        twoBetState).1.bets 100000 = twoBetState.bets 100000 :=
  ⟨(capacity_invariant twoBetState twoBetState_reachable).1,
    (capacity_invariant twoBetState twoBetState_reachable).2.1,
    (capacity_invariant twoBetState twoBetState_reachable).2.2.1,
    ((capacity_invariant twoBetState twoBetState_reachable).2.2.2.2.2 3 6
      { userId := 1, eventId := 2, prediction := 1, amount := 10 }).1 100000 (by decide)⟩

/-! ## The life of an event -/

/-- C11: on a reachable ledger every stored event is Open (`isActive = 1`,
`isResolved = 0`) or Resolved (`isActive = 0`, `isResolved = 1`); every event
seeded by `Initialize` and the event stored by a successful `CreateEvent` is
Open with `totalBets = yesBets = noBets = 0`; and a successful `ResolveEvent`
targets a stored Open event with the input's id, turns exactly that slot into
the same event with `isActive = 0`, `isResolved = 1` and
`correctAnswer = input.correctAnswer`, and leaves every other slot unchanged. -/
theorem event_state_machine (s : CONTRACT_STATE) (hr : Reachable s) :
    (∀ i, i < s.eventCount →
      ((s.events i).isActive = 1 ∧ (s.events i).isResolved = 0) ∨
        ((s.events i).isActive = 0 ∧ (s.events i).isResolved = 1)) ∧
    (∀ (c t : Nat) (s0 : CONTRACT_STATE) (i : Nat), i < (Initialize c t s0).eventCount →
      ((Initialize c t s0).events i).isActive = 1 ∧
      ((Initialize c t s0).events i).isResolved = 0 ∧
      ((Initialize c t s0).events i).totalBets = 0 ∧
      ((Initialize c t s0).events i).yesBets = 0 ∧
      ((Initialize c t s0).events i).noBets = 0) ∧
    (∀ (c t : Nat) (input : CreateEventInput), (CreateEvent c t input s).2.success = 1 →
      (CreateEvent c t input s).1.eventCount = s.eventCount + 1 ∧
      (CreateEvent c t input s).2.eventId = s.eventCount + 1 ∧
      ((CreateEvent c t input s).1.events s.eventCount).id = s.eventCount + 1 ∧
      ((CreateEvent c t input s).1.events s.eventCount).isActive = 1 ∧
      ((CreateEvent c t input s).1.events s.eventCount).isResolved = 0 ∧
      ((CreateEvent c t input s).1.events s.eventCount).totalBets = 0 ∧
      ((CreateEvent c t input s).1.events s.eventCount).yesBets = 0 ∧
      ((CreateEvent c t input s).1.events s.eventCount).noBets = 0 ∧
      (∀ j, j ≠ s.eventCount → (CreateEvent c t input s).1.events j = s.events j)) ∧
    (∀ (c t : Nat) (input : ResolveEventInput), (ResolveEvent c t input s).2.success = 1 →
      ∃ k, k < s.eventCount ∧ (s.events k).id = input.eventId ∧
        (s.events k).isActive = 1 ∧ (s.events k).isResolved = 0 ∧
        (ResolveEvent c t input s).1.eventCount = s.eventCount ∧
        (ResolveEvent c t input s).1.events k =
          { s.events k with
            isActive := 0, isResolved := 1, correctAnswer := input.correctAnswer } ∧
        (∀ j, j ≠ k → (ResolveEvent c t input s).1.events j = s.events j)) := by
  have hinv := Inv_of_reachable s hr
  refine ⟨hinv.eventFlags, ?_, ?_, ?_⟩
  · intro c t s0 i hi
    obtain ⟨-, -, -, -, -, -, h7, -, -, -, -, -, hev⟩ := Initialize_fields c t s0
    rw [h7] at hi
    obtain ⟨-, h2, h3, h4, h5, h6⟩ := hev i hi
    exact ⟨h2, h3, h4, h5, h6⟩
  · intro c t input
    unfold CreateEvent
    by_cases h1 : s.contractActive = 0
    · rw [if_pos h1]; intro h; exact absurd h Nat.zero_ne_one
    rw [if_neg h1]
    by_cases h2 : s.eventCount ≥ MAX_EVENTS
    · rw [if_pos h2]; intro h; exact absurd h Nat.zero_ne_one
    rw [if_neg h2]
    by_cases h3 : ¬ c = s.adminId
    · rw [if_pos h3]; intro h; exact absurd h Nat.zero_ne_one
    rw [if_neg h3]
    intro _
    have hlt : s.eventCount < 1000 := by
      have : ¬ s.eventCount ≥ 1000 := h2
      omega
    have hmod : (s.eventCount + 1) % 4294967296 = s.eventCount + 1 :=
      Nat.mod_eq_of_lt (by omega)
    refine ⟨hmod, hmod, ?_, ?_, ?_, ?_, ?_, ?_, ?_⟩
    · simp only [setAt, if_true]; exact hmod
    · simp only [setAt, if_true]
    · simp only [setAt, if_true]
    · simp only [setAt, if_true]
    · simp only [setAt, if_true]
    · simp only [setAt, if_true]
    · intro j hj
      simp only [setAt, hj, if_false]
  · intro c t input h
    rcases ResolveEvent_cases_inv c t input s hinv with
      ⟨hout, -⟩ | ⟨k, hk, hid, -, ha, hres, -, hfr, -, -⟩
    · rw [hout] at h
      exact absurd h (by decide)
    · have hev : (ResolveEvent c t input s).1.events = setAt s.events k
          { s.events k with
            isResolved := 1, isActive := 0, correctAnswer := input.correctAnswer } :=
        hfr.events
      refine ⟨k, hk, ?_, ha, hres, hfr.eventCount, ?_, ?_⟩
      · rw [hinv.eventIds k hk, hid]
      · rw [hev]
        simp only [setAt, if_true]
      · intro j hj
        rw [hev]
        simp only [setAt, hj, if_false]

/-- C11 at work on the ledger with two bets: its event `2`, and event `1`
across its resolution. -/
theorem event_state_machine_witness :
    (((twoBetState.events 1).isActive = 1 ∧ (twoBetState.events 1).isResolved = 0) ∨
        ((twoBetState.events 1).isActive = 0 ∧ (twoBetState.events 1).isResolved = 1)) ∧
    (∃ k, k < twoBetState.eventCount ∧ (twoBetState.events k).id = 1 ∧
      (twoBetState.events k).isActive = 1 ∧ (twoBetState.events k).isResolved = 0 ∧
      (ResolveEvent 7 9 { eventId := 1, correctAnswer := 1, confidence := 0 }
        twoBetState).1.eventCount = twoBetState.eventCount ∧
      (ResolveEvent 7 9 { eventId := 1, correctAnswer := 1, confidence := 0 }
        twoBetState).1.events k =
        { twoBetState.events k with isActive := 0, isResolved := 1, correctAnswer := 1 } ∧
      (∀ j, j ≠ k →
        (ResolveEvent 7 9 { eventId := 1, correctAnswer := 1, confidence := 0 }
          twoBetState).1.events j = twoBetState.events j)) :=
  ⟨(event_state_machine twoBetState twoBetState_reachable).1 1 (by decide),
    (event_state_machine twoBetState twoBetState_reachable).2.2.2 7 9
      { eventId := 1, correctAnswer := 1, confidence := 0 } (by decide)⟩

/-! ## Registration -/

/-- C14: for every state, with `userCount >= MAX_USERS` `RegisterUser` returns
`success = 0`, `userId = 0`, `balance = 0` and the state it was given; with
`userCount < MAX_USERS` and the contract active it returns `success = 1`,
`userId = old userCount + 1` and `balance = defaultBalance`, raises `userCount`
by one and stores at the old `userCount` slot a user with that id, balance
`defaultBalance` and `totalBets = totalWins = 0`, every other slot unchanged. -/
theorem RegisterUser_capacity (c t : Nat) (input : RegisterUserInput) (s : CONTRACT_STATE) :
    (s.userCount ≥ MAX_USERS →
      RegisterUser c t input s = (s, { userId := 0, balance := 0, success := 0 })) ∧
    (s.userCount < MAX_USERS → s.contractActive ≠ 0 →
      (RegisterUser c t input s).2 =
        { userId := s.userCount + 1, balance := s.defaultBalance, success := 1 } ∧
      (RegisterUser c t input s).1.userCount = s.userCount + 1 ∧
      ((RegisterUser c t input s).1.users s.userCount).id = s.userCount + 1 ∧
      ((RegisterUser c t input s).1.users s.userCount).balance = s.defaultBalance ∧
      ((RegisterUser c t input s).1.users s.userCount).totalBets = 0 ∧
      ((RegisterUser c t input s).1.users s.userCount).totalWins = 0 ∧
      (∀ j, j ≠ s.userCount → (RegisterUser c t input s).1.users j = s.users j)) := by
  constructor
  · intro hfull
    unfold RegisterUser
    by_cases h1 : s.contractActive = 0
    · rw [if_pos h1]
    · rw [if_neg h1, if_pos hfull]
  · intro hlt hact
    have hlt2 : s.userCount < 10000 := hlt
    have hmod : (s.userCount + 1) % 4294967296 = s.userCount + 1 :=
      Nat.mod_eq_of_lt (by omega)
    have hnf : ¬ s.userCount ≥ MAX_USERS := by
      intro h
      have : s.userCount ≥ 10000 := h
      omega
    unfold RegisterUser
    rw [if_neg hact, if_neg hnf]
    refine ⟨?_, hmod, ?_, ?_, ?_, ?_, ?_⟩
    · simp only [hmod]
    · simp only [setAt, if_true]; exact hmod
    · simp only [setAt, if_true]
    · simp only [setAt, if_true]
    · simp only [setAt, if_true]
    · intro j hj
      simp only [setAt, hj, if_false]

/-- C14 at work: a registration on the ledger whose user count is at the
capacity, and one on the fresh ledger. -/
theorem RegisterUser_capacity_witness :
    RegisterUser 3 5 { username := [], passwordHash := [] } fullUsersState =
        (fullUsersState, { userId := 0, balance := 0, success := 0 }) ∧
      (RegisterUser 3 5 { username := [], passwordHash := [] } freshState).2 =
        { userId := freshState.userCount + 1, balance := freshState.defaultBalance,
          success := 1 } ∧
      (RegisterUser 3 5 { username := [], passwordHash := [] } freshState).1.userCount =
        freshState.userCount + 1 ∧
      ((RegisterUser 3 5 { username := [], passwordHash := [] } freshState).1.users
        freshState.userCount).id = freshState.userCount + 1 ∧
      ((RegisterUser 3 5 { username := [], passwordHash := [] } freshState).1.users
        freshState.userCount).balance = freshState.defaultBalance ∧
      ((RegisterUser 3 5 { username := [], passwordHash := [] } freshState).1.users
        freshState.userCount).totalBets = 0 ∧
      ((RegisterUser 3 5 { username := [], passwordHash := [] } freshState).1.users
        freshState.userCount).totalWins = 0 ∧
      (∀ j, j ≠ freshState.userCount →
        (RegisterUser 3 5 { username := [], passwordHash := [] } freshState).1.users j =
          freshState.users j) :=
  ⟨(RegisterUser_capacity 3 5 { username := [], passwordHash := [] } fullUsersState).1
      (by decide),
    (RegisterUser_capacity 3 5 { username := [], passwordHash := [] } freshState).2
      (by decide) (by decide)⟩

/-! ## Flags are never cleared -/

/-- `PlaceBet`, on any state, leaves every stored event that is resolved and
every stored bet as it was. -/
theorem PlaceBet_keeps (c t : Nat) (input : PlaceBetInput) (s : CONTRACT_STATE) :
    (∀ i, i < s.eventCount → (s.events i).isResolved ≠ 0 →
      (PlaceBet c t input s).1.events i = s.events i) ∧
    (∀ i, i < s.betCount → (PlaceBet c t input s).1.bets i = s.bets i) := by
  rcases PlaceBet_cases c t input s with
    ⟨-, hle⟩ | ⟨ku, u0, ke, e0, ti, -, he, -, -, -, -, hr, heq⟩
  · rw [hle.events, hle.bets]
    exact ⟨fun _ _ _ => rfl, fun _ _ => rfl⟩
  · rw [heq]
    constructor
    · intro i hi hres
      have hne : ¬ i = ke := by
        intro h
        subst h
        rcases he with ⟨-, -, -, he0⟩ | ⟨hc0, -, -, -⟩
        · rw [he0] at hr
          exact hres hr
        · omega
      simp only [placeBetEnd, setAt, hne, if_false]
    · intro i hi
      have hne : ¬ i = s.betCount := by omega
      simp only [placeBetEnd, setAt, hne, if_false]

/-- `ResolveEvent`, on any state, leaves every stored event that is already
resolved and every stored bet that is already processed as it was. -/
theorem ResolveEvent_keeps (c t : Nat) (input : ResolveEventInput) (s : CONTRACT_STATE) :
    (∀ i, i < s.eventCount → (s.events i).isResolved ≠ 0 →
      (ResolveEvent c t input s).1.events i = s.events i) ∧
    (∀ i, i < s.betCount → (s.bets i).isProcessed ≠ 0 →
      (ResolveEvent c t input s).1.bets i = s.bets i) := by
  by_cases hs : (ResolveEvent c t input s).2.success = 1
  · obtain ⟨k, e0, hlook, -, -, -, hr, hfr, hbets, -, -, -⟩ :=
      ResolveEvent_success_spec c t input s hs
    have hev : (ResolveEvent c t input s).1.events = setAt s.events k
        { e0 with isResolved := 1, isActive := 0, correctAnswer := input.correctAnswer } :=
      hfr.events
    constructor
    · intro i hi hres
      have hne : ¬ i = k := by
        intro h
        subst h
        rcases hlook with ⟨-, -, -, he0⟩ | ⟨hc0, -, -, -⟩
        · rw [he0] at hr
          exact hres hr
        · omega
      rw [hev]
      simp only [setAt, hne, if_false]
    · intro i hi hp
      rw [hbets i, if_pos hi]
      unfold settled
      rw [if_neg (fun h => hp h.2)]
  · rcases ResolveEvent_cases c t input s with ⟨-, hle⟩ | ⟨k, e0, -, -, -, -, -, heq⟩
    · rw [hle.events, hle.bets]
      exact ⟨fun _ _ _ => rfl, fun _ _ _ => rfl⟩
    · exfalso
      apply hs
      rw [heq]

/-- C12: for every state and every call other than `Initialize`, a stored event
with `isResolved = 1` before the call is the same record after it (so it still
has `isResolved = 1` and the same `correctAnswer`), and a stored bet with
`isProcessed = 1` before the call is the same record after it (so it still has
`isProcessed = 1` and the same `isWon`). -/
theorem flags_never_cleared (s : CONTRACT_STATE) (op : Op)
    (hop : ∀ c t, op ≠ Op.init c t) :
    (∀ i, i < s.eventCount → (s.events i).isResolved = 1 →
      ((runOp op s).events i).isResolved = 1 ∧
      ((runOp op s).events i).correctAnswer = (s.events i).correctAnswer ∧
      (runOp op s).events i = s.events i) ∧
    (∀ i, i < s.betCount → (s.bets i).isProcessed = 1 →
      ((runOp op s).bets i).isProcessed = 1 ∧
      ((runOp op s).bets i).isWon = (s.bets i).isWon ∧
      (runOp op s).bets i = s.bets i) := by
  have key : (∀ i, i < s.eventCount → (s.events i).isResolved = 1 →
      (runOp op s).events i = s.events i) ∧
      (∀ i, i < s.betCount → (s.bets i).isProcessed = 1 →
      (runOp op s).bets i = s.bets i) := by
    cases op with
    | init c t => exact absurd rfl (hop c t)
    | register c t input =>
      show (∀ i, i < s.eventCount → (s.events i).isResolved = 1 →
        (RegisterUser c t input s).1.events i = s.events i) ∧
        (∀ i, i < s.betCount → (s.bets i).isProcessed = 1 →
        (RegisterUser c t input s).1.bets i = s.bets i)
      unfold RegisterUser
      by_cases h1 : s.contractActive = 0
      · rw [if_pos h1]
        exact ⟨fun _ _ _ => rfl, fun _ _ _ => rfl⟩
      rw [if_neg h1]
      by_cases h2 : s.userCount ≥ MAX_USERS
      · rw [if_pos h2]
        exact ⟨fun _ _ _ => rfl, fun _ _ _ => rfl⟩
      rw [if_neg h2]
      exact ⟨fun _ _ _ => rfl, fun _ _ _ => rfl⟩
    | create c t input =>
      show (∀ i, i < s.eventCount → (s.events i).isResolved = 1 →
        (CreateEvent c t input s).1.events i = s.events i) ∧
        (∀ i, i < s.betCount → (s.bets i).isProcessed = 1 →
        (CreateEvent c t input s).1.bets i = s.bets i)
      unfold CreateEvent
      by_cases h1 : s.contractActive = 0
      · rw [if_pos h1]
        exact ⟨fun _ _ _ => rfl, fun _ _ _ => rfl⟩
      rw [if_neg h1]
      by_cases h2 : s.eventCount ≥ MAX_EVENTS
      · rw [if_pos h2]
        exact ⟨fun _ _ _ => rfl, fun _ _ _ => rfl⟩
      rw [if_neg h2]
      by_cases h3 : ¬ c = s.adminId
      · rw [if_pos h3]
        exact ⟨fun _ _ _ => rfl, fun _ _ _ => rfl⟩
      rw [if_neg h3]
      refine ⟨?_, fun _ _ _ => rfl⟩
      intro i hi _
      have hne : ¬ i = s.eventCount := by omega
      simp only [setAt, hne, if_false]
    | place c t input =>
      obtain ⟨h1, h2⟩ := PlaceBet_keeps c t input s
      exact ⟨fun i hi hr => h1 i hi (by rw [hr]; decide), fun i hi _ => h2 i hi⟩
    | resolve c t input =>
      obtain ⟨h1, h2⟩ := ResolveEvent_keeps c t input s
      exact ⟨fun i hi hr => h1 i hi (by rw [hr]; decide),
        fun i hi hp => h2 i hi (by rw [hp]; decide)⟩
    | balance c t input =>
      have hle := GetBalance_frame c t input s
      exact ⟨fun i _ _ => by show (GetBalance c t input s).1.events i = _; rw [hle.events],
        fun i _ _ => by show (GetBalance c t input s).1.bets i = _; rw [hle.bets]⟩
    | events c t input =>
      have hle := GetEvents_frame c t input s
      exact ⟨fun i _ _ => by show (GetEvents c t input s).1.events i = _; rw [hle.events],
        fun i _ _ => by show (GetEvents c t input s).1.bets i = _; rw [hle.bets]⟩
    | userBets c t input =>
      have hle := GetUserBets_frame c t input s
      exact ⟨fun i _ _ => by show (GetUserBets c t input s).1.events i = _; rw [hle.events],
        fun i _ _ => by show (GetUserBets c t input s).1.bets i = _; rw [hle.bets]⟩
  constructor
  · intro i hi hr
    have := key.1 i hi hr
    rw [this]
    exact ⟨hr, rfl, rfl⟩
  · intro i hi hp
    have := key.2 i hi hp
    rw [this]
    exact ⟨hp, rfl, rfl⟩

theorem resolvedState_reachable : Reachable resolvedState :=
  Reachable.step _ (Op.resolve 7 9 { eventId := 1, correctAnswer := 1, confidence := 0 })
    twoBetState_reachable

/-- C12 at work: on the ledger whose event `1` is resolved, a further bet on
event `2` leaves event `1` resolved and the first bet processed. -/
theorem flags_never_cleared_witness :
    (((runOp (Op.place 3 6 { userId := 1, eventId := 2, prediction := 1, amount := 10 })
        resolvedState).events 0).isResolved = 1 ∧
      ((runOp (Op.place 3 6 { userId := 1, eventId := 2, prediction := 1, amount := 10 })
        resolvedState).events 0).correctAnswer = (resolvedState.events 0).correctAnswer ∧
      (runOp (Op.place 3 6 { userId := 1, eventId := 2, prediction := 1, amount := 10 })
        resolvedState).events 0 = resolvedState.events 0) ∧
    (((runOp (Op.place 3 6 { userId := 1, eventId := 2, prediction := 1, amount := 10 })
        resolvedState).bets 0).isProcessed = 1 ∧
      ((runOp (Op.place 3 6 { userId := 1, eventId := 2, prediction := 1, amount := 10 })
        resolvedState).bets 0).isWon = (resolvedState.bets 0).isWon ∧
      (runOp (Op.place 3 6 { userId := 1, eventId := 2, prediction := 1, amount := 10 })
        resolvedState).bets 0 = resolvedState.bets 0) :=
  ⟨(flags_never_cleared resolvedState
      (Op.place 3 6 { userId := 1, eventId := 2, prediction := 1, amount := 10 })
      (fun _ _ h => Op.noConfusion h)).1 0 (by decide) (by decide),
    (flags_never_cleared resolvedState
      (Op.place 3 6 { userId := 1, eventId := 2, prediction := 1, amount := 10 })
      (fun _ _ h => Op.noConfusion h)).2 0 (by decide) (by decide)⟩

/-! ## Referential integrity -/

/-- C16: on a reachable ledger the `userId` of every stored bet is the id of
exactly one stored user and its `eventId` is the id of exactly one stored
event; and the credit scan for that bet, run from slot `0` on any state with
the same user count and the same user ids (as every state of the settlement
sweep is), credits exactly that user's slot. -/
theorem referential_integrity (s : CONTRACT_STATE) (hr : Reachable s) (i : Nat)
    (hi : i < s.betCount) :
    (∃ k, k < s.userCount ∧ (s.users k).id = (s.bets i).userId ∧
      (∀ k2, k2 < s.userCount → (s.users k2).id = (s.bets i).userId → k2 = k) ∧
      (∀ u : CONTRACT_STATE, u.userCount = s.userCount →
        (∀ j, (u.users j).id = (s.users j).id) → u.tempUserId = 0 →
        (creditLoop (s.bets i).userId u.userCount u).users =
          setAt u.users k (credit u.winReward (u.users k)))) ∧
    (∃ e, e < s.eventCount ∧ (s.events e).id = (s.bets i).eventId ∧
      (∀ e2, e2 < s.eventCount → (s.events e2).id = (s.bets i).eventId → e2 = e)) := by
  have hinv := Inv_of_reachable s hr
  obtain ⟨hu1, hu2, he1, he2⟩ := hinv.betRefs i hi
  constructor
  · have hk : (s.bets i).userId - 1 < s.userCount := by omega
    have hkid : (s.users ((s.bets i).userId - 1)).id = (s.bets i).userId := by
      rw [hinv.userIds _ hk]
      omega
    refine ⟨(s.bets i).userId - 1, hk, hkid, ?_, ?_⟩
    · intro k2 hk2 hid
      rw [hinv.userIds k2 hk2] at hid
      omega
    · intro u huc hids h0
      have hd : DistinctUserIds u.users u.userCount := by
        intro a b ha hb hab
        rw [huc] at ha hb
        rw [hids a, hids b, hinv.userIds a ha, hinv.userIds b hb] at hab
        omega
      rw [creditLoop_users (s.bets i).userId u h0]
      funext j
      rw [creditFirst_distinct u.users u.userCount u.winReward _ hd j]
      simp only [setAt]
      by_cases hj : j = (s.bets i).userId - 1
      · rw [if_pos hj, hj, if_pos ⟨by rw [huc]; exact hk, by rw [hids]; exact hkid⟩]
      · rw [if_neg hj]
        by_cases hc : j < u.userCount ∧ (u.users j).id = (s.bets i).userId
        · exfalso
          obtain ⟨hc1, hc2⟩ := hc
          rw [huc] at hc1
          rw [hids j, hinv.userIds j hc1] at hc2
          omega
        · rw [if_neg hc]
  · have hk : (s.bets i).eventId - 1 < s.eventCount := by omega
    refine ⟨(s.bets i).eventId - 1, hk, ?_, ?_⟩
    · rw [hinv.eventIds _ hk]
      omega
    · intro e2 he2lt hid
      rw [hinv.eventIds e2 he2lt] at hid
      omega

/-- C16 at work: the second bet of the ledger with two bets, and the credit
scan for it on that ledger. -/
theorem referential_integrity_witness :
    (∃ k, k < twoBetState.userCount ∧ (twoBetState.users k).id = (twoBetState.bets 1).userId ∧
      (∀ k2, k2 < twoBetState.userCount →
        (twoBetState.users k2).id = (twoBetState.bets 1).userId → k2 = k) ∧
      (∀ u : CONTRACT_STATE, u.userCount = twoBetState.userCount →
        (∀ j, (u.users j).id = (twoBetState.users j).id) → u.tempUserId = 0 →
        (creditLoop (twoBetState.bets 1).userId u.userCount u).users =
          setAt u.users k (credit u.winReward (u.users k)))) ∧
    (∃ e, e < twoBetState.eventCount ∧ (twoBetState.events e).id = (twoBetState.bets 1).eventId ∧
      (∀ e2, e2 < twoBetState.eventCount →
        (twoBetState.events e2).id = (twoBetState.bets 1).eventId → e2 = e)) :=
  referential_integrity twoBetState twoBetState_reachable 1 (by decide)

/-! ## `GetBalance` -/

/-- The output of the search of `GetBalance`, as a function of the store. -/
theorem getBalanceLoop_out (userId fuel : Nat) (s : CONTRACT_STATE)
    (hfuel : s.tempIndex + fuel = s.userCount) :
    (getBalanceLoop userId fuel s).2 =
      if firstFrom (fun j => decide ((s.users j).id = userId)) fuel s.tempIndex < s.userCount then
        { balance :=
            (s.users (firstFrom (fun j => decide ((s.users j).id = userId)) fuel
              s.tempIndex)).balance
          success := 1 }
      else { balance := 0, success := 0 } := by
  induction fuel generalizing s with
  | zero =>
    have h0 : ¬ s.tempIndex < s.userCount := by omega
    simp only [getBalanceLoop, firstFrom, h0, if_false]
  | succ n ih =>
    have hlt : s.tempIndex < s.userCount := by omega
    unfold getBalanceLoop
    rw [if_pos hlt]
    by_cases hid : (s.users s.tempIndex).id = userId
    · simp [firstFrom, hid, hlt]
    · rw [if_neg hid, ih _ (by simp; omega)]
      simp [firstFrom, hid]

/-- C18: on a reachable ledger `GetBalance` returns `success = 1` exactly when
`1 <= input.userId <= userCount`, and then `balance` is the balance of the
stored user with that id (the one at slot `userId - 1`); for `userId = 0` and
for a `userId` above `userCount` it returns `success = 0` and `balance = 0`;
and it never changes the stored users, events or bets (nor any other field of
the ledger proper). -/
theorem GetBalance_lookup (s : CONTRACT_STATE) (hr : Reachable s) (c t : Nat)
    (input : GetBalanceInput) :
    ((GetBalance c t input s).2.success = 1 ↔
      (1 ≤ input.userId ∧ input.userId ≤ s.userCount)) ∧
    (1 ≤ input.userId ∧ input.userId ≤ s.userCount →
      (s.users (input.userId - 1)).id = input.userId ∧
      (GetBalance c t input s).2 =
        { balance := (s.users (input.userId - 1)).balance, success := 1 }) ∧
    (input.userId = 0 ∨ s.userCount < input.userId →
      (GetBalance c t input s).2 = { balance := 0, success := 0 }) ∧
    (GetBalance c t input s).1.users = s.users ∧
    (GetBalance c t input s).1.events = s.events ∧
    (GetBalance c t input s).1.bets = s.bets ∧
    LedgerEq s (GetBalance c t input s).1 := by
  have hinv := Inv_of_reachable s hr
  have hle := GetBalance_frame c t input s
  have hout : (GetBalance c t input s).2 =
      if firstFrom (fun j => decide ((s.users j).id = input.userId)) s.userCount 0
          < s.userCount then
        { balance :=
            (s.users (firstFrom (fun j => decide ((s.users j).id = input.userId))
              s.userCount 0)).balance
          success := 1 }
      else { balance := 0, success := 0 } := by
    unfold GetBalance
    rw [getBalanceLoop_out input.userId s.userCount _ (by simp)]
  have hin : 1 ≤ input.userId ∧ input.userId ≤ s.userCount →
      firstFrom (fun j => decide ((s.users j).id = input.userId)) s.userCount 0 =
        input.userId - 1 := by
    intro h
    apply firstFrom_eq
    · exact Nat.zero_le _
    · omega
    · simp only [decide_eq_true_eq]
      rw [hinv.userIds _ (by omega)]
      omega
    · intro j _ hj
      simp only [decide_eq_false_iff_not]
      rw [hinv.userIds j (by omega)]
      omega
  have hnot : ¬ (1 ≤ input.userId ∧ input.userId ≤ s.userCount) →
      firstFrom (fun j => decide ((s.users j).id = input.userId)) s.userCount 0 =
        0 + s.userCount := by
    intro h
    apply firstFrom_none
    intro j _ hj
    simp only [decide_eq_false_iff_not]
    rw [hinv.userIds j (by omega)]
    omega
  refine ⟨?_, ?_, ?_, hle.users, hle.events, hle.bets, hle⟩
  · rw [hout]
    by_cases h : 1 ≤ input.userId ∧ input.userId ≤ s.userCount
    · rw [hin h, if_pos (by omega)]
      exact ⟨fun _ => h, fun _ => rfl⟩
    · rw [hnot h, if_neg (by omega)]
      exact ⟨fun h0 => absurd h0 Nat.zero_ne_one, fun h1 => absurd h1 h⟩
  · intro h
    rw [hout, hin h, if_pos (by omega)]
    refine ⟨?_, rfl⟩
    rw [hinv.userIds _ (by omega)]
    omega
  · intro h
    have hn : ¬ (1 ≤ input.userId ∧ input.userId ≤ s.userCount) := by omega
    rw [hout, hnot hn, if_neg (by omega)]

/-- C18 at work on the ledger with two bets: user `1` holds `80`, ids `0` and
`2` are unknown. -/
theorem GetBalance_lookup_witness :
    (GetBalance 3 5 { userId := 1 } twoBetState).2 = { balance := 80, success := 1 } ∧
      (GetBalance 3 5 { userId := 0 } twoBetState).2 = { balance := 0, success := 0 } ∧
      (GetBalance 3 5 { userId := 2 } twoBetState).2 = { balance := 0, success := 0 } ∧
      (GetBalance 3 5 { userId := 1 } twoBetState).1.users = twoBetState.users :=
  ⟨((GetBalance_lookup twoBetState twoBetState_reachable 3 5 { userId := 1 }).2.1
      (by decide)).2,
    (GetBalance_lookup twoBetState twoBetState_reachable 3 5 { userId := 0 }).2.2.1
      (Or.inl rfl),
    (GetBalance_lookup twoBetState twoBetState_reachable 3 5 { userId := 2 }).2.2.1
      (Or.inr (by decide)),
    (GetBalance_lookup twoBetState twoBetState_reachable 3 5 { userId := 1 }).2.2.2.1⟩

/-! ## The two scenarios of the specification -/

/-- C19: from `Initialize` by the admin on any memory, `RegisterUser` returns
user `2` with balance `100`; the admin's `CreateEvent` returns event `5`; the
bet of `10` on YES by that user on that event returns `success = 1` and
`newBalance = 90` and leaves the event with `totalBets = 1`, `yesBets = 1`;
the admin's `ResolveEvent` with the answer YES returns `success = 1`,
`winnersCount = 1`, `totalPayout = 20 = winReward`; afterwards the user's
balance is `110` and the bet has `isWon = 1` and `isProcessed = 1`. -/
theorem scenario_single_winner (x : Setting) :
    (single1 x).2 = { userId := 2, balance := 100, success := 1 } ∧
    ((single1 x).1.users 1).id = 2 ∧ ((single1 x).1.users 1).balance = 100 ∧
    (single2 x).2 = { eventId := 5, success := 1 } ∧
    ((single2 x).1.events 4).id = 5 ∧
    (single3 x).2 = { betId := 1, newBalance := 90, success := 1 } ∧
    ((single3 x).1.users 1).balance = 90 ∧
    ((single3 x).1.events 4).totalBets = 1 ∧ ((single3 x).1.events 4).yesBets = 1 ∧
    ((single3 x).1.events 4).noBets = 0 ∧
    (single4 x).2 = { winnersCount := 1, totalPayout := 20, success := 1 } ∧
    (single4 x).1.winReward = 20 ∧
    ((single4 x).1.users 1).id = 2 ∧ ((single4 x).1.users 1).balance = 110 ∧
    ((single4 x).1.bets 0).userId = 2 ∧ ((single4 x).1.bets 0).eventId = 5 ∧
    ((single4 x).1.bets 0).isWon = 1 ∧ ((single4 x).1.bets 0).isProcessed = 1 := by
  simp [single4, single3, single2, single1, single0, ResolveEvent, sweepLoop, sweepBody,
    creditLoop, PlaceBet, findUser, findEvent, findUserLoop, findEventLoop, CreateEvent,
    RegisterUser, Initialize, seedEvent, MAX_USERS, MAX_EVENTS, MAX_BETS, setAt,
    DEFAULT_BALANCE, WIN_REWARD]

set_option maxHeartbeats 4000000 in
/-- C20: from `Initialize` by the admin on any memory, after two
registrations (users `2` and `3`), the admin's `CreateEvent` (event `5`), a bet
of `10` on YES by user `2` and a bet of `10` on NO by user `3`, the admin's
`ResolveEvent` with the answer NO returns `success = 1`, `winnersCount = 1`,
`totalPayout = 20 = winReward`; afterwards user `3` has balance `110` and
`totalWins = 1`, user `2` has balance `90` and `totalWins = 0`, both bets have
`isProcessed = 1`, the bet of user `3` has `isWon = 1` and the bet of user `2`
has `isWon = 0`. -/
theorem scenario_opposing_bets (x : Setting) :
    (duel1 x).2 = { userId := 2, balance := 100, success := 1 } ∧
    (duel2 x).2 = { userId := 3, balance := 100, success := 1 } ∧
    (duel3 x).2 = { eventId := 5, success := 1 } ∧
    (duel4 x).2 = { betId := 1, newBalance := 90, success := 1 } ∧
    (duel5 x).2 = { betId := 2, newBalance := 90, success := 1 } ∧
    (duel6 x).2 = { winnersCount := 1, totalPayout := 20, success := 1 } ∧
    (duel6 x).1.winReward = 20 ∧
    ((duel6 x).1.users 1).id = 2 ∧ ((duel6 x).1.users 1).balance = 90 ∧
    ((duel6 x).1.users 1).totalWins = 0 ∧
    ((duel6 x).1.users 2).id = 3 ∧ ((duel6 x).1.users 2).balance = 110 ∧
    ((duel6 x).1.users 2).totalWins = 1 ∧
    ((duel6 x).1.bets 0).userId = 2 ∧ ((duel6 x).1.bets 0).isProcessed = 1 ∧
    ((duel6 x).1.bets 0).isWon = 0 ∧
    ((duel6 x).1.bets 1).userId = 3 ∧ ((duel6 x).1.bets 1).isProcessed = 1 ∧
    ((duel6 x).1.bets 1).isWon = 1 := by
  simp [duel6, duel5, duel4, duel3, duel2, duel1, single0, ResolveEvent, sweepLoop, sweepBody,
    creditLoop, PlaceBet, findUser, findEvent, findUserLoop, findEventLoop, CreateEvent,
    RegisterUser, Initialize, seedEvent, MAX_USERS, MAX_EVENTS, MAX_BETS, setAt,
    DEFAULT_BALANCE, WIN_REWARD]

/-! ## Derived counters -/

theorem countBets_succ (bets : Nat → Bet) (n : Nat) (p : Bet → Bool) :
    countBets bets (n + 1) p = countBets bets n p + (if p (bets n) = true then 1 else 0) := by
  unfold countBets
  rw [List.range_succ, List.countP_append, List.countP_singleton]

theorem countBets_congr (b1 b2 : Nat → Bet) (n : Nat) (p q : Bet → Bool)
    (h : ∀ j, j < n → p (b1 j) = q (b2 j)) : countBets b1 n p = countBets b2 n q := by
  induction n with
  | zero => rfl
  | succ m ih =>
    rw [countBets_succ, countBets_succ, ih (fun j hj => h j (by omega)), h m (by omega)]

theorem countBets_le (bets : Nat → Bet) (n : Nat) (p : Bet → Bool) : countBets bets n p ≤ n := by
  induction n with
  | zero => exact Nat.le_refl 0
  | succ m ih =>
    rw [countBets_succ]
    split <;> omega

theorem countBets_zero (bets : Nat → Bet) (n : Nat) (p : Bet → Bool)
    (h : ∀ j, j < n → p (bets j) = false) : countBets bets n p = 0 := by
  induction n with
  | zero => rfl
  | succ m ih =>
    rw [countBets_succ, ih (fun j hj => h j (by omega)), h m (by omega)]
    rfl

/-- Counting after the sweep: a predicate on the new bets that holds exactly
when one of two exclusive predicates held on the old bets. -/
theorem countBets_split (b1 b2 : Nat → Bet) (n : Nat) (r p q : Bet → Bool)
    (h : ∀ j, j < n → (r (b2 j) = true ↔ (p (b1 j) = true ∨ q (b1 j) = true)) ∧
      ¬ (p (b1 j) = true ∧ q (b1 j) = true)) :
    countBets b2 n r = countBets b1 n p + countBets b1 n q := by
  induction n with
  | zero => rfl
  | succ m ih =>
    rw [countBets_succ, countBets_succ, countBets_succ, ih (fun j hj => h j (by omega))]
    obtain ⟨h1, h2⟩ := h m (by omega)
    by_cases hp : p (b1 m) = true
    · have hq : ¬ q (b1 m) = true := fun hq => h2 ⟨hp, hq⟩
      rw [if_pos (h1.mpr (Or.inl hp)), if_pos hp, if_neg hq]
      omega
    · by_cases hq : q (b1 m) = true
      · rw [if_pos (h1.mpr (Or.inr hq)), if_neg hp, if_pos hq]
        omega
      · have hr : ¬ r (b2 m) = true := by
          intro hr
          rcases h1.mp hr with h3 | h3
          · exact hp h3
          · exact hq h3
        rw [if_neg hr, if_neg hp, if_neg hq]
        omega

/-- Counting after a bet has been stored at slot `n`. -/
theorem countBets_store (bets : Nat → Bet) (n : Nat) (b : Bet) (p : Bet → Bool) :
    countBets (setAt bets n b) (n + 1) p =
      countBets bets n p + (if p b = true then 1 else 0) := by
  rw [countBets_succ]
  have h1 : countBets (setAt bets n b) n p = countBets bets n p := by
    apply countBets_congr
    intro j hj
    have : ¬ j = n := by omega
    simp only [setAt, this, if_false]
  have h2 : setAt bets n b n = b := by
    simp only [setAt, if_true]
  rw [h1, h2]

/-- The counters only read the ledger proper. -/
theorem Counted_of_ledgerEq {s t : CONTRACT_STATE} (h : LedgerEq s t) (hc : Counted s) :
    Counted t := by
  obtain ⟨h1, h2, h3, h4, h5⟩ := hc
  constructor
  · rw [h.eventCount, h.events, h.bets, h.betCount]; exact h1
  · rw [h.eventCount, h.events, h.bets, h.betCount]; exact h2
  · rw [h.userCount, h.users, h.bets, h.betCount]; exact h3
  · rw [h.userCount, h.users, h.bets, h.betCount]; exact h4
  · rw [h.betCount, h.bets]; exact h5

theorem Counted_Initialize (c t : Nat) (s : CONTRACT_STATE) : Counted (Initialize c t s) := by
  obtain ⟨-, -, -, -, -, h6, h7, h8, -, -, h11, h12, hev⟩ := Initialize_fields c t s
  constructor
  · intro i hi
    rw [h7] at hi
    rw [h8, (hev i hi).2.2.2.1]
    rfl
  · intro i hi
    rw [h7] at hi
    rw [h8, (hev i hi).2.2.2.2.1]
    rfl
  · intro i hi
    have : i = 0 := by omega
    subst this
    rw [h8, h11]
    rfl
  · intro i hi
    have : i = 0 := by omega
    subst this
    rw [h8, h12]
    rfl
  · intro j hj
    omega

theorem Counted_RegisterUser (c t : Nat) (input : RegisterUserInput) (s : CONTRACT_STATE)
    (hi : Inv s) (hc : Counted s) : Counted (RegisterUser c t input s).1 := by
  unfold RegisterUser
  by_cases h1 : s.contractActive = 0
  · rw [if_pos h1]; exact hc
  rw [if_neg h1]
  by_cases h2 : s.userCount ≥ MAX_USERS
  · rw [if_pos h2]; exact hc
  rw [if_neg h2]
  have hlt : s.userCount < 10000 := by
    have : ¬ s.userCount ≥ 10000 := h2
    omega
  have hmod : (s.userCount + 1) % 4294967296 = s.userCount + 1 := Nat.mod_eq_of_lt (by omega)
  obtain ⟨c1, c2, c3, c4, c5⟩ := hc
  have hnone : ∀ j, j < s.betCount → ¬ (s.bets j).userId = s.userCount + 1 := by
    intro j hj
    have := (hi.betRefs j hj).2.1
    omega
  constructor
  · exact c1
  · exact c2
  · intro i hlti
    have hlti2 : i < s.userCount + 1 := by
      have : i < (s.userCount + 1) % 4294967296 := hlti
      omega
    show (setAt s.users s.userCount _ i).totalBets =
      countBets s.bets s.betCount (fun b => decide (b.userId = (setAt s.users s.userCount _ i).id))
    by_cases hi0 : i = s.userCount
    · subst hi0
      simp only [setAt, if_true]
      rw [hmod]
      symm
      apply countBets_zero
      intro j hj
      simp only [decide_eq_false_iff_not]
      exact hnone j hj
    · simp only [setAt, hi0, if_false]
      exact c3 i (by omega)
  · intro i hlti
    have hlti2 : i < s.userCount + 1 := by
      have : i < (s.userCount + 1) % 4294967296 := hlti
      omega
    show (setAt s.users s.userCount _ i).totalWins =
      countBets s.bets s.betCount
        (fun b => decide (b.userId = (setAt s.users s.userCount _ i).id ∧ b.isWon = 1))
    by_cases hi0 : i = s.userCount
    · subst hi0
      simp only [setAt, if_true]
      rw [hmod]
      symm
      apply countBets_zero
      intro j hj
      simp only [decide_eq_false_iff_not]
      exact fun h => hnone j hj h.1
    · simp only [setAt, hi0, if_false]
      exact c4 i (by omega)
  · exact c5

theorem Counted_CreateEvent (c t : Nat) (input : CreateEventInput) (s : CONTRACT_STATE)
    (hi : Inv s) (hc : Counted s) : Counted (CreateEvent c t input s).1 := by
  unfold CreateEvent
  by_cases h1 : s.contractActive = 0
  · rw [if_pos h1]; exact hc
  rw [if_neg h1]
  by_cases h2 : s.eventCount ≥ MAX_EVENTS
  · rw [if_pos h2]; exact hc
  rw [if_neg h2]
  by_cases h3 : ¬ c = s.adminId
  · rw [if_pos h3]; exact hc
  rw [if_neg h3]
  have hlt : s.eventCount < 1000 := by
    have : ¬ s.eventCount ≥ 1000 := h2
    omega
  have hmod : (s.eventCount + 1) % 4294967296 = s.eventCount + 1 := Nat.mod_eq_of_lt (by omega)
  obtain ⟨c1, c2, c3, c4, c5⟩ := hc
  have hnone : ∀ j, j < s.betCount → ¬ (s.bets j).eventId = s.eventCount + 1 := by
    intro j hj
    have := (hi.betRefs j hj).2.2.2
    omega
  constructor
  · intro i hlti
    have hlti2 : i < s.eventCount + 1 := by
      have : i < (s.eventCount + 1) % 4294967296 := hlti
      omega
    show (setAt s.events s.eventCount _ i).totalBets =
      countBets s.bets s.betCount
        (fun b => decide (b.eventId = (setAt s.events s.eventCount _ i).id))
    by_cases hi0 : i = s.eventCount
    · subst hi0
      simp only [setAt, if_true]
      rw [hmod]
      symm
      apply countBets_zero
      intro j hj
      simp only [decide_eq_false_iff_not]
      exact hnone j hj
    · simp only [setAt, hi0, if_false]
      exact c1 i (by omega)
  · intro i hlti
    have hlti2 : i < s.eventCount + 1 := by
      have : i < (s.eventCount + 1) % 4294967296 := hlti
      omega
    show (setAt s.events s.eventCount _ i).yesBets =
      countBets s.bets s.betCount
        (fun b => decide (b.eventId = (setAt s.events s.eventCount _ i).id ∧ b.prediction = 1))
    by_cases hi0 : i = s.eventCount
    · subst hi0
      simp only [setAt, if_true]
      rw [hmod]
      symm
      apply countBets_zero
      intro j hj
      simp only [decide_eq_false_iff_not]
      exact fun h => hnone j hj h.1
    · simp only [setAt, hi0, if_false]
      exact c2 i (by omega)
  · exact c3
  · exact c4
  · exact c5

/-- An accepted bet keeps the counters in step with the stored bets. -/
theorem Counted_placeBetEnd (t : Nat) (input : PlaceBetInput) (s : CONTRACT_STATE) (hi : Inv s)
    (hc : Counted s) (ku ke ti : Nat) (hku : ku < s.userCount) (hidu : input.userId = ku + 1)
    (hke : ke < s.eventCount) (hide : input.eventId = ke + 1) (hcap : s.betCount < MAX_BETS) :
    Counted (placeBetEnd s t input ku (s.users ku) ke (s.events ke) ti) := by
  have hcap2 : s.betCount < 100000 := hcap
  have hmod : (s.betCount + 1) % 4294967296 = s.betCount + 1 := Nat.mod_eq_of_lt (by omega)
  obtain ⟨c1, c2, c3, c4, c5⟩ := hc
  have hcY := hi.eventCounters ke hke
  have hcU := hi.userBets ku hku
  have hbets : (placeBetEnd s t input ku (s.users ku) ke (s.events ke) ti).bets =
      setAt s.bets s.betCount (newBet s t input) := rfl
  have hcount : (placeBetEnd s t input ku (s.users ku) ke (s.events ke) ti).betCount =
      s.betCount + 1 := hmod
  have hevents : (placeBetEnd s t input ku (s.users ku) ke (s.events ke) ti).events =
      setAt s.events ke (counted input (s.events ke)) := rfl
  have husers : (placeBetEnd s t input ku (s.users ku) ke (s.events ke) ti).users =
      setAt s.users ku (debited input (s.users ku)) := rfl
  have hcid : (counted input (s.events ke)).id = (s.events ke).id := by
    unfold counted
    split <;> rfl
  have hctot : (counted input (s.events ke)).totalBets = (s.events ke).totalBets + 1 := by
    unfold counted
    split
    · show ((s.events ke).totalBets + 1) % 4294967296 = (s.events ke).totalBets + 1
      omega
    · show ((s.events ke).totalBets + 1) % 4294967296 = (s.events ke).totalBets + 1
      omega
  have hcyes : (counted input (s.events ke)).yesBets =
      (s.events ke).yesBets + (if input.prediction = 1 then 1 else 0) := by
    unfold counted
    by_cases hp : input.prediction = 1
    · rw [if_pos hp, if_pos hp]
      show ((s.events ke).yesBets + 1) % 4294967296 = (s.events ke).yesBets + 1
      omega
    · rw [if_neg hp, if_neg hp]
      rfl
  constructor
  · intro i hlt
    have hlt2 : i < s.eventCount := hlt
    rw [hbets, hcount, hevents, countBets_store]
    by_cases h : i = ke
    · subst h
      simp only [setAt, if_true]
      rw [hcid, hctot, c1 i hke]
      have : (newBet s t input).eventId = (s.events i).id := by
        rw [hi.eventIds i hke]
        exact hide
      simp only [this, decide_True, if_true]
    · simp only [setAt, h, if_false]
      rw [c1 i hlt2]
      have : ¬ (newBet s t input).eventId = (s.events i).id := by
        rw [hi.eventIds i hlt2]
        show ¬ input.eventId = i + 1
        omega
      simp only [this, decide_False, Bool.false_eq_true, if_false, Nat.add_zero]
  · intro i hlt
    have hlt2 : i < s.eventCount := hlt
    rw [hbets, hcount, hevents, countBets_store]
    by_cases h : i = ke
    · subst h
      simp only [setAt, if_true]
      rw [hcid, hcyes, c2 i hke]
      have hid : (newBet s t input).eventId = (s.events i).id := by
        rw [hi.eventIds i hke]
        exact hide
      have hpred : (newBet s t input).prediction = input.prediction := rfl
      by_cases hp : input.prediction = 1
      · simp only [hid, hpred, hp, and_self, decide_True, if_true]
      · simp only [hid, hpred, hp, and_false, decide_False, Bool.false_eq_true, if_false]
    · simp only [setAt, h, if_false]
      rw [c2 i hlt2]
      have : ¬ ((newBet s t input).eventId = (s.events i).id ∧
          (newBet s t input).prediction = 1) := by
        intro hh
        have h1 := hh.1
        rw [hi.eventIds i hlt2] at h1
        have h2 : input.eventId = i + 1 := h1
        omega
      simp only [this, decide_False, Bool.false_eq_true, if_false, Nat.add_zero]
  · intro i hlt
    have hlt2 : i < s.userCount := hlt
    rw [hbets, hcount, husers, countBets_store]
    by_cases h : i = ku
    · subst h
      simp only [setAt, if_true]
      have hd1 : (debited input (s.users i)).id = (s.users i).id := rfl
      have hd2 : (debited input (s.users i)).totalBets = (s.users i).totalBets + 1 := by
        show ((s.users i).totalBets + 1) % 4294967296 = (s.users i).totalBets + 1
        omega
      rw [hd1, hd2, c3 i hku]
      have : (newBet s t input).userId = (s.users i).id := by
        rw [hi.userIds i hku]
        exact hidu
      simp only [this, decide_True, if_true]
    · simp only [setAt, h, if_false]
      rw [c3 i hlt2]
      have : ¬ (newBet s t input).userId = (s.users i).id := by
        rw [hi.userIds i hlt2]
        show ¬ input.userId = i + 1
        omega
      simp only [this, decide_False, Bool.false_eq_true, if_false, Nat.add_zero]
  · intro i hlt
    have hlt2 : i < s.userCount := hlt
    rw [hbets, hcount, husers, countBets_store]
    have hnw : ¬ ((newBet s t input).userId = (setAt s.users ku (debited input (s.users ku)) i).id ∧
        (newBet s t input).isWon = 1) := by
      intro hh
      have h2 : (0 : Nat) = 1 := hh.2
      omega
    simp only [hnw, decide_False, Bool.false_eq_true, if_false, Nat.add_zero]
    by_cases h : i = ku
    · subst h
      simp only [setAt, if_true]
      have hd1 : (debited input (s.users i)).id = (s.users i).id := rfl
      have hd2 : (debited input (s.users i)).totalWins = (s.users i).totalWins := rfl
      rw [hd1, hd2]
      exact c4 i hku
    · simp only [setAt, h, if_false]
      exact c4 i hlt2
  · intro j hlt hp
    rw [hcount] at hlt
    rw [hbets] at hp ⊢
    by_cases h : j = s.betCount
    · subst h
      simp only [setAt, if_true]
      rfl
    · simp only [setAt, h, if_false] at hp ⊢
      exact c5 j (by omega) hp

theorem Counted_PlaceBet (c t : Nat) (input : PlaceBetInput) (s : CONTRACT_STATE) (hi : Inv s)
    (hc : Counted s) : Counted (PlaceBet c t input s).1 := by
  rcases PlaceBet_cases_inv c t input s hi with
    ⟨-, hle⟩ | ⟨ku, ke, ti, h1, h2, h3, h4, h5, -, -, -, heq⟩
  · exact Counted_of_ledgerEq hle hc
  · rw [heq]
    exact Counted_placeBetEnd t input s hi hc ku ke ti h1 h2 h3 h4 h5

theorem userWinCount_countBets (input : ResolveEventInput) (bets : Nat → Bet) (userId n : Nat) :
    userWinCount input bets userId 0 n =
      countBets bets n (fun b => decide (b.userId = userId ∧ b.eventId = input.eventId ∧
        b.isProcessed = 0 ∧ b.prediction = input.correctAnswer)) := by
  rw [userWinCount_range]
  rfl

/-- A settlement keeps the counters in step with the stored bets. -/
theorem Counted_ResolveEvent (c t : Nat) (input : ResolveEventInput) (s : CONTRACT_STATE)
    (hi : Inv s) (hc : Counted s) : Counted (ResolveEvent c t input s).1 := by
  rcases ResolveEvent_cases_inv c t input s hi with
    ⟨-, hle⟩ | ⟨k, hk, hid, -, -, -, -, hfr, hbets, husers⟩
  · exact Counted_of_ledgerEq hle hc
  generalize (ResolveEvent c t input s).1 = r at hfr hbets husers
  have hev : r.events = setAt s.events k
      { s.events k with isResolved := 1, isActive := 0, correctAnswer := input.correctAnswer } :=
    hfr.events
  have huc : r.userCount = s.userCount := hfr.userCount
  have hec : r.eventCount = s.eventCount := hfr.eventCount
  have hbc : r.betCount = s.betCount := hfr.betCount
  obtain ⟨c1, c2, c3, c4, c5⟩ := hc
  have hevf : ∀ i, (r.events i).id = (s.events i).id ∧
      (r.events i).totalBets = (s.events i).totalBets ∧
      (r.events i).yesBets = (s.events i).yesBets := by
    intro i
    rw [hev]
    by_cases h : i = k
    · subst h
      simp [setAt]
    · simp [setAt, h]
  have hsame : ∀ (p : Bet → Bool), (∀ b, p (settled input b) = p b) →
      countBets r.bets s.betCount p = countBets s.bets s.betCount p := by
    intro p hp
    apply countBets_congr
    intro j hj
    rw [hbets j, if_pos hj, hp]
  have hd : DistinctUserIds s.users s.userCount := by
    intro a b ha hb hab
    rw [hi.userIds a ha, hi.userIds b hb] at hab
    omega
  constructor
  · intro i hlt
    rw [hec] at hlt
    obtain ⟨h1, h2, -⟩ := hevf i
    rw [h1, h2, hbc, hsame _ (fun b => by rw [(settled_keeps input b).2.2.1])]
    exact c1 i hlt
  · intro i hlt
    rw [hec] at hlt
    obtain ⟨h1, -, h3⟩ := hevf i
    rw [h1, h3, hbc, hsame _ (fun b => by
      rw [(settled_keeps input b).2.2.1, (settled_keeps input b).2.2.2.1])]
    exact c2 i hlt
  · intro i hlt
    rw [huc] at hlt
    obtain ⟨h1, h2⟩ := creditAll_keeps input s.bets s.userCount s.winReward s.betCount 0 s.users i
    rw [husers, h1, h2, hbc, hsame _ (fun b => by rw [(settled_keeps input b).2.1])]
    exact c3 i hlt
  · intro i hlt
    rw [huc] at hlt
    obtain ⟨h1, -⟩ := creditAll_keeps input s.bets s.userCount s.winReward s.betCount 0 s.users i
    have hsplit : countBets r.bets s.betCount
        (fun b => decide (b.userId = (s.users i).id ∧ b.isWon = 1)) =
        countBets s.bets s.betCount (fun b => decide (b.userId = (s.users i).id ∧ b.isWon = 1)) +
        countBets s.bets s.betCount (fun b => decide (b.userId = (s.users i).id ∧
          b.eventId = input.eventId ∧ b.isProcessed = 0 ∧
          b.prediction = input.correctAnswer)) := by
      apply countBets_split
      intro j hj
      rw [hbets j, if_pos hj]
      simp only [decide_eq_true_eq]
      unfold settled
      by_cases hq : (s.bets j).eventId = input.eventId ∧ (s.bets j).isProcessed = 0
      · have hw0 := c5 j hj hq.2
        rw [if_pos hq]
        by_cases hw : (s.bets j).prediction = input.correctAnswer
        · simp only [hw, if_true, hw0, hq.1, hq.2]
          constructor
          · constructor
            · intro h
              exact Or.inr ⟨h.1, trivial, trivial, trivial⟩
            · intro h
              rcases h with h | h
              · exact absurd h.2 (by decide)
              · exact ⟨h.1, trivial⟩
          · intro h
            exact absurd h.1.2 (by decide)
        · simp only [hw, if_false, hw0, hq.1, hq.2]
          constructor
          · constructor
            · intro h
              exact absurd h.2 (by decide)
            · intro h
              rcases h with h | h
              · exact absurd h.2 (by decide)
              · exact absurd h.2.2.2 (by simp)
          · intro h
            exact absurd h.1.2 (by decide)
      · rw [if_neg hq]
        constructor
        · constructor
          · intro h
            exact Or.inl h
          · intro h
            rcases h with h | h
            · exact h
            · exact absurd ⟨h.2.1, h.2.2.1⟩ hq
        · intro h
          exact hq ⟨h.2.2.1, h.2.2.2.1⟩
    have hnew := countBets_le r.bets s.betCount
      (fun b => decide (b.userId = (s.users i).id ∧ b.isWon = 1))
    have hcapb := hi.betCap
    have hcapb2 : s.betCount ≤ 100000 := hcapb
    have hold := c4 i hlt
    have hcred := creditAll_distinct input s.bets s.userCount s.winReward s.betCount 0 s.users hd i
    rw [if_pos hlt, userWinCount_countBets] at hcred
    rw [husers, h1, hbc, hsplit, ← hold, hcred]
    rw [hsplit, ← hold] at hnew
    unfold creditN
    split
    · rename_i h0
      rw [h0, Nat.add_zero]
    · show ((s.users i).totalWins + _) % 4294967296 = _
      omega
  · intro j hlt hp
    rw [hbc] at hlt
    rw [hbets j, if_pos hlt] at hp ⊢
    unfold settled at hp ⊢
    by_cases hq : (s.bets j).eventId = input.eventId ∧ (s.bets j).isProcessed = 0
    · rw [if_pos hq] at hp
      exact absurd hp Nat.one_ne_zero
    · rw [if_neg hq] at hp ⊢
      exact c5 j hlt hp

/-- Every reachable ledger has its derived counters in step with the bets. -/
theorem Counted_of_reachable (s : CONTRACT_STATE) (h : Reachable s) : Counted s := by
  induction h with
  | init s0 c t => exact Counted_Initialize c t s0
  | step s op hs ih =>
    have hinv := Inv_of_reachable s hs
    cases op with
    | init c t => exact Counted_Initialize c t s
    | register c t i => exact Counted_RegisterUser c t i s hinv ih
    | create c t i => exact Counted_CreateEvent c t i s hinv ih
    | place c t i => exact Counted_PlaceBet c t i s hinv ih
    | resolve c t i => exact Counted_ResolveEvent c t i s hinv ih
    | balance c t i => exact Counted_of_ledgerEq (GetBalance_frame c t i s) ih
    | events c t i => exact Counted_of_ledgerEq (GetEvents_frame c t i s) ih
    | userBets c t i => exact Counted_of_ledgerEq (GetUserBets_frame c t i s) ih

/-- The counting loop of `GetUserBets` adds to `tempCount`, modulo `2^32`, the
number of slots from `tempIndex` on whose bet carries the user id. -/
theorem countUserBetsLoop_count (userId fuel : Nat) (s : CONTRACT_STATE)
    (hfuel : s.tempIndex + fuel = s.betCount) (hc : s.tempCount < 4294967296) :
    (countUserBetsLoop userId fuel s).tempCount =
      (s.tempCount + (List.range' s.tempIndex fuel).countP
        (fun j => decide ((s.bets j).userId = userId))) % 4294967296 := by
  induction fuel generalizing s with
  | zero =>
    simp only [countUserBetsLoop, List.range'_zero, List.countP_nil, Nat.add_zero]
    exact (Nat.mod_eq_of_lt hc).symm
  | succ n ih =>
    have hlt : s.tempIndex < s.betCount := by omega
    unfold countUserBetsLoop
    rw [if_pos hlt, List.range'_succ, List.countP_cons]
    by_cases hm : (s.bets s.tempIndex).userId = userId
    · simp only [hm, if_true, decide_True]
      rw [ih _ (by simp; omega) (by simp; omega)]
      simp only []
      omega
    · simp only [hm, if_false, decide_False, Bool.false_eq_true, Nat.add_zero]
      rw [ih _ (by simp; omega) (by simp; omega)]

/-- The output of `GetUserBets` when `betCount` is a `uint32`: the number of
stored bets that carry the user id. -/
theorem GetUserBets_out (c t : Nat) (input : GetBalanceInput) (s : CONTRACT_STATE)
    (hb : s.betCount < 4294967296) :
    (GetUserBets c t input s).2 =
      { balance := countBets s.bets s.betCount (fun b => decide (b.userId = input.userId))
        success := 1 } := by
  have h := countUserBetsLoop_count input.userId s.betCount
    { s with tempCount := 0, tempIndex := 0 } (by simp) (by simp)
  have hle := countBets_le s.bets s.betCount (fun b => decide (b.userId = input.userId))
  have hcnt : (List.range' 0 s.betCount).countP
      (fun j => decide ((s.bets j).userId = input.userId)) =
      countBets s.bets s.betCount (fun b => decide (b.userId = input.userId)) := by
    unfold countBets
    rw [List.range_eq_range']
  simp only [Nat.zero_add] at h
  rw [hcnt, Nat.mod_eq_of_lt (by omega)] at h
  unfold GetUserBets
  simp only [h]

/-- C17: on a reachable ledger, for every stored event `totalBets` is the
number of stored bets with the event's id and `yesBets` the number of those
with `prediction = 1`; for every stored user `totalBets` is the number of
stored bets with the user's id, which is also what `GetUserBets` returns for
that id, and `totalWins` is the number of those bets with `isWon = 1`. -/
theorem derived_counters (s : CONTRACT_STATE) (hr : Reachable s) :
    (∀ i, i < s.eventCount →
      (s.events i).totalBets =
        (List.range s.betCount).countP
          (fun j => decide ((s.bets j).eventId = (s.events i).id)) ∧
      (s.events i).yesBets =
        (List.range s.betCount).countP
          (fun j => decide ((s.bets j).eventId = (s.events i).id ∧
            (s.bets j).prediction = 1))) ∧
    (∀ i, i < s.userCount →
      (s.users i).totalBets =
        (List.range s.betCount).countP
          (fun j => decide ((s.bets j).userId = (s.users i).id)) ∧
      (∀ c t : Nat, (GetUserBets c t { userId := (s.users i).id } s).2 =
        { balance := (s.users i).totalBets, success := 1 }) ∧
      (s.users i).totalWins =
        (List.range s.betCount).countP
          (fun j => decide ((s.bets j).userId = (s.users i).id ∧ (s.bets j).isWon = 1))) := by
  have hinv := Inv_of_reachable s hr
  have hcnt := Counted_of_reachable s hr
  have hcap : s.betCount ≤ 100000 := hinv.betCap
  constructor
  · intro i hi
    exact ⟨hcnt.eventTotal i hi, hcnt.eventYes i hi⟩
  · intro i hi
    refine ⟨hcnt.userTotal i hi, ?_, hcnt.userWins i hi⟩
    intro c t
    rw [GetUserBets_out c t _ s (by omega), hcnt.userTotal i hi]

/-- C17 at work on the ledger whose event `1` was resolved after two bets of
user `1`: the counters of event `1` and of user `1`. -/
theorem derived_counters_witness :
    ((resolvedState.events 0).totalBets =
        (List.range resolvedState.betCount).countP
          (fun j => decide ((resolvedState.bets j).eventId = (resolvedState.events 0).id)) ∧
      (resolvedState.events 0).yesBets =
        (List.range resolvedState.betCount).countP
          (fun j => decide ((resolvedState.bets j).eventId = (resolvedState.events 0).id ∧
            (resolvedState.bets j).prediction = 1))) ∧
    ((resolvedState.users 0).totalBets =
        (List.range resolvedState.betCount).countP
          (fun j => decide ((resolvedState.bets j).userId = (resolvedState.users 0).id)) ∧
      (∀ c t : Nat, (GetUserBets c t { userId := (resolvedState.users 0).id } resolvedState).2 =
        { balance := (resolvedState.users 0).totalBets, success := 1 }) ∧
      (resolvedState.users 0).totalWins =
        (List.range resolvedState.betCount).countP
          (fun j => decide ((resolvedState.bets j).userId = (resolvedState.users 0).id ∧
            (resolvedState.bets j).isWon = 1))) :=
  ⟨(derived_counters resolvedState resolvedState_reachable).1 0 (by decide),
    (derived_counters resolvedState resolvedState_reachable).2 0 (by decide)⟩

/-! ## What a refused call writes -/

/-- A refused `PlaceBet` hands back the state it was given except, possibly,
for the scratch fields `tempUserId`, `tempUser`, `tempEventId`, `tempEvent` and
`tempIndex` written by its two searches. -/
theorem PlaceBet_fail_state (c t : Nat) (input : PlaceBetInput) (s : CONTRACT_STATE)
    (h : (PlaceBet c t input s).2.success = 0) :
    ∃ ku u0 ke e0 ti, (PlaceBet c t input s).1 =
      { s with tempUserId := ku, tempUser := u0, tempEventId := ke, tempEvent := e0,
               tempIndex := ti } := by
  unfold PlaceBet at h ⊢
  by_cases hact : s.contractActive = 0
  · rw [if_pos hact]
    exact ⟨s.tempUserId, s.tempUser, s.tempEventId, s.tempEvent, s.tempIndex, rfl⟩
  rw [if_neg hact] at h ⊢
  by_cases hfull : s.betCount ≥ MAX_BETS
  · rw [if_pos hfull]
    exact ⟨s.tempUserId, s.tempUser, s.tempEventId, s.tempEvent, s.tempIndex, rfl⟩
  rw [if_neg hfull] at h ⊢
  obtain ⟨ku, u0, ti1, hs1, -⟩ := findUser_spec input.userId s
  simp only [hs1] at h ⊢
  by_cases hnu : ku = 0 ∧ (s.users 0).id ≠ input.userId
  · rw [if_pos hnu]
    exact ⟨ku, u0, s.tempEventId, s.tempEvent, ti1, rfl⟩
  rw [if_neg hnu] at h ⊢
  by_cases hbal : u0.balance < input.amount
  · rw [if_pos hbal]
    exact ⟨ku, u0, s.tempEventId, s.tempEvent, ti1, rfl⟩
  rw [if_neg hbal] at h ⊢
  obtain ⟨ke, e0, ti, hs2, -⟩ := findEvent_spec input.eventId
    { s with tempUserId := ku, tempUser := u0, tempIndex := ti1 }
  simp only [hs2] at h ⊢
  by_cases hne : ke = 0 ∧ (s.events 0).id ≠ input.eventId
  · rw [if_pos hne]
    exact ⟨ku, u0, ke, e0, ti, rfl⟩
  rw [if_neg hne] at h ⊢
  by_cases hclosed : e0.isActive = 0 ∨ e0.isResolved ≠ 0
  · rw [if_pos hclosed]
    exact ⟨ku, u0, ke, e0, ti, rfl⟩
  rw [if_neg hclosed] at h
  exact absurd h Nat.one_ne_zero

/-- A refused `ResolveEvent` hands back the state it was given except,
possibly, for the scratch fields `tempEventId`, `tempEvent` and `tempIndex`
written by its search. -/
theorem ResolveEvent_fail_state (c t : Nat) (input : ResolveEventInput) (s : CONTRACT_STATE)
    (h : (ResolveEvent c t input s).2.success = 0) :
    ∃ ke e0 ti, (ResolveEvent c t input s).1 =
      { s with tempEventId := ke, tempEvent := e0, tempIndex := ti } := by
  unfold ResolveEvent at h ⊢
  by_cases hact : s.contractActive = 0
  · rw [if_pos hact]
    exact ⟨s.tempEventId, s.tempEvent, s.tempIndex, rfl⟩
  rw [if_neg hact] at h ⊢
  by_cases hadm : ¬ c = s.adminId
  · rw [if_pos hadm]
    exact ⟨s.tempEventId, s.tempEvent, s.tempIndex, rfl⟩
  rw [if_neg hadm] at h ⊢
  obtain ⟨ke, e0, ti, hs1, -⟩ := findEvent_spec input.eventId s
  simp only [hs1] at h ⊢
  by_cases hnf : ke = 0 ∧ (s.events 0).id ≠ input.eventId
  · rw [if_pos hnf]
    exact ⟨ke, e0, ti, rfl⟩
  rw [if_neg hnf] at h ⊢
  by_cases hclosed : e0.isActive = 0 ∨ e0.isResolved ≠ 0
  · rw [if_pos hclosed]
    exact ⟨ke, e0, ti, rfl⟩
  rw [if_neg hclosed] at h
  exact absurd h Nat.one_ne_zero

/-- The search of `GetBalance` writes `tempIndex` only. -/
theorem getBalanceLoop_state (userId fuel : Nat) (s : CONTRACT_STATE) :
    ∃ ti, (getBalanceLoop userId fuel s).1 = { s with tempIndex := ti } := by
  induction fuel generalizing s with
  | zero => exact ⟨s.tempIndex, rfl⟩
  | succ n ih =>
    unfold getBalanceLoop
    split
    · split
      · exact ⟨s.tempIndex, rfl⟩
      · obtain ⟨ti, hti⟩ := ih { s with tempIndex := s.tempIndex + 1 }
        exact ⟨ti, by rw [hti]⟩
    · exact ⟨s.tempIndex, rfl⟩

/-- `GetBalance` writes `tempIndex` only. -/
theorem GetBalance_state (c t : Nat) (input : GetBalanceInput) (s : CONTRACT_STATE) :
    ∃ ti, (GetBalance c t input s).1 = { s with tempIndex := ti } := by
  obtain ⟨ti, hti⟩ := getBalanceLoop_state input.userId s.userCount { s with tempIndex := 0 }
  exact ⟨ti, by unfold GetBalance; rw [hti]⟩

/-- C22, as stated, fails: on the ledger with two bets, a `PlaceBet` for the
unknown user id `9`, the admin's `ResolveEvent` of the unknown event id `9` and
a `GetBalance` of the unknown user id `9` all report `success = 0`, and each has
moved the scratch field `tempIndex` (from `0` to `1`, `4` and `1`), so the
complete state after the call is not the state before it. -/
theorem failed_ops_frame_counterexample :
    twoBetState.tempIndex = 0 ∧
    (PlaceBet 3 6 { userId := 9, eventId := 1, prediction := 1, amount := 10 }
      twoBetState).2.success = 0 ∧
    (PlaceBet 3 6 { userId := 9, eventId := 1, prediction := 1, amount := 10 }
      twoBetState).1.tempIndex = 1 ∧
    (ResolveEvent 7 6 { eventId := 9, correctAnswer := 1, confidence := 0 }
      twoBetState).2.success = 0 ∧
    (ResolveEvent 7 6 { eventId := 9, correctAnswer := 1, confidence := 0 }
      twoBetState).1.tempIndex = 4 ∧
    (GetBalance 3 6 { userId := 9 } twoBetState).2.success = 0 ∧
    (GetBalance 3 6 { userId := 9 } twoBetState).1.tempIndex = 1 := by
  decide

/-- C22, amended: for every state, caller and input, a `RegisterUser` or
`CreateEvent` that reports `success = 0` returns the complete state unchanged;
a `PlaceBet` that reports `success = 0` returns the state unchanged except,
possibly, for the scratch fields `tempUserId`, `tempUser`, `tempEventId`,
`tempEvent`, `tempIndex`; a `ResolveEvent` that reports `success = 0` returns
it unchanged except, possibly, for `tempEventId`, `tempEvent`, `tempIndex`; and
a `GetBalance` that reports `success = 0` returns it unchanged except,
possibly, for `tempIndex`.  In all five cases the storage arrays, counts,
settings, stats and admin fields, and the scratch fields `tempCount`,
`tempAmount` and `tempBet`, are those of the state before the call. -/
theorem failed_ops_frame (c t : Nat) (s : CONTRACT_STATE) :
    (∀ input : RegisterUserInput, (RegisterUser c t input s).2.success = 0 →
      (RegisterUser c t input s).1 = s) ∧
    (∀ input : CreateEventInput, (CreateEvent c t input s).2.success = 0 →
      (CreateEvent c t input s).1 = s) ∧
    (∀ input : PlaceBetInput, (PlaceBet c t input s).2.success = 0 →
      ∃ ku u0 ke e0 ti, (PlaceBet c t input s).1 =
        { s with tempUserId := ku, tempUser := u0, tempEventId := ke, tempEvent := e0,
                 tempIndex := ti }) ∧
    (∀ input : ResolveEventInput, (ResolveEvent c t input s).2.success = 0 →
      ∃ ke e0 ti, (ResolveEvent c t input s).1 =
        { s with tempEventId := ke, tempEvent := e0, tempIndex := ti }) ∧
    (∀ input : GetBalanceInput, (GetBalance c t input s).2.success = 0 →
      ∃ ti, (GetBalance c t input s).1 = { s with tempIndex := ti }) := by
  refine ⟨?_, ?_, ?_, ?_, ?_⟩
  · intro input
    unfold RegisterUser
    by_cases h1 : s.contractActive = 0
    · rw [if_pos h1]; intro _; rfl
    rw [if_neg h1]
    by_cases h2 : s.userCount ≥ MAX_USERS
    · rw [if_pos h2]; intro _; rfl
    rw [if_neg h2]
    intro h
    exact absurd h Nat.one_ne_zero
  · intro input
    unfold CreateEvent
    by_cases h1 : s.contractActive = 0
    · rw [if_pos h1]; intro _; rfl
    rw [if_neg h1]
    by_cases h2 : s.eventCount ≥ MAX_EVENTS
    · rw [if_pos h2]; intro _; rfl
    rw [if_neg h2]
    by_cases h3 : ¬ c = s.adminId
    · rw [if_pos h3]; intro _; rfl
    rw [if_neg h3]
    intro h
    exact absurd h Nat.one_ne_zero
  · intro input h
    exact PlaceBet_fail_state c t input s h
  · intro input h
    exact ResolveEvent_fail_state c t input s h
  · intro input _
    exact GetBalance_state c t input s

/-- C22 at work: the refused bet for the unknown user id `9` on the ledger with
two bets. -/
theorem failed_ops_frame_witness :
    ∃ ku u0 ke e0 ti,
      (PlaceBet 3 6 { userId := 9, eventId := 1, prediction := 1, amount := 10 }
        twoBetState).1 =
        { twoBetState with tempUserId := ku, tempUser := u0, tempEventId := ke,
                           tempEvent := e0, tempIndex := ti } :=
  (failed_ops_frame 3 6 twoBetState).2.2.1
    { userId := 9, eventId := 1, prediction := 1, amount := 10 } (by decide)

/-! ## The frame of a settlement -/

/-- C24: for every state and input on which `ResolveEvent` returns
`success = 1`, the three counts are unchanged; a stored bet whose `eventId`
differs from the input's or whose `isProcessed` was already `1` is unchanged;
every stored bet keeps its `id`, `userId`, `eventId`, `prediction`, `amount`
and `createdAt`; there is one slot `k` such that every stored event at another
slot is unchanged, and the stored event at slot `k` (the resolved one) had the
input's id and was Open and changes in `isActive`, `isResolved` and
`correctAnswer` only; so every stored event keeps its `id`, `totalBets`,
`yesBets` and `noBets`. -/
theorem settlement_frame (c t : Nat) (input : ResolveEventInput) (s : CONTRACT_STATE)
    (h : (ResolveEvent c t input s).2.success = 1) :
    (ResolveEvent c t input s).1.betCount = s.betCount ∧
    (ResolveEvent c t input s).1.userCount = s.userCount ∧
    (ResolveEvent c t input s).1.eventCount = s.eventCount ∧
    (∀ i, i < s.betCount →
      ((s.bets i).eventId ≠ input.eventId ∨ (s.bets i).isProcessed = 1) →
      (ResolveEvent c t input s).1.bets i = s.bets i) ∧
    (∀ i, i < s.betCount →
      ((ResolveEvent c t input s).1.bets i).id = (s.bets i).id ∧
      ((ResolveEvent c t input s).1.bets i).userId = (s.bets i).userId ∧
      ((ResolveEvent c t input s).1.bets i).eventId = (s.bets i).eventId ∧
      ((ResolveEvent c t input s).1.bets i).prediction = (s.bets i).prediction ∧
      ((ResolveEvent c t input s).1.bets i).amount = (s.bets i).amount ∧
      ((ResolveEvent c t input s).1.bets i).createdAt = (s.bets i).createdAt) ∧
    (∃ k, (∀ j, j < s.eventCount → j ≠ k → (ResolveEvent c t input s).1.events j = s.events j) ∧
      (k < s.eventCount →
        (s.events k).id = input.eventId ∧ (s.events k).isActive ≠ 0 ∧
        (s.events k).isResolved = 0 ∧
        (ResolveEvent c t input s).1.events k =
          { s.events k with
            isActive := 0, isResolved := 1, correctAnswer := input.correctAnswer })) ∧
    (∀ j, j < s.eventCount →
      ((ResolveEvent c t input s).1.events j).id = (s.events j).id ∧
      ((ResolveEvent c t input s).1.events j).totalBets = (s.events j).totalBets ∧
      ((ResolveEvent c t input s).1.events j).yesBets = (s.events j).yesBets ∧
      ((ResolveEvent c t input s).1.events j).noBets = (s.events j).noBets) := by
  obtain ⟨k, e0, hlook, -, -, ha, hr, hfr, hbets, -, -, -⟩ :=
    ResolveEvent_success_spec c t input s h
  have hev : (ResolveEvent c t input s).1.events = setAt s.events k
      { e0 with isResolved := 1, isActive := 0, correctAnswer := input.correctAnswer } :=
    hfr.events
  have hlook2 : k < s.eventCount → (s.events k).id = input.eventId ∧ e0 = s.events k := by
    intro hk
    rcases hlook with ⟨-, hid, -, he0⟩ | ⟨hc0, -, -, -⟩
    · exact ⟨hid, he0⟩
    · omega
  refine ⟨hfr.betCount, hfr.userCount, hfr.eventCount, ?_, ?_, ?_, ?_⟩
  · intro i hi hcond
    rw [hbets i, if_pos hi]
    unfold settled
    rw [if_neg]
    intro hq
    rcases hcond with h1 | h1
    · exact h1 hq.1
    · rw [hq.2] at h1
      exact absurd h1 Nat.zero_ne_one
  · intro i hi
    rw [hbets i, if_pos hi]
    obtain ⟨h1, h2, h3, h4, h5, h6⟩ := settled_keeps input (s.bets i)
    exact ⟨h1, h2, h3, h4, h5, h6⟩
  · refine ⟨k, ?_, ?_⟩
    · intro j _ hjk
      rw [hev]
      simp only [setAt, hjk, if_false]
    · intro hk
      obtain ⟨hid, he0⟩ := hlook2 hk
      subst he0
      refine ⟨hid, ha, hr, ?_⟩
      rw [hev]
      simp only [setAt, if_true]
  · intro j hj
    rw [hev]
    by_cases hjk : j = k
    · subst hjk
      obtain ⟨-, he0⟩ := hlook2 hj
      subst he0
      simp [setAt]
    · simp [setAt, hjk]

/-- C24 at work: the admin resolves event `1` of the ledger with two bets. -/
theorem settlement_frame_witness :
    (ResolveEvent 7 9 { eventId := 1, correctAnswer := 1, confidence := 0 }
        twoBetState).1.betCount = twoBetState.betCount ∧
      ((ResolveEvent 7 9 { eventId := 1, correctAnswer := 1, confidence := 0 }
        twoBetState).1.bets 1).amount = (twoBetState.bets 1).amount ∧
      ((ResolveEvent 7 9 { eventId := 1, correctAnswer := 1, confidence := 0 }
        twoBetState).1.events 0).totalBets = (twoBetState.events 0).totalBets ∧
      ((ResolveEvent 7 9 { eventId := 1, correctAnswer := 1, confidence := 0 }
        twoBetState).1.events 0).noBets = (twoBetState.events 0).noBets :=
  ⟨(settlement_frame 7 9 { eventId := 1, correctAnswer := 1, confidence := 0 } twoBetState
      (by decide)).1,
    ((settlement_frame 7 9 { eventId := 1, correctAnswer := 1, confidence := 0 } twoBetState
      (by decide)).2.2.2.2.1 1 (by decide)).2.2.2.2.1,
    ((settlement_frame 7 9 { eventId := 1, correctAnswer := 1, confidence := 0 } twoBetState
      (by decide)).2.2.2.2.2.2 0 (by decide)).2.1,
    ((settlement_frame 7 9 { eventId := 1, correctAnswer := 1, confidence := 0 } twoBetState
      (by decide)).2.2.2.2.2.2 0 (by decide)).2.2.2⟩

/-! ## Lookups by id -/

/-- C21: for every state, every input and every two callers, running
`RegisterUser`, `PlaceBet`, `GetBalance`, `GetEvents` or `GetUserBets` as the
one and as the other (same tick) yields the same output record and the same
resulting state.  On every state with at least one stored user and one stored
event, a `PlaceBet` that returns `success = 1` debits the first stored user
whose id is `input.userId` and counts the bet on the first stored event whose
id is `input.eventId`, and writes no other user or event slot.  On every
reachable state that user and that event are the only stored entities with
these ids. -/
theorem lookups_by_id (s : CONTRACT_STATE) (c1 c2 t : Nat) :
    (∀ input, RegisterUser c1 t input s = RegisterUser c2 t input s) ∧
    (∀ input, PlaceBet c1 t input s = PlaceBet c2 t input s) ∧
    (∀ input, GetBalance c1 t input s = GetBalance c2 t input s) ∧
    (∀ input, GetEvents c1 t input s = GetEvents c2 t input s) ∧
    (∀ input, GetUserBets c1 t input s = GetUserBets c2 t input s) ∧
    (1 ≤ s.userCount → 1 ≤ s.eventCount →
      ∀ input, (PlaceBet c1 t input s).2.success = 1 →
        ∃ ku ke, ku < s.userCount ∧ (s.users ku).id = input.userId ∧
          (∀ j, j < ku → (s.users j).id ≠ input.userId) ∧
          ke < s.eventCount ∧ (s.events ke).id = input.eventId ∧
          (∀ j, j < ke → (s.events j).id ≠ input.eventId) ∧
          (PlaceBet c1 t input s).1.users = setAt s.users ku (debited input (s.users ku)) ∧
          (PlaceBet c1 t input s).1.events =
            setAt s.events ke (counted input (s.events ke)) ∧
          (PlaceBet c1 t input s).2.newBalance = (s.users ku).balance - input.amount) ∧
    (Reachable s →
      ∀ input, (PlaceBet c1 t input s).2.success = 1 →
        ∃ ku ke, ku < s.userCount ∧ (s.users ku).id = input.userId ∧
          (∀ j, j < s.userCount → (s.users j).id = input.userId → j = ku) ∧
          ke < s.eventCount ∧ (s.events ke).id = input.eventId ∧
          (∀ j, j < s.eventCount → (s.events j).id = input.eventId → j = ke) ∧
          (PlaceBet c1 t input s).1.users = setAt s.users ku (debited input (s.users ku)) ∧
          (PlaceBet c1 t input s).1.events =
            setAt s.events ke (counted input (s.events ke)) ∧
          (PlaceBet c1 t input s).2.newBalance = (s.users ku).balance - input.amount) := by
  have key : 1 ≤ s.userCount → 1 ≤ s.eventCount →
      ∀ input, (PlaceBet c1 t input s).2.success = 1 →
        ∃ ku ke, ku < s.userCount ∧ (s.users ku).id = input.userId ∧
          (∀ j, j < ku → (s.users j).id ≠ input.userId) ∧
          ke < s.eventCount ∧ (s.events ke).id = input.eventId ∧
          (∀ j, j < ke → (s.events j).id ≠ input.eventId) ∧
          (PlaceBet c1 t input s).1.users = setAt s.users ku (debited input (s.users ku)) ∧
          (PlaceBet c1 t input s).1.events =
            setAt s.events ke (counted input (s.events ke)) ∧
          (PlaceBet c1 t input s).2.newBalance = (s.users ku).balance - input.amount := by
    intro hu he input h
    rcases PlaceBet_cases c1 t input s with
      ⟨hout, -⟩ | ⟨ku, u0, ke, e0, ti, hlu, hle, -, -, -, -, -, heq⟩
    · rw [hout] at h
      exact absurd h Nat.zero_ne_one
    · rcases hlu with ⟨hku, hidu, hminu, hu0⟩ | ⟨hc0, -, -, -⟩
      swap
      · omega
      rcases hle with ⟨hke, hide, hmine, he0⟩ | ⟨hc0, -, -, -⟩
      swap
      · omega
      subst hu0
      subst he0
      refine ⟨ku, ke, hku, hidu, hminu, hke, hide, hmine, ?_, ?_, ?_⟩
      · rw [heq]; rfl
      · rw [heq]; rfl
      · rw [heq]
  refine ⟨fun _ => rfl, fun _ => rfl, fun _ => rfl, fun _ => rfl, fun _ => rfl, key, ?_⟩
  intro hr input h
  have hinv := Inv_of_reachable s hr
  obtain ⟨ku, ke, hku, hidu, -, hke, hide, -, h1, h2, h3⟩ :=
    key hinv.userPos hinv.eventPos input h
  refine ⟨ku, ke, hku, hidu, ?_, hke, hide, ?_, h1, h2, h3⟩
  · intro j hj hid
    have e1 := hinv.userIds j hj
    have e2 := hinv.userIds ku hku
    omega
  · intro j hj hid
    have e1 := hinv.eventIds j hj
    have e3 := hinv.eventIds ke hke
    omega

/-- C21 at work: two callers place the same bet on the fresh ledger, and the
bet is booked on the one stored user and the one stored event with the ids
`1`. -/
theorem lookups_by_id_witness :
    PlaceBet 3 5 { userId := 1, eventId := 1, prediction := 1, amount := 10 } freshState =
      PlaceBet 8 5 { userId := 1, eventId := 1, prediction := 1, amount := 10 } freshState ∧
    (∃ ku ke, ku < freshState.userCount ∧ (freshState.users ku).id = 1 ∧
      (∀ j, j < freshState.userCount → (freshState.users j).id = 1 → j = ku) ∧
      ke < freshState.eventCount ∧ (freshState.events ke).id = 1 ∧
      (∀ j, j < freshState.eventCount → (freshState.events j).id = 1 → j = ke) ∧
      (PlaceBet 3 5 { userId := 1, eventId := 1, prediction := 1, amount := 10 }
        freshState).1.users =
        setAt freshState.users ku
          (debited { userId := 1, eventId := 1, prediction := 1, amount := 10 }
            (freshState.users ku)) ∧
      (PlaceBet 3 5 { userId := 1, eventId := 1, prediction := 1, amount := 10 }
        freshState).1.events =
        setAt freshState.events ke
          (counted { userId := 1, eventId := 1, prediction := 1, amount := 10 }
            (freshState.events ke)) ∧
      (PlaceBet 3 5 { userId := 1, eventId := 1, prediction := 1, amount := 10 }
        freshState).2.newBalance = (freshState.users ku).balance - 10) :=
  ⟨(lookups_by_id freshState 3 8 5).2.1 _,
    (lookups_by_id freshState 3 8 5).2.2.2.2.2.2 freshState_reachable
      { userId := 1, eventId := 1, prediction := 1, amount := 10 } (by decide)⟩

/-! ## Credits stay within the 32-bit range -/

/-- The bets won by a user id after the sweep are those won before and those
that the sweep pays. -/
theorem wins_after_sweep (input : ResolveEventInput) (s : CONTRACT_STATE) (hc : Counted s)
    (userId : Nat) :
    countBets (fun j => settled input (s.bets j)) s.betCount
        (fun b => decide (b.userId = userId ∧ b.isWon = 1)) =
      countBets s.bets s.betCount (fun b => decide (b.userId = userId ∧ b.isWon = 1)) +
      countBets s.bets s.betCount (fun b => decide (b.userId = userId ∧
        b.eventId = input.eventId ∧ b.isProcessed = 0 ∧
        b.prediction = input.correctAnswer)) := by
  apply countBets_split
  intro j hj
  simp only [decide_eq_true_eq]
  unfold settled
  by_cases hq : (s.bets j).eventId = input.eventId ∧ (s.bets j).isProcessed = 0
  · have hw0 := hc.unprocessedLost j hj hq.2
    rw [if_pos hq]
    by_cases hw : (s.bets j).prediction = input.correctAnswer
    · simp only [hw, if_true, hw0, hq.1, hq.2]
      constructor
      · constructor
        · intro h
          exact Or.inr ⟨h.1, trivial, trivial, trivial⟩
        · intro h
          rcases h with h | h
          · exact absurd h.2 (by decide)
          · exact ⟨h.1, trivial⟩
      · intro h
        exact absurd h.1.2 (by decide)
    · simp only [hw, if_false, hw0, hq.1, hq.2]
      constructor
      · constructor
        · intro h
          exact absurd h.2 (by decide)
        · intro h
          rcases h with h | h
          · exact absurd h.2 (by decide)
          · exact absurd h.2.2.2 (by simp)
      · intro h
        exact absurd h.1.2 (by decide)
  · rw [if_neg hq]
    constructor
    · constructor
      · intro h
        exact Or.inl h
      · intro h
        rcases h with h | h
        · exact h
        · exact absurd ⟨h.2.1, h.2.2.1⟩ hq
    · intro h
      exact hq ⟨h.2.2.1, h.2.2.2.1⟩

/-- On a ledger with the invariants, the wins a user has and the wins a sweep
would add are together at most `betCount`. -/
theorem wins_bound (input : ResolveEventInput) (s : CONTRACT_STATE) (hc : Counted s)
    (i : Nat) (hi : i < s.userCount) :
    (s.users i).totalWins + userWinCount input s.bets (s.users i).id 0 s.betCount ≤
      s.betCount := by
  have h1 := wins_after_sweep input s hc (s.users i).id
  have h2 := countBets_le (fun j => settled input (s.bets j)) s.betCount
    (fun b => decide (b.userId = (s.users i).id ∧ b.isWon = 1))
  rw [h1, ← hc.userWins i hi, ← userWinCount_countBets] at h2
  exact h2

/-- A successful settlement on a ledger with the invariants: the user at a
stored slot receives its credits without reduction modulo `2^32`. -/
theorem ResolveEvent_exact_credit (c t : Nat) (input : ResolveEventInput) (s : CONTRACT_STATE)
    (hinv : Inv s) (hc : Counted s) (hs : Solvent s)
    (h : (ResolveEvent c t input s).2.success = 1) (i : Nat) (hi : i < s.userCount) :
    ((ResolveEvent c t input s).1.users i).balance =
        (s.users i).balance + userWinCount input s.bets (s.users i).id 0 s.betCount * 20 ∧
      ((ResolveEvent c t input s).1.users i).totalWins =
        (s.users i).totalWins + userWinCount input s.bets (s.users i).id 0 s.betCount ∧
      (s.users i).balance + userWinCount input s.bets (s.users i).id 0 s.betCount * 20 ≤
        2000100 := by
  obtain ⟨_, _, -, -, -, -, -, -, -, husers, -, -⟩ := ResolveEvent_success_spec c t input s h
  have hd : DistinctUserIds s.users s.userCount := by
    intro a b ha hb hab
    rw [hinv.userIds a ha, hinv.userIds b hb] at hab
    omega
  have hcred := creditAll_distinct input s.bets s.userCount s.winReward s.betCount 0 s.users hd i
  rw [if_pos hi] at hcred
  have hb := wins_bound input s hc i hi
  have hcap : s.betCount ≤ 100000 := hinv.betCap
  have hsol : (s.users i).balance ≤ 100 + 20 * (s.users i).totalWins := hs i hi
  have hw : s.winReward = 20 := hinv.reward
  rw [husers, hcred, hw]
  unfold creditN
  split
  · rename_i h0
    rw [h0]
    refine ⟨by omega, by omega, by omega⟩
  · refine ⟨?_, ?_, by omega⟩
    · show ((s.users i).balance + _ * 20) % 4294967296 = _
      omega
    · show ((s.users i).totalWins + _) % 4294967296 = _
      omega

theorem Solvent_of_ledgerEq {s t : CONTRACT_STATE} (h : LedgerEq s t) (hs : Solvent s) :
    Solvent t := by
  intro i hi
  rw [h.userCount] at hi
  rw [h.users]
  exact hs i hi

theorem Solvent_Initialize (c t : Nat) (s : CONTRACT_STATE) : Solvent (Initialize c t s) := by
  obtain ⟨-, -, -, -, -, h6, -, -, -, h10, -, h12, -⟩ := Initialize_fields c t s
  intro i hi
  have : i = 0 := by omega
  subst this
  rw [h10, h12]
  decide

theorem Solvent_RegisterUser (c t : Nat) (input : RegisterUserInput) (s : CONTRACT_STATE)
    (hi : Inv s) (hs : Solvent s) : Solvent (RegisterUser c t input s).1 := by
  unfold RegisterUser
  by_cases h1 : s.contractActive = 0
  · rw [if_pos h1]; exact hs
  rw [if_neg h1]
  by_cases h2 : s.userCount ≥ MAX_USERS
  · rw [if_pos h2]; exact hs
  rw [if_neg h2]
  have hlt : s.userCount < 10000 := by
    have : ¬ s.userCount ≥ 10000 := h2
    omega
  intro i hlti
  have hlti2 : i < s.userCount + 1 := by
    have : i < (s.userCount + 1) % 4294967296 := hlti
    omega
  show (setAt s.users s.userCount _ i).balance ≤
    DEFAULT_BALANCE + WIN_REWARD * (setAt s.users s.userCount _ i).totalWins
  by_cases hi0 : i = s.userCount
  · subst hi0
    simp only [setAt, if_true]
    rw [hi.startBalance]
    exact Nat.le_add_right _ _
  · simp only [setAt, hi0, if_false]
    exact hs i (by omega)

theorem Solvent_CreateEvent (c t : Nat) (input : CreateEventInput) (s : CONTRACT_STATE)
    (hs : Solvent s) : Solvent (CreateEvent c t input s).1 := by
  unfold CreateEvent
  by_cases h1 : s.contractActive = 0
  · rw [if_pos h1]; exact hs
  rw [if_neg h1]
  by_cases h2 : s.eventCount ≥ MAX_EVENTS
  · rw [if_pos h2]; exact hs
  rw [if_neg h2]
  by_cases h3 : ¬ c = s.adminId
  · rw [if_pos h3]; exact hs
  rw [if_neg h3]
  exact hs

theorem Solvent_PlaceBet (c t : Nat) (input : PlaceBetInput) (s : CONTRACT_STATE)
    (hi : Inv s) (hs : Solvent s) : Solvent (PlaceBet c t input s).1 := by
  rcases PlaceBet_cases_inv c t input s hi with
    ⟨-, hle⟩ | ⟨ku, ke, ti, hku, -, -, -, -, -, -, -, heq⟩
  · exact Solvent_of_ledgerEq hle hs
  · rw [heq]
    intro i hlt
    have hlt2 : i < s.userCount := hlt
    show (setAt s.users ku (debited input (s.users ku)) i).balance ≤
      DEFAULT_BALANCE + WIN_REWARD * (setAt s.users ku (debited input (s.users ku)) i).totalWins
    by_cases h : i = ku
    · subst h
      simp only [setAt, if_true]
      have := hs i hku
      show (s.users i).balance - input.amount ≤
        DEFAULT_BALANCE + WIN_REWARD * (s.users i).totalWins
      omega
    · simp only [setAt, h, if_false]
      exact hs i hlt2

theorem Solvent_ResolveEvent (c t : Nat) (input : ResolveEventInput) (s : CONTRACT_STATE)
    (hi : Inv s) (hc : Counted s) (hs : Solvent s) : Solvent (ResolveEvent c t input s).1 := by
  by_cases h : (ResolveEvent c t input s).2.success = 1
  · intro i hlt
    obtain ⟨_, _, -, -, -, -, -, hfr, -, -, -, -⟩ := ResolveEvent_success_spec c t input s h
    have huc : (ResolveEvent c t input s).1.userCount = s.userCount := hfr.userCount
    rw [huc] at hlt
    obtain ⟨h1, h2, -⟩ := ResolveEvent_exact_credit c t input s hi hc hs h i hlt
    rw [h1, h2]
    have := hs i hlt
    show _ ≤ 100 + 20 * _
    have h3 : (s.users i).balance ≤ 100 + 20 * (s.users i).totalWins := this
    omega
  · rcases ResolveEvent_cases c t input s with ⟨-, hle⟩ | ⟨k, e0, -, -, -, -, -, heq⟩
    · exact Solvent_of_ledgerEq hle hs
    · exfalso
      apply h
      rw [heq]

/-- Every reachable ledger is solvent. -/
theorem Solvent_of_reachable (s : CONTRACT_STATE) (h : Reachable s) : Solvent s := by
  induction h with
  | init s0 c t => exact Solvent_Initialize c t s0
  | step s op hs ih =>
    have hinv := Inv_of_reachable s hs
    have hcnt := Counted_of_reachable s hs
    cases op with
    | init c t => exact Solvent_Initialize c t s
    | register c t i => exact Solvent_RegisterUser c t i s hinv ih
    | create c t i => exact Solvent_CreateEvent c t i s ih
    | place c t i => exact Solvent_PlaceBet c t i s hinv ih
    | resolve c t i => exact Solvent_ResolveEvent c t i s hinv hcnt ih
    | balance c t i => exact Solvent_of_ledgerEq (GetBalance_frame c t i s) ih
    | events c t i => exact Solvent_of_ledgerEq (GetEvents_frame c t i s) ih
    | userBets c t i => exact Solvent_of_ledgerEq (GetUserBets_frame c t i s) ih

/-- C26: on a reachable ledger every stored user's balance is at most
`defaultBalance + winReward * w`, `w` being the number of stored bets of that
user with `isWon = 1`, and that bound is at most `100 + 20 * 100000`; and in a
successful `ResolveEvent` no addition wraps: every stored user ends with
balance `old + k * winReward` and `totalWins = old + k` as natural numbers,
both below `2^32` (`k` the number of the user's bets that the sweep pays), and
`totalPayout = winnersCount * winReward` as natural numbers, below `2^32`. -/
theorem credits_never_overflow (s : CONTRACT_STATE) (hr : Reachable s) :
    (∀ i, i < s.userCount →
      (s.users i).balance ≤ s.defaultBalance + s.winReward *
        (List.range s.betCount).countP
          (fun j => decide ((s.bets j).userId = (s.users i).id ∧ (s.bets j).isWon = 1)) ∧
      s.defaultBalance + s.winReward *
        (List.range s.betCount).countP
          (fun j => decide ((s.bets j).userId = (s.users i).id ∧ (s.bets j).isWon = 1)) ≤
        100 + 20 * 100000) ∧
    (∀ (c t : Nat) (input : ResolveEventInput), (ResolveEvent c t input s).2.success = 1 →
      (∀ i, i < s.userCount → ∀ k,
        k = (List.range s.betCount).countP (fun j =>
          decide ((s.bets j).userId = (s.users i).id ∧ (s.bets j).eventId = input.eventId ∧
            (s.bets j).isProcessed = 0 ∧ (s.bets j).prediction = input.correctAnswer)) →
        ((ResolveEvent c t input s).1.users i).balance =
          (s.users i).balance + k * s.winReward ∧
        (s.users i).balance + k * s.winReward < 4294967296 ∧
        ((ResolveEvent c t input s).1.users i).totalWins = (s.users i).totalWins + k ∧
        (s.users i).totalWins + k < 4294967296) ∧
      (ResolveEvent c t input s).2.totalPayout =
        (ResolveEvent c t input s).2.winnersCount * s.winReward ∧
      (ResolveEvent c t input s).2.winnersCount * s.winReward < 4294967296) := by
  have hinv := Inv_of_reachable s hr
  have hcnt := Counted_of_reachable s hr
  have hsol := Solvent_of_reachable s hr
  have hcap : s.betCount ≤ 100000 := hinv.betCap
  have hw : s.winReward = 20 := hinv.reward
  have hdb : s.defaultBalance = 100 := hinv.startBalance
  constructor
  · intro i hi
    have h1 : (s.users i).balance ≤ 100 + 20 * (s.users i).totalWins := hsol i hi
    have h2 := hcnt.userWins i hi
    have h3 := countBets_le s.bets s.betCount
      (fun b => decide (b.userId = (s.users i).id ∧ b.isWon = 1))
    have h4 : countBets s.bets s.betCount
        (fun b => decide (b.userId = (s.users i).id ∧ b.isWon = 1)) =
        (List.range s.betCount).countP
          (fun j => decide ((s.bets j).userId = (s.users i).id ∧ (s.bets j).isWon = 1)) := rfl
    rw [h4] at h2 h3
    rw [hw, hdb, ← h2]
    omega
  · intro c t input h
    obtain ⟨_, _, -, -, -, -, -, -, -, -, hwc, htp⟩ := ResolveEvent_success_spec c t input s h
    have hle := winCount_le input s.bets 0 s.betCount
    refine ⟨?_, ?_, ?_⟩
    · intro i hi k hk
      obtain ⟨h1, h2, h3⟩ := ResolveEvent_exact_credit c t input s hinv hcnt hsol h i hi
      have hb := wins_bound input s hcnt i hi
      rw [userWinCount_range, ← hk] at h1 h2 h3 hb
      rw [h1, h2, hw]
      exact ⟨rfl, by omega, rfl, by omega⟩
    · rw [hw] at htp ⊢
      rw [hwc, htp, Nat.mod_eq_of_lt (by omega : winCount input s.bets 0 s.betCount < 4294967296),
        Nat.mod_eq_of_lt (by omega : winCount input s.bets 0 s.betCount * 20 < 4294967296)]
    · rw [hwc, hw,
        Nat.mod_eq_of_lt (by omega : winCount input s.bets 0 s.betCount < 4294967296)]
      omega

/-- C26 at work on the ledger with two bets: the balance bound of user `1`,
and the exact credit when the admin resolves event `1` with YES. -/
theorem credits_never_overflow_witness :
    ((twoBetState.users 0).balance ≤ twoBetState.defaultBalance + twoBetState.winReward *
        (List.range twoBetState.betCount).countP
          (fun j => decide ((twoBetState.bets j).userId = (twoBetState.users 0).id ∧
            (twoBetState.bets j).isWon = 1)) ∧
      twoBetState.defaultBalance + twoBetState.winReward *
        (List.range twoBetState.betCount).countP
          (fun j => decide ((twoBetState.bets j).userId = (twoBetState.users 0).id ∧
            (twoBetState.bets j).isWon = 1)) ≤ 100 + 20 * 100000) ∧
    (((ResolveEvent 7 9 { eventId := 1, correctAnswer := 1, confidence := 0 }
        twoBetState).1.users 0).balance = (twoBetState.users 0).balance + 1 * twoBetState.winReward ∧
      (twoBetState.users 0).balance + 1 * twoBetState.winReward < 4294967296 ∧
      ((ResolveEvent 7 9 { eventId := 1, correctAnswer := 1, confidence := 0 }
        twoBetState).1.users 0).totalWins = (twoBetState.users 0).totalWins + 1 ∧
      (twoBetState.users 0).totalWins + 1 < 4294967296) :=
  ⟨(credits_never_overflow twoBetState twoBetState_reachable).1 0 (by decide),
    ((credits_never_overflow twoBetState twoBetState_reachable).2 7 9
      { eventId := 1, correctAnswer := 1, confidence := 0 } (by decide)).1 0 (by decide) 1
      (by decide)⟩

/-! ## Winners and outcome counters -/

/-- On a reachable ledger, a successful `ResolveEvent` of the event at slot `k`
returns as `winnersCount` the number of stored bets on that event whose
prediction byte is the answer; with the answer `1` that is the event's
`yesBets`, and with the answer `0` it is the event's `noBets` provided every
stored bet on the event has a prediction byte of `0` or `1`. -/
theorem winnersCount_vs_counters (s : CONTRACT_STATE) (hr : Reachable s) (c t : Nat)
    (input : ResolveEventInput) (h : (ResolveEvent c t input s).2.success = 1) :
    ∃ k, k < s.eventCount ∧ (s.events k).id = input.eventId ∧
      (ResolveEvent c t input s).2.winnersCount =
        countBets s.bets s.betCount
          (fun b => decide (b.eventId = (s.events k).id ∧
            b.prediction = input.correctAnswer)) ∧
      (input.correctAnswer = 1 →
        (ResolveEvent c t input s).2.winnersCount = (s.events k).yesBets) ∧
      (input.correctAnswer = 0 →
        (∀ j, j < s.betCount → (s.bets j).eventId = input.eventId →
          (s.bets j).prediction ≤ 1) →
        (ResolveEvent c t input s).2.winnersCount = (s.events k).noBets) := by
  have hinv := Inv_of_reachable s hr
  have hcnt := Counted_of_reachable s hr
  have hcap : s.betCount ≤ 100000 := hinv.betCap
  rcases ResolveEvent_cases_inv c t input s hinv with
    ⟨hout, -⟩ | ⟨k, hk, hid, -, -, hres, -, -, -, -⟩
  · rw [hout] at h
    exact absurd h Nat.zero_ne_one
  obtain ⟨_, _, -, -, -, -, -, -, -, -, hwc, -⟩ := ResolveEvent_success_spec c t input s h
  have hle := winCount_le input s.bets 0 s.betCount
  have hkid : (s.events k).id = input.eventId := by rw [hinv.eventIds k hk, hid]
  have hopen : ∀ j, j < s.betCount → (s.bets j).eventId = input.eventId →
      (s.bets j).isProcessed = 0 := by
    intro j hj hje
    rcases hinv.betFlags j hj with ⟨h0, -⟩ | ⟨-, h1⟩
    · exact h0
    · have hidx : (s.bets j).eventId - 1 = k := by omega
      rw [hidx, hres] at h1
      exact absurd h1 Nat.zero_ne_one
  have hwin : (ResolveEvent c t input s).2.winnersCount =
      countBets s.bets s.betCount
        (fun b => decide (b.eventId = (s.events k).id ∧
          b.prediction = input.correctAnswer)) := by
    rw [hwc, Nat.mod_eq_of_lt (by omega), winCount_range]
    show countBets s.bets s.betCount (fun b => decide (b.eventId = input.eventId ∧
      b.isProcessed = 0 ∧ b.prediction = input.correctAnswer)) = _
    apply countBets_congr
    intro j hj
    rw [hkid]
    by_cases hje : (s.bets j).eventId = input.eventId
    · simp only [hje, hopen j hj hje, true_and]
    · simp only [hje, false_and]
  refine ⟨k, hk, hkid, hwin, ?_, ?_⟩
  · intro ha
    rw [hwin, ha]
    exact (hcnt.eventYes k hk).symm
  · intro ha hbin
    have hsum := (hinv.eventCounters k hk).1
    have htot := hcnt.eventTotal k hk
    have hyes := hcnt.eventYes k hk
    have hsplit : countBets s.bets s.betCount (fun b => decide (b.eventId = (s.events k).id)) =
        countBets s.bets s.betCount
          (fun b => decide (b.eventId = (s.events k).id ∧ b.prediction = 1)) +
        countBets s.bets s.betCount
          (fun b => decide (b.eventId = (s.events k).id ∧ b.prediction = 0)) := by
      apply countBets_split
      intro j hj
      simp only [decide_eq_true_eq]
      constructor
      · constructor
        · intro he
          have := hbin j hj (by rw [← hkid]; exact he)
          have hp : (s.bets j).prediction = 1 ∨ (s.bets j).prediction = 0 := by omega
          rcases hp with hp | hp
          · exact Or.inl ⟨he, hp⟩
          · exact Or.inr ⟨he, hp⟩
        · intro hh
          rcases hh with hh | hh
          · exact hh.1
          · exact hh.1
      · intro hh
        have h1 := hh.1.2
        have h0 := hh.2.2
        omega
    rw [hwin, ha]
    omega

/-- The ledger with the odd bet is reachable. -/
theorem oddBetState_reachable : Reachable oddBetState :=
  Reachable.step _ (Op.place 3 5 { userId := 1, eventId := 1, prediction := 2, amount := 10 })
    freshState_reachable

/-- C25, the code at the failing input: `PlaceBet` accepts a bet on event `1`
with the prediction byte `2` and counts it in `noBets`; the admin's
`ResolveEvent` of event `1` with `correctAnswer = 0` then succeeds with
`winnersCount = 0`, while the event's `noBets` is `1`. -/
theorem winners_vs_noBets_divergence :
    (PlaceBet 3 5 { userId := 1, eventId := 1, prediction := 2, amount := 10 }
      freshState).2.success = 1 ∧
    (oddBetState.events 0).id = 1 ∧ (oddBetState.events 0).noBets = 1 ∧
    (oddBetState.events 0).yesBets = 0 ∧
    (ResolveEvent 7 9 { eventId := 1, correctAnswer := 0, confidence := 0 } oddBetState).2 =
      { winnersCount := 0, totalPayout := 0, success := 1 } := by
  decide

/-! ## The draft resolveEvent of PredictoR.h -/

/-- The draft `resolveEvent` never touches the bet and user collections and
always returns `winnersCount = 0` and `totalPayout = 0`; on success the event
at the head of the caller's queue is closed with the answer. -/
theorem draft_resolveEvent_frame (c t : Nat) (input : PredictoR.ResolveEventInput)
    (s : PredictoR.CONTRACT_STATE) :
    (PredictoR.resolveEvent c t input s).1.bets = s.bets ∧
    (PredictoR.resolveEvent c t input s).1.users = s.users ∧
    (PredictoR.resolveEvent c t input s).2.winnersCount = 0 ∧
    (PredictoR.resolveEvent c t input s).2.totalPayout = 0 ∧
    ((PredictoR.resolveEvent c t input s).2.success = 1 →
      s.contractActive ≠ 0 ∧ c = s.adminId ∧ s.events.heads c ≠ PredictoR.NULL_INDEX ∧
      (s.events.elements (s.events.heads c)).isActive ≠ 0 ∧
      (s.events.elements (s.events.heads c)).isResolved = 0 ∧
      (PredictoR.resolveEvent c t input s).1.events.elements (s.events.heads c) =
        { s.events.elements (s.events.heads c) with
          isResolved := 1, isActive := 0, correctAnswer := input.correctAnswer }) := by
  unfold PredictoR.resolveEvent
  simp only [PredictoR.Collection.headIndex, PredictoR.Collection.element,
    PredictoR.Collection.replace]
  by_cases h1 : s.contractActive = 0
  · simp [h1]
  by_cases h2 : c ≠ s.adminId
  · simp [h1, h2]
  by_cases h3 : s.events.heads c = PredictoR.NULL_INDEX
  · simp [h1, h2, h3]
  by_cases h4 : (s.events.elements (s.events.heads c)).isActive = 0 ∨
      (s.events.elements (s.events.heads c)).isResolved ≠ 0
  · simp [h1, h2, h3, h4]
  · have h2c : c = s.adminId := not_not.mp h2
    have h4a : (s.events.elements (s.events.heads c)).isActive ≠ 0 := fun h => h4 (Or.inl h)
    have h4b : (s.events.elements (s.events.heads c)).isResolved = 0 :=
      not_not.mp (fun h => h4 (Or.inr h))
    subst h2c
    simp [h1, h3, h4a, h4b]

/-- C23, the code at the failing input.  Caller `7` sets the draft up on zeroed
memory, registers (user id `1`, balance `100`), creates an event (event id
`1`) and places a YES bet of `10` on it (bet id `1`, new balance `90`); every
call succeeds.  The admin then resolves event `1` with the answer YES:
`resolveEvent` returns `success = 1` with `winnersCount = 0` and
`totalPayout = 0`, the stored event is closed, and afterwards the stored bet
still has `isProcessed = 0` and `isWon = 0` and the bettor still has the
balance `90`. -/
theorem draft_resolveEvent_skips_bets :
    (PredictoR.registerUser 7 2 { username := cstr "admin", password := cstr "secret" }
      PredictoR.draftStart).2 = { userId := 1, balance := 100, success := 1 } ∧
    (PredictoR.createEvent 7 3
      { title := cstr "Rain tomorrow?", description := cstr "Will it rain tomorrow?",
        category := cstr "Weather", endsAt := 1000 } PredictoR.draftUser).2 =
      { eventId := 1, success := 1 } ∧
    (PredictoR.placeBet 7 4 { userId := 1, eventId := 1, prediction := 1, amount := 10 }
      PredictoR.draftEvent).2 = { betId := 1, newBalance := 90, success := 1 } ∧
    PredictoR.draftState.adminId = 7 ∧ PredictoR.draftState.winReward = 20 ∧
    PredictoR.draftState.events.heads 7 = 0 ∧
    (PredictoR.draftState.events.elements 0).isActive = 1 ∧
    (PredictoR.draftState.events.elements 0).isResolved = 0 ∧
    PredictoR.draftState.bets.heads 7 = 0 ∧
    PredictoR.draftState.bets.elements 0 =
      { userId := 1, eventId := 1, prediction := 1, amount := 10, createdAt := 4,
        isWon := 0, isProcessed := 0 } ∧
    PredictoR.draftState.users.heads 7 = 0 ∧
    (PredictoR.draftState.users.elements 0).balance = 90 ∧
    (PredictoR.resolveEvent 7 5 { eventId := 1, correctAnswer := 1, confidence := 0 }
      PredictoR.draftState).2 = { winnersCount := 0, totalPayout := 0, success := 1 } ∧
    ((PredictoR.resolveEvent 7 5 { eventId := 1, correctAnswer := 1, confidence := 0 }
      PredictoR.draftState).1.events.elements 0).isResolved = 1 ∧
    (PredictoR.resolveEvent 7 5 { eventId := 1, correctAnswer := 1, confidence := 0 }
      PredictoR.draftState).1.bets.elements 0 =
      { userId := 1, eventId := 1, prediction := 1, amount := 10, createdAt := 4,
        isWon := 0, isProcessed := 0 } ∧
    ((PredictoR.resolveEvent 7 5 { eventId := 1, correctAnswer := 1, confidence := 0 }
      PredictoR.draftState).1.users.elements 0).balance = 90 := by
  decide

/-! ## What a run can observe of the stores -/

theorem sameLedger_refl (s : CONTRACT_STATE) : SameLedger s s :=
  ⟨s.users, s.events, s.bets, rfl, fun _ _ => rfl, fun _ _ => rfl, fun _ _ => rfl⟩

theorem findUserLoop_stores (userId fuel : Nat) (s : CONTRACT_STATE) (u : Nat → User)
    (e : Nat → Event) (b : Nat → Bet) (hu : ∀ i, i < s.userCount → u i = s.users i) :
    findUserLoop userId fuel (withStores s u e b) =
      withStores (findUserLoop userId fuel s) u e b := by
  induction fuel generalizing s with
  | zero => rfl
  | succ n ih =>
    by_cases hlt : s.tempIndex < s.userCount
    · have hus := hu _ hlt
      by_cases hid : (s.users s.tempIndex).id = userId
      · simp only [findUserLoop, withStores, hlt, hid, hus, if_true]
      · have := ih { s with tempIndex := s.tempIndex + 1 } hu
        simp only [findUserLoop, withStores, hlt, hid, hus, if_true, if_false]
        exact this
    · simp only [findUserLoop, withStores, hlt, if_false]

theorem findEventLoop_stores (eventId fuel : Nat) (s : CONTRACT_STATE) (u : Nat → User)
    (e : Nat → Event) (b : Nat → Bet) (he : ∀ i, i < s.eventCount → e i = s.events i) :
    findEventLoop eventId fuel (withStores s u e b) =
      withStores (findEventLoop eventId fuel s) u e b := by
  induction fuel generalizing s with
  | zero => rfl
  | succ n ih =>
    by_cases hlt : s.tempIndex < s.eventCount
    · have hes := he _ hlt
      by_cases hid : (s.events s.tempIndex).id = eventId
      · simp only [findEventLoop, withStores, hlt, hid, hes, if_true]
      · have := ih { s with tempIndex := s.tempIndex + 1 } he
        simp only [findEventLoop, withStores, hlt, hid, hes, if_true, if_false]
        exact this
    · simp only [findEventLoop, withStores, hlt, if_false]

theorem getBalanceLoop_stores (userId fuel : Nat) (s : CONTRACT_STATE) (u : Nat → User)
    (e : Nat → Event) (b : Nat → Bet) (hu : ∀ i, i < s.userCount → u i = s.users i) :
    getBalanceLoop userId fuel (withStores s u e b) =
      (withStores (getBalanceLoop userId fuel s).1 u e b, (getBalanceLoop userId fuel s).2) := by
  induction fuel generalizing s with
  | zero => rfl
  | succ n ih =>
    by_cases hlt : s.tempIndex < s.userCount
    · have hus := hu _ hlt
      by_cases hid : (s.users s.tempIndex).id = userId
      · simp only [getBalanceLoop, withStores, hlt, hid, hus, if_true]
      · have := ih { s with tempIndex := s.tempIndex + 1 } hu
        simp only [getBalanceLoop, withStores, hlt, hid, hus, if_true, if_false]
        exact this
    · simp only [getBalanceLoop, withStores, hlt, if_false]

theorem countActiveLoop_stores (fuel : Nat) (s : CONTRACT_STATE) (u : Nat → User)
    (e : Nat → Event) (b : Nat → Bet) (he : ∀ i, i < s.eventCount → e i = s.events i) :
    countActiveLoop fuel (withStores s u e b) =
      withStores (countActiveLoop fuel s) u e b := by
  induction fuel generalizing s with
  | zero => rfl
  | succ n ih =>
    by_cases hlt : s.tempIndex < s.eventCount
    · have hes := he _ hlt
      by_cases ha : ¬ (s.events s.tempIndex).isActive = 0
      · have := ih { s with
          tempCount := (s.tempCount + 1) % 4294967296
          tempIndex := s.tempIndex + 1 } he
        simp only [countActiveLoop, withStores, hlt, ha, hes, if_true, ne_eq,
          not_false_eq_true]
        exact this
      · have := ih { s with tempIndex := s.tempIndex + 1 } he
        simp only [countActiveLoop, withStores, hlt, ha, hes, if_true, if_false, ne_eq,
          not_true_eq_false]
        exact this
    · simp only [countActiveLoop, withStores, hlt, if_false]

theorem countUserBetsLoop_stores (userId fuel : Nat) (s : CONTRACT_STATE) (u : Nat → User)
    (e : Nat → Event) (b : Nat → Bet) (hb : ∀ i, i < s.betCount → b i = s.bets i) :
    countUserBetsLoop userId fuel (withStores s u e b) =
      withStores (countUserBetsLoop userId fuel s) u e b := by
  induction fuel generalizing s with
  | zero => rfl
  | succ n ih =>
    by_cases hlt : s.tempIndex < s.betCount
    · have hbs := hb _ hlt
      by_cases ha : (s.bets s.tempIndex).userId = userId
      · have := ih { s with
          tempCount := (s.tempCount + 1) % 4294967296
          tempIndex := s.tempIndex + 1 } hb
        simp only [countUserBetsLoop, withStores, hlt, ha, hbs, if_true]
        exact this
      · have := ih { s with tempIndex := s.tempIndex + 1 } hb
        simp only [countUserBetsLoop, withStores, hlt, ha, hbs, if_true, if_false]
        exact this
    · simp only [countUserBetsLoop, withStores, hlt, if_false]

theorem setAt_agree {α : Type} (a b : Nat → α) (n k : Nat) (v : α)
    (h : ∀ i, i < n → a i = b i) : ∀ i, i < n → setAt a k v i = setAt b k v i := by
  intro i hi
  simp only [setAt]
  split
  · rfl
  · exact h i hi

theorem creditLoop_userCount (userId fuel : Nat) (s : CONTRACT_STATE) :
    (creditLoop userId fuel s).userCount = s.userCount := by
  induction fuel generalizing s with
  | zero => rfl
  | succ n ih =>
    unfold creditLoop
    split
    · split
      · rfl
      · exact ih _
    · rfl

theorem creditLoop_bets (userId fuel : Nat) (s : CONTRACT_STATE) :
    (creditLoop userId fuel s).bets = s.bets := by
  induction fuel generalizing s with
  | zero => rfl
  | succ n ih =>
    unfold creditLoop
    split
    · split
      · rfl
      · exact ih _
    · rfl

theorem creditLoop_stores (userId fuel : Nat) (s : CONTRACT_STATE) (u : Nat → User)
    (e : Nat → Event) (b : Nat → Bet) (hu : ∀ i, i < s.userCount → u i = s.users i) :
    ∃ u1, creditLoop userId fuel (withStores s u e b) =
        withStores (creditLoop userId fuel s) u1 e b ∧
      (∀ i, i < s.userCount → u1 i = (creditLoop userId fuel s).users i) := by
  induction fuel generalizing s with
  | zero => exact ⟨u, rfl, hu⟩
  | succ n ih =>
    by_cases hlt : s.tempUserId < s.userCount
    · have hus := hu _ hlt
      by_cases hid : (s.users s.tempUserId).id = userId
      · simp only [creditLoop, withStores, hlt, hid, hus, if_true]
        exact ⟨_, rfl, setAt_agree u s.users s.userCount _ _ hu⟩
      · have := ih { s with tempUserId := s.tempUserId + 1 } hu
        simp only [creditLoop, withStores, hlt, hid, hus, if_true, if_false]
        exact this
    · simp only [creditLoop, withStores, hlt, if_false]
      exact ⟨u, rfl, hu⟩

theorem sweepBody_stores (input : ResolveEventInput) (s : CONTRACT_STATE) (u : Nat → User)
    (e : Nat → Event) (b : Nat → Bet) (hlt : s.tempIndex < s.betCount)
    (hu : ∀ i, i < s.userCount → u i = s.users i)
    (hb : ∀ i, i < s.betCount → b i = s.bets i) :
    ∃ u1 b1, sweepBody input (withStores s u e b) =
        withStores (sweepBody input s) u1 e b1 ∧
      (∀ i, i < s.userCount → u1 i = (sweepBody input s).users i) ∧
      (∀ i, i < s.betCount → b1 i = (sweepBody input s).bets i) := by
  have hbs := hb _ hlt
  by_cases hq : (s.bets s.tempIndex).eventId = input.eventId ∧ (s.bets s.tempIndex).isProcessed = 0
  · by_cases hw : (s.bets s.tempIndex).prediction = input.correctAnswer
    · obtain ⟨u1, hc, hu1⟩ := creditLoop_stores (s.bets s.tempIndex).userId s.userCount
        { s with
          tempBet := { s.bets s.tempIndex with isWon := 1 }
          tempCount := (s.tempCount + 1) % 4294967296
          tempAmount := (s.tempAmount + s.winReward) % 4294967296
          tempUserId := 0 } u e b hu
      simp only [withStores, hq, hw] at hc
      simp only [hq, hw] at hu1
      simp only [sweepBody, withStores, hbs, hq, hw, and_self, if_true]
      rw [hc]
      refine ⟨u1, _, rfl, hu1, ?_⟩
      apply setAt_agree
      intro i hi
      rw [creditLoop_bets]
      exact hb i hi
    · simp only [sweepBody, withStores, hbs, hq, hw, and_self, if_true, if_false]
      exact ⟨u, _, rfl, hu, setAt_agree b s.bets s.betCount _ _ hb⟩
  · simp only [sweepBody, withStores, hbs, hq, if_false]
    exact ⟨u, b, rfl, hu, hb⟩

theorem sweepLoop_stores (input : ResolveEventInput) (fuel : Nat) (s : CONTRACT_STATE)
    (u : Nat → User) (e : Nat → Event) (b : Nat → Bet)
    (hu : ∀ i, i < s.userCount → u i = s.users i)
    (hb : ∀ i, i < s.betCount → b i = s.bets i) :
    ∃ u1 b1, sweepLoop input fuel (withStores s u e b) =
        withStores (sweepLoop input fuel s) u1 e b1 ∧
      (∀ i, i < s.userCount → u1 i = (sweepLoop input fuel s).users i) ∧
      (∀ i, i < s.betCount → b1 i = (sweepLoop input fuel s).bets i) := by
  induction fuel generalizing s u b with
  | zero => exact ⟨u, b, rfl, hu, hb⟩
  | succ n ih =>
    by_cases hlt : s.tempIndex < s.betCount
    · have hlt2 : (withStores s u e b).tempIndex < (withStores s u e b).betCount := hlt
      have e1 : sweepLoop input (n + 1) (withStores s u e b) =
          sweepLoop input n { sweepBody input (withStores s u e b) with
            tempIndex := (sweepBody input (withStores s u e b)).tempIndex + 1 } := by
        simp only [sweepLoop]
        exact if_pos hlt2
      have e2 : sweepLoop input (n + 1) s =
          sweepLoop input n { sweepBody input s with
            tempIndex := (sweepBody input s).tempIndex + 1 } := by
        simp only [sweepLoop]
        exact if_pos hlt
      obtain ⟨u1, b1, hsb, hu1, hb1⟩ := sweepBody_stores input s u e b hlt hu hb
      have hf := (sweepBody_spec input s).1
      obtain ⟨u2, b2, hl, hu2, hb2⟩ := ih
        { sweepBody input s with tempIndex := (sweepBody input s).tempIndex + 1 } u1 b1
        (fun i hi => hu1 i (by
          have hi2 : i < (sweepBody input s).userCount := hi
          rw [hf.userCount] at hi2
          exact hi2))
        (fun i hi => hb1 i (by
          have hi2 : i < (sweepBody input s).betCount := hi
          rw [hf.betCount] at hi2
          exact hi2))
      rw [e1, e2, hsb]
      refine ⟨u2, b2, hl, ?_, ?_⟩
      · intro i hi
        exact hu2 i (by
          show i < (sweepBody input s).userCount
          rw [hf.userCount]
          exact hi)
      · intro i hi
        exact hb2 i (by
          show i < (sweepBody input s).betCount
          rw [hf.betCount]
          exact hi)
    · have hlt2 : ¬ (withStores s u e b).tempIndex < (withStores s u e b).betCount := hlt
      have e1 : sweepLoop input (n + 1) (withStores s u e b) = withStores s u e b := by
        simp only [sweepLoop]
        exact if_neg hlt2
      have e2 : sweepLoop input (n + 1) s = s := by
        simp only [sweepLoop]
        exact if_neg hlt
      rw [e1, e2]
      exact ⟨u, b, rfl, hu, hb⟩

/-- The function `PlaceBet` as a chain of guards over the results of its two
searches. -/
theorem PlaceBet_eq (c t : Nat) (input : PlaceBetInput) (s : CONTRACT_STATE)
    (ku : Nat) (u0 : User) (ti1 ke : Nat) (e0 : Event) (ti : Nat)
    (hs1 : findUser input.userId s =
      { s with tempUserId := ku, tempUser := u0, tempIndex := ti1 })
    (hs2 : findEvent input.eventId { s with tempUserId := ku, tempUser := u0, tempIndex := ti1 } =
      { s with tempUserId := ku, tempUser := u0, tempEventId := ke, tempEvent := e0,
               tempIndex := ti }) :
    PlaceBet c t input s =
      if s.contractActive = 0 then (s, { betId := 0, newBalance := 0, success := 0 })
      else if s.betCount ≥ MAX_BETS then (s, { betId := 0, newBalance := 0, success := 0 })
      else if ku = 0 ∧ (s.users 0).id ≠ input.userId then
        ({ s with tempUserId := ku, tempUser := u0, tempIndex := ti1 },
          { betId := 0, newBalance := 0, success := 0 })
      else if u0.balance < input.amount then
        ({ s with tempUserId := ku, tempUser := u0, tempIndex := ti1 },
          { betId := 0, newBalance := 0, success := 0 })
      else if ke = 0 ∧ (s.events 0).id ≠ input.eventId then
        ({ s with tempUserId := ku, tempUser := u0, tempEventId := ke, tempEvent := e0,
                  tempIndex := ti },
          { betId := 0, newBalance := 0, success := 0 })
      else if e0.isActive = 0 ∨ e0.isResolved ≠ 0 then
        ({ s with tempUserId := ku, tempUser := u0, tempEventId := ke, tempEvent := e0,
                  tempIndex := ti },
          { betId := 0, newBalance := 0, success := 0 })
      else
        (placeBetEnd s t input ku u0 ke e0 ti,
          { betId := (s.betCount + 1) % 4294967296
            newBalance := u0.balance - input.amount
            success := 1 }) := by
  unfold PlaceBet
  simp only [hs1, hs2]
  unfold placeBetEnd newBet debited counted
  split_ifs <;> rfl

theorem setAt_agree_new {α : Type} (a b : Nat → α) (n m : Nat) (v : α)
    (h : ∀ i, i < n → a i = b i) (hm : m ≤ n + 1) :
    ∀ i, i < m → setAt a n v i = setAt b n v i := by
  intro i hi
  simp only [setAt]
  split
  · rfl
  · rename_i hne
    exact h i (by omega)

theorem PlaceBet_sameLedger (c t : Nat) (input : PlaceBetInput) (s s2 : CONTRACT_STATE)
    (h : SameLedger s s2) (hU : 1 ≤ s.userCount) (hE : 1 ≤ s.eventCount) :
    SameLedger (PlaceBet c t input s).1 (PlaceBet c t input s2).1 ∧
      (PlaceBet c t input s2).2 = (PlaceBet c t input s).2 := by
  obtain ⟨u, e, b, rfl, hu, he, hb⟩ := h
  obtain ⟨ku, u0, ti1, hs1, -⟩ := findUser_spec input.userId s
  obtain ⟨ke, e0, ti, hs2, -⟩ := findEvent_spec input.eventId
    { s with tempUserId := ku, tempUser := u0, tempIndex := ti1 }
  have hs3 : findEvent input.eventId { s with tempUserId := ku, tempUser := u0, tempIndex := ti1 } =
      { s with tempUserId := ku, tempUser := u0, tempEventId := ke, tempEvent := e0,
               tempIndex := ti } := hs2
  have fu : findUser input.userId (withStores s u e b) =
      { withStores s u e b with tempUserId := ku, tempUser := u0, tempIndex := ti1 } := by
    have h2 : findUser input.userId (withStores s u e b) =
        withStores (findUser input.userId s) u e b :=
      findUserLoop_stores input.userId s.userCount { s with tempUserId := 0, tempIndex := 0 }
        u e b hu
    rw [h2, hs1]
    rfl
  have fe : findEvent input.eventId
      { withStores s u e b with tempUserId := ku, tempUser := u0, tempIndex := ti1 } =
      { withStores s u e b with tempUserId := ku, tempUser := u0, tempEventId := ke,
                                tempEvent := e0, tempIndex := ti } := by
    have h2 : findEvent input.eventId
        { withStores s u e b with tempUserId := ku, tempUser := u0, tempIndex := ti1 } =
        withStores (findEvent input.eventId
          { s with tempUserId := ku, tempUser := u0, tempIndex := ti1 }) u e b :=
      findEventLoop_stores input.eventId s.eventCount
        { s with tempUserId := ku, tempUser := u0, tempIndex := 0, tempEventId := 0 }
        u e b he
    rw [h2, hs3]
    rfl
  have hA := PlaceBet_eq c t input s ku u0 ti1 ke e0 ti hs1 hs3
  have hB := PlaceBet_eq c t input (withStores s u e b) ku u0 ti1 ke e0 ti fu fe
  have r1 : (withStores s u e b).contractActive = s.contractActive := rfl
  have r2 : (withStores s u e b).betCount = s.betCount := rfl
  have r3 : (withStores s u e b).users 0 = s.users 0 := hu 0 hU
  have r4 : (withStores s u e b).events 0 = s.events 0 := he 0 hE
  rw [r1, r2, r3, r4] at hB
  unfold SameLedger
  split_ifs at hA hB <;> rw [hA, hB]
  · exact ⟨⟨_, _, _, rfl, hu, he, hb⟩, rfl⟩
  · exact ⟨⟨_, _, _, rfl, hu, he, hb⟩, rfl⟩
  · exact ⟨⟨_, _, _, rfl, hu, he, hb⟩, rfl⟩
  · exact ⟨⟨_, _, _, rfl, hu, he, hb⟩, rfl⟩
  · exact ⟨⟨_, _, _, rfl, hu, he, hb⟩, rfl⟩
  · exact ⟨⟨_, _, _, rfl, hu, he, hb⟩, rfl⟩
  · exact ⟨⟨_, _, _, rfl, setAt_agree u s.users s.userCount ku _ hu,
      setAt_agree e s.events s.eventCount ke _ he,
      setAt_agree_new b s.bets s.betCount _ _ hb (Nat.mod_le _ _)⟩, rfl⟩

/-- The function `ResolveEvent` as a chain of guards over the result of its
event search. -/
theorem ResolveEvent_eq (c t : Nat) (input : ResolveEventInput) (s : CONTRACT_STATE)
    (ke : Nat) (e0 : Event) (ti : Nat)
    (hs1 : findEvent input.eventId s =
      { s with tempEventId := ke, tempEvent := e0, tempIndex := ti }) :
    ResolveEvent c t input s =
      if s.contractActive = 0 then (s, { winnersCount := 0, totalPayout := 0, success := 0 })
      else if ¬ (c = s.adminId) then
        (s, { winnersCount := 0, totalPayout := 0, success := 0 })
      else if ke = 0 ∧ (s.events 0).id ≠ input.eventId then
        ({ s with tempEventId := ke, tempEvent := e0, tempIndex := ti },
          { winnersCount := 0, totalPayout := 0, success := 0 })
      else if e0.isActive = 0 ∨ e0.isResolved ≠ 0 then
        ({ s with tempEventId := ke, tempEvent := e0, tempIndex := ti },
          { winnersCount := 0, totalPayout := 0, success := 0 })
      else
        (sweepLoop input s.betCount (resolveStart s ke e0 input.correctAnswer),
          { winnersCount :=
              (sweepLoop input s.betCount (resolveStart s ke e0 input.correctAnswer)).tempCount
            totalPayout :=
              (sweepLoop input s.betCount (resolveStart s ke e0 input.correctAnswer)).tempAmount
            success := 1 }) := by
  unfold ResolveEvent
  simp only [hs1]
  unfold resolveStart
  split_ifs <;> rfl

theorem ResolveEvent_sameLedger (c t : Nat) (input : ResolveEventInput)
    (s s2 : CONTRACT_STATE) (h : SameLedger s s2) (hE : 1 ≤ s.eventCount) :
    SameLedger (ResolveEvent c t input s).1 (ResolveEvent c t input s2).1 ∧
      (ResolveEvent c t input s2).2 = (ResolveEvent c t input s).2 := by
  obtain ⟨u, e, b, rfl, hu, he, hb⟩ := h
  obtain ⟨ke, e0, ti, hs1, -⟩ := findEvent_spec input.eventId s
  have fe : findEvent input.eventId (withStores s u e b) =
      { withStores s u e b with tempEventId := ke, tempEvent := e0, tempIndex := ti } := by
    have h2 : findEvent input.eventId (withStores s u e b) =
        withStores (findEvent input.eventId s) u e b :=
      findEventLoop_stores input.eventId s.eventCount { s with tempEventId := 0, tempIndex := 0 }
        u e b he
    rw [h2, hs1]
    rfl
  obtain ⟨u1, b1, hsl, hu1, hb1⟩ := sweepLoop_stores input s.betCount
    (resolveStart s ke e0 input.correctAnswer) u
    (setAt e ke { e0 with isResolved := 1, isActive := 0, correctAnswer := input.correctAnswer })
    b hu hb
  have hsl2 : sweepLoop input (withStores s u e b).betCount
      (resolveStart (withStores s u e b) ke e0 input.correctAnswer) =
      withStores (sweepLoop input s.betCount (resolveStart s ke e0 input.correctAnswer)) u1
        (setAt e ke { e0 with isResolved := 1, isActive := 0,
                              correctAnswer := input.correctAnswer }) b1 := hsl
  have hf := (sweepLoop_spec input s.betCount (resolveStart s ke e0 input.correctAnswer)
    (Nat.zero_add _)).1
  have hA := ResolveEvent_eq c t input s ke e0 ti hs1
  have hB := ResolveEvent_eq c t input (withStores s u e b) ke e0 ti fe
  have r1 : (withStores s u e b).contractActive = s.contractActive := rfl
  have r2 : (withStores s u e b).adminId = s.adminId := rfl
  have r4 : (withStores s u e b).events 0 = s.events 0 := he 0 hE
  rw [hsl2, r1, r2, r4] at hB
  unfold SameLedger
  split_ifs at hA hB <;> rw [hA, hB] <;>
    first
    | exact ⟨⟨_, _, _, rfl, hu, he, hb⟩, rfl⟩
    | skip
  · refine ⟨⟨_, _, _, rfl, ?_, ?_, ?_⟩, rfl⟩
    · intro i hi
      exact hu1 i (by
        show i < (resolveStart s ke e0 input.correctAnswer).userCount
        rw [← hf.userCount]
        exact hi)
    · intro i hi
      have hi2 : i < s.eventCount := by
        have h3 := hf.eventCount
        have h4 : (resolveStart s ke e0 input.correctAnswer).eventCount = s.eventCount := rfl
        rw [h4] at h3
        rw [← h3]
        exact hi
      show setAt e ke _ i = _
      rw [hf.events]
      exact setAt_agree e s.events s.eventCount ke _ he i hi2
    · intro i hi
      exact hb1 i (by
        show i < (resolveStart s ke e0 input.correctAnswer).betCount
        rw [← hf.betCount]
        exact hi)

theorem RegisterUser_sameLedger (c t : Nat) (input : RegisterUserInput)
    (s s2 : CONTRACT_STATE) (h : SameLedger s s2) :
    SameLedger (RegisterUser c t input s).1 (RegisterUser c t input s2).1 ∧
      (RegisterUser c t input s2).2 = (RegisterUser c t input s).2 := by
  obtain ⟨u, e, b, rfl, hu, he, hb⟩ := h
  unfold SameLedger
  by_cases h1 : s.contractActive = 0
  · simp only [RegisterUser, withStores, h1, if_true]
    exact ⟨⟨_, _, _, rfl, hu, he, hb⟩, trivial⟩
  by_cases h2 : s.userCount ≥ MAX_USERS
  · simp only [RegisterUser, withStores, h1, h2, if_true, if_false]
    exact ⟨⟨_, _, _, rfl, hu, he, hb⟩, trivial⟩
  · simp only [RegisterUser, withStores, h1, h2, if_false]
    exact ⟨⟨_, _, _, rfl,
      setAt_agree_new u s.users s.userCount _ _ hu (Nat.mod_le _ _), he, hb⟩, trivial⟩

theorem CreateEvent_sameLedger (c t : Nat) (input : CreateEventInput)
    (s s2 : CONTRACT_STATE) (h : SameLedger s s2) :
    SameLedger (CreateEvent c t input s).1 (CreateEvent c t input s2).1 ∧
      (CreateEvent c t input s2).2 = (CreateEvent c t input s).2 := by
  obtain ⟨u, e, b, rfl, hu, he, hb⟩ := h
  unfold SameLedger
  by_cases h1 : s.contractActive = 0
  · simp only [CreateEvent, withStores, h1, if_true]
    exact ⟨⟨_, _, _, rfl, hu, he, hb⟩, trivial⟩
  by_cases h2 : s.eventCount ≥ MAX_EVENTS
  · simp only [CreateEvent, withStores, h1, h2, if_true, if_false]
    exact ⟨⟨_, _, _, rfl, hu, he, hb⟩, trivial⟩
  by_cases h3 : c = s.adminId
  · simp only [CreateEvent, withStores, h1, h2, h3, if_false, not_true_eq_false]
    exact ⟨⟨_, _, _, rfl, hu,
      setAt_agree_new e s.events s.eventCount _ _ he (Nat.mod_le _ _), hb⟩, trivial⟩
  · simp only [CreateEvent, withStores, h1, h2, h3, if_true, if_false, not_false_eq_true]
    exact ⟨⟨_, _, _, rfl, hu, he, hb⟩, trivial⟩

theorem GetBalance_sameLedger (c t : Nat) (input : GetBalanceInput)
    (s s2 : CONTRACT_STATE) (h : SameLedger s s2) :
    SameLedger (GetBalance c t input s).1 (GetBalance c t input s2).1 ∧
      (GetBalance c t input s2).2 = (GetBalance c t input s).2 := by
  obtain ⟨u, e, b, rfl, hu, he, hb⟩ := h
  have h2 : GetBalance c t input (withStores s u e b) =
      (withStores (GetBalance c t input s).1 u e b, (GetBalance c t input s).2) :=
    getBalanceLoop_stores input.userId s.userCount { s with tempIndex := 0 } u e b hu
  have hf := GetBalance_frame c t input s
  rw [h2]
  refine ⟨⟨u, e, b, rfl, ?_, ?_, ?_⟩, rfl⟩
  · intro i hi
    rw [hf.userCount] at hi
    rw [hf.users]
    exact hu i hi
  · intro i hi
    rw [hf.eventCount] at hi
    rw [hf.events]
    exact he i hi
  · intro i hi
    rw [hf.betCount] at hi
    rw [hf.bets]
    exact hb i hi

theorem GetEvents_sameLedger (c t : Nat) (input : GetEventsInput)
    (s s2 : CONTRACT_STATE) (h : SameLedger s s2) :
    SameLedger (GetEvents c t input s).1 (GetEvents c t input s2).1 ∧
      (GetEvents c t input s2).2 = (GetEvents c t input s).2 := by
  obtain ⟨u, e, b, rfl, hu, he, hb⟩ := h
  have h2 : GetEvents c t input (withStores s u e b) =
      (withStores (GetEvents c t input s).1 u e b, (GetEvents c t input s).2) := by
    have h3 := countActiveLoop_stores s.eventCount { s with tempCount := 0, tempIndex := 0 }
      u e b he
    unfold GetEvents
    simp only []
    have h4 : countActiveLoop (withStores s u e b).eventCount
        { withStores s u e b with tempCount := 0, tempIndex := 0 } =
        withStores (countActiveLoop s.eventCount { s with tempCount := 0, tempIndex := 0 })
          u e b := h3
    rw [h4]
    rfl
  have hf := GetEvents_frame c t input s
  rw [h2]
  refine ⟨⟨u, e, b, rfl, ?_, ?_, ?_⟩, rfl⟩
  · intro i hi
    rw [hf.userCount] at hi
    rw [hf.users]
    exact hu i hi
  · intro i hi
    rw [hf.eventCount] at hi
    rw [hf.events]
    exact he i hi
  · intro i hi
    rw [hf.betCount] at hi
    rw [hf.bets]
    exact hb i hi

theorem GetUserBets_sameLedger (c t : Nat) (input : GetBalanceInput)
    (s s2 : CONTRACT_STATE) (h : SameLedger s s2) :
    SameLedger (GetUserBets c t input s).1 (GetUserBets c t input s2).1 ∧
      (GetUserBets c t input s2).2 = (GetUserBets c t input s).2 := by
  obtain ⟨u, e, b, rfl, hu, he, hb⟩ := h
  have h2 : GetUserBets c t input (withStores s u e b) =
      (withStores (GetUserBets c t input s).1 u e b, (GetUserBets c t input s).2) := by
    have h3 := countUserBetsLoop_stores input.userId s.betCount
      { s with tempCount := 0, tempIndex := 0 } u e b hb
    unfold GetUserBets
    simp only []
    have h4 : countUserBetsLoop input.userId (withStores s u e b).betCount
        { withStores s u e b with tempCount := 0, tempIndex := 0 } =
        withStores (countUserBetsLoop input.userId s.betCount
          { s with tempCount := 0, tempIndex := 0 }) u e b := h3
    rw [h4]
    rfl
  have hf := GetUserBets_frame c t input s
  rw [h2]
  refine ⟨⟨u, e, b, rfl, ?_, ?_, ?_⟩, rfl⟩
  · intro i hi
    rw [hf.userCount] at hi
    rw [hf.users]
    exact hu i hi
  · intro i hi
    rw [hf.eventCount] at hi
    rw [hf.events]
    exact he i hi
  · intro i hi
    rw [hf.betCount] at hi
    rw [hf.bets]
    exact hb i hi

/-- `Initialize` overwrites what it keeps of the stores: whatever the three
stores held, the ledgers it produces are the same. -/
theorem Initialize_stores (c t : Nat) (s : CONTRACT_STATE) (u : Nat → User)
    (e : Nat → Event) (b : Nat → Bet) :
    SameLedger (Initialize c t s) (Initialize c t (withStores s u e b)) := by
  refine ⟨(Initialize c t (withStores s u e b)).users,
    (Initialize c t (withStores s u e b)).events,
    (Initialize c t (withStores s u e b)).bets, rfl, ?_, ?_, ?_⟩
  · intro i hi
    have h1 : (Initialize c t s).userCount = 1 := rfl
    rw [h1] at hi
    have : i = 0 := by omega
    subst this
    rfl
  · intro i hi
    have h1 : (Initialize c t s).eventCount = 4 := rfl
    rw [h1] at hi
    have : i = 0 ∨ i = 1 ∨ i = 2 ∨ i = 3 := by omega
    rcases this with h | h | h | h <;> subst h <;> rfl
  · intro i hi
    have h1 : (Initialize c t s).betCount = 0 := rfl
    rw [h1] at hi
    omega

theorem Initialize_sameLedger (c t : Nat) (s s2 : CONTRACT_STATE) (h : SameLedger s s2) :
    SameLedger (Initialize c t s) (Initialize c t s2) := by
  obtain ⟨u, e, b, rfl, -, -, -⟩ := h
  exact Initialize_stores c t s u e b

theorem Inv_runOp (op : Op) (s : CONTRACT_STATE) (h : Inv s) : Inv (runOp op s) := by
  cases op with
  | init c t => exact Inv_Initialize c t s
  | register c t i => exact Inv_RegisterUser c t i s h
  | create c t i => exact Inv_CreateEvent c t i s h
  | place c t i => exact Inv_PlaceBet c t i s h
  | resolve c t i => exact Inv_ResolveEvent c t i s h
  | balance c t i => exact Inv_of_ledgerEq (GetBalance_frame c t i s) h
  | events c t i => exact Inv_of_ledgerEq (GetEvents_frame c t i s) h
  | userBets c t i => exact Inv_of_ledgerEq (GetUserBets_frame c t i s) h

/-- One call on two ledgers that differ only above the counts: the outputs are
equal and the resulting ledgers differ only above the counts. -/
theorem runOp_sameLedger (op : Op) (s s2 : CONTRACT_STATE) (h : SameLedger s s2)
    (hU : 1 ≤ s.userCount) (hE : 1 ≤ s.eventCount) :
    SameLedger (runOp op s) (runOp op s2) ∧ reply op s2 = reply op s := by
  cases op with
  | init c t => exact ⟨Initialize_sameLedger c t s s2 h, rfl⟩
  | register c t i =>
    have h2 := RegisterUser_sameLedger c t i s s2 h
    exact ⟨h2.1, congrArg Reply.register h2.2⟩
  | create c t i =>
    have h2 := CreateEvent_sameLedger c t i s s2 h
    exact ⟨h2.1, congrArg Reply.create h2.2⟩
  | place c t i =>
    have h2 := PlaceBet_sameLedger c t i s s2 h hU hE
    exact ⟨h2.1, congrArg Reply.place h2.2⟩
  | resolve c t i =>
    have h2 := ResolveEvent_sameLedger c t i s s2 h hE
    exact ⟨h2.1, congrArg Reply.resolve h2.2⟩
  | balance c t i =>
    have h2 := GetBalance_sameLedger c t i s s2 h
    exact ⟨h2.1, congrArg Reply.balance h2.2⟩
  | events c t i =>
    have h2 := GetEvents_sameLedger c t i s s2 h
    exact ⟨h2.1, congrArg Reply.events h2.2⟩
  | userBets c t i =>
    have h2 := GetUserBets_sameLedger c t i s s2 h
    exact ⟨h2.1, congrArg Reply.balance h2.2⟩

theorem runOps_sameLedger (ops : List Op) (s s2 : CONTRACT_STATE) (hinv : Inv s)
    (h : SameLedger s s2) :
    SameLedger (runOps ops s) (runOps ops s2) ∧ replies ops s2 = replies ops s := by
  induction ops generalizing s s2 with
  | nil => exact ⟨h, rfl⟩
  | cons op ops ih =>
    have h1 := runOp_sameLedger op s s2 h hinv.userPos hinv.eventPos
    have h2 := ih (runOp op s) (runOp op s2) (Inv_runOp op s hinv) h1.1
    refine ⟨h2.1, ?_⟩
    show reply op s2 :: replies ops (runOp op s2) = reply op s :: replies ops (runOp op s)
    rw [h1.2, h2.2]

theorem runOps_reachable (ops : List Op) (s : CONTRACT_STATE) (h : Reachable s) :
    Reachable (runOps ops s) := by
  induction ops generalizing s with
  | nil => exact h
  | cons op ops ih => exact ih (runOp op s) (Reachable.step s op h)

/-- C27: `Initialize` has no guard and resets the ledger.  For every memory
content `s` and every caller `c`, after `Initialize` the admin is `c`, the
contract is active, the settings are `100`, `10` and `20`, no bet is stored,
one user is stored (id `1`, balance `100`) and four events are stored (ids
`1` to `4`, open, with zero counters).  What the three stores held before is
not visible to any later call: for any other contents `u`, `e`, `b` of the
stores in the memory `Initialize` starts from and any sequence of calls after
it, every call returns the same output, and the ledgers reached differ only
in slots at or above the counts.  And after `Initialize`, whatever calls
follow, `contractActive` is `1`. -/
theorem Initialize_resets (c t : Nat) (s : CONTRACT_STATE) :
    ((Initialize c t s).adminId = c ∧ (Initialize c t s).contractActive = 1 ∧
      (Initialize c t s).defaultBalance = 100 ∧ (Initialize c t s).betCost = 10 ∧
      (Initialize c t s).winReward = 20 ∧ (Initialize c t s).betCount = 0 ∧
      (Initialize c t s).userCount = 1 ∧ ((Initialize c t s).users 0).id = 1 ∧
      ((Initialize c t s).users 0).balance = 100 ∧
      (Initialize c t s).eventCount = 4 ∧
      OpenEmpty ((Initialize c t s).events 0) 1 ∧ OpenEmpty ((Initialize c t s).events 1) 2 ∧
      OpenEmpty ((Initialize c t s).events 2) 3 ∧ OpenEmpty ((Initialize c t s).events 3) 4) ∧
    (∀ (u : Nat → User) (e : Nat → Event) (b : Nat → Bet) (ops : List Op),
      replies ops (Initialize c t (withStores s u e b)) = replies ops (Initialize c t s) ∧
      SameLedger (runOps ops (Initialize c t s))
        (runOps ops (Initialize c t (withStores s u e b)))) ∧
    (∀ ops : List Op, (runOps ops (Initialize c t s)).contractActive = 1) := by
  refine ⟨⟨rfl, rfl, rfl, rfl, rfl, rfl, rfl, rfl, rfl, rfl,
    ⟨rfl, rfl, rfl, rfl, rfl, rfl⟩, ⟨rfl, rfl, rfl, rfl, rfl, rfl⟩,
    ⟨rfl, rfl, rfl, rfl, rfl, rfl⟩, ⟨rfl, rfl, rfl, rfl, rfl, rfl⟩⟩, ?_, ?_⟩
  · intro u e b ops
    have h := runOps_sameLedger ops (Initialize c t s) (Initialize c t (withStores s u e b))
      (Inv_Initialize c t s) (Initialize_stores c t s u e b)
    exact ⟨h.2, h.1⟩
  · intro ops
    exact (Inv_of_reachable _ (runOps_reachable ops _ (Reachable.init s c t))).active

/-- On the ledger with two stored bets of user `1`, a new `Initialize` by
caller `7` leaves no bet stored and `GetUserBets` for user `1` then counts
`0` bets; the same call sequence gives the same outputs when the stores held
nothing before. -/
theorem Initialize_resets_witness :
    twoBetState.betCount = 2 ∧
    (GetUserBets 3 10 { userId := 1 } twoBetState).2 = { balance := 2, success := 1 } ∧
    (GetUserBets 3 10 { userId := 1 } (Initialize 7 9 twoBetState)).2 =
      { balance := 0, success := 1 } ∧
    replies [Op.userBets 3 10 { userId := 1 }]
        (Initialize 7 9
          (withStores twoBetState zeroState.users zeroState.events zeroState.bets)) =
      replies [Op.userBets 3 10 { userId := 1 }] (Initialize 7 9 twoBetState) :=
  ⟨by decide, by decide, by decide,
    ((Initialize_resets 7 9 twoBetState).2.1 zeroState.users zeroState.events zeroState.bets
      [Op.userBets 3 10 { userId := 1 }]).1⟩

end HM25
